import Mathlib

/-!
# dxvgef/alipay: request signing and notification verification

A shallow embedding of the Go packages `config`, `trade/wap/pay`,
`trade/wap/v2/pay` and `trade/wap/v2/notify`.

* A Go `string` is a sequence of bytes: `Str := List (Fin 256)`; `len` is
  `List.length`, `+` is `++`, comparison is bytewise.
* A Go function with early `return err` is a computation in the monad `Go σ`:
  it maps the state of the receiver to a result (value, returned error or
  run-time panic) together with the receiver's state at that point.
* Functions of the Go standard library that the repository calls are either
  modelled here (`net/url`, `strconv`, `strings`, `sort`) or, when they are
  numeric, cryptographic or reflective (`encoding/json`, `time`, `crypto/*`,
  `encoding/base64`), taken from a record `Lib` of parameters.
-/

namespace Alipay

/-! ## Strings -/

/-- One byte of a Go string. -/
abbrev Byte := Fin 256

/-- A Go string: a finite sequence of bytes. -/
abbrev Str := List Byte

/-- The bytes of an ASCII literal (every literal of the repository that is used
as data is ASCII). -/
def ascii (s : String) : Str := s.toList.map (fun c => Fin.ofNat c.toNat)

/-- Errors: a value made by `errors.New`, an error value returned by a library
call, or a run-time panic. -/
inductive Err where
  | msg : String → Err
  | lib : String → Err
  | panic : String → Err
deriving DecidableEq, Repr

/-- The method `Error()`: the text of an error. -/
def Err.Error : Err → String
  | .msg t => t
  | .lib t => t
  | .panic t => t

deriving instance DecidableEq for Except

/-- The slice expression `s[i:j]` on Go `int` indices; it panics unless
`0 ≤ i ≤ j ≤ len(s)`. -/
def slice (s : Str) (i j : Int) : Except Err Str :=
  if 0 ≤ i ∧ i ≤ j ∧ j ≤ (s.length : Int) then .ok ((s.drop i.toNat).take (j.toNat - i.toNat))
  else .error (.panic "slice bounds out of range")

/-- Go string comparison `a <= b`: bytewise lexicographic. -/
def strLE : Str → Str → Bool
  | [], _ => true
  | _ :: _, [] => false
  | a :: as, b :: bs => if a < b then true else if b < a then false else strLE as bs

/-- The order of `sort.Strings`, as a relation. -/
abbrev StrLE (a b : Str) : Prop := strLE a b = true

/-- The function `strings.Split(s, sep)` for a one-byte separator: the pieces
between the occurrences of `sep`; always at least one piece. -/
def Split (s : Str) (sep : Byte) : List Str :=
  match s with
  | [] => [[]]
  | c :: rest =>
    if c = sep then [] :: Split rest sep
    else
      match Split rest sep with
      | [] => [[c]]
      | p :: ps => (c :: p) :: ps

/-- The function `strings.Join(elems, sep)`. -/
def Join (elems : List Str) (sep : Str) : Str :=
  match elems with
  | [] => []
  | [e] => e
  | e :: es => e ++ sep ++ Join es sep

/-- Insertion of one string into an ascending list. -/
def insertSorted (x : Str) : List Str → List Str
  | [] => [x]
  | y :: ys => if strLE x y then x :: y :: ys else y :: insertSorted x ys

/-- The function `sort.Strings`: the ascending rearrangement of the list (equal
strings are identical, so the result does not depend on the algorithm). -/
def sortStrings : List Str → List Str
  | [] => []
  | x :: xs => insertSorted x (sortStrings xs)

/-! ## net/url -/

/-- The predicate `shouldEscape(c, encodeQueryComponent)` of `net/url`:
letters, digits and `-`, `_`, `.`, `~` are kept, every other byte is escaped. -/
def shouldEscape (c : Byte) : Bool :=
  if (97 ≤ c.val ∧ c.val ≤ 122) ∨ (65 ≤ c.val ∧ c.val ≤ 90) ∨ (48 ≤ c.val ∧ c.val ≤ 57) then false
  else if c = 45 ∨ c = 95 ∨ c = 46 ∨ c = 126 then false
  else true

/-- The table `upperhex` of `net/url`: the digit for a value below 16. -/
def upperhex (n : Nat) : Byte :=
  if n < 10 then Fin.ofNat (48 + n) else Fin.ofNat (55 + n)

/-- The function `url.QueryEscape`: a space becomes `+`, every other byte that
must be escaped becomes `%XX`. -/
def QueryEscape : Str → Str
  | [] => []
  | c :: rest =>
    if c = 32 then 43 :: QueryEscape rest
    else if shouldEscape c then 37 :: upperhex (c.val / 16) :: upperhex (c.val % 16) :: QueryEscape rest
    else c :: QueryEscape rest

/-- The predicate `ishex` of `net/url`. -/
def ishex (c : Byte) : Bool :=
  (48 ≤ c.val ∧ c.val ≤ 57) ∨ (97 ≤ c.val ∧ c.val ≤ 102) ∨ (65 ≤ c.val ∧ c.val ≤ 70)

/-- The function `unhex` of `net/url`. -/
def unhex (c : Byte) : Nat :=
  if 48 ≤ c.val ∧ c.val ≤ 57 then c.val - 48
  else if 97 ≤ c.val ∧ c.val ≤ 102 then c.val - 97 + 10
  else if 65 ≤ c.val ∧ c.val ≤ 70 then c.val - 65 + 10
  else 0

/-- The function `url.QueryUnescape`: `%XX` becomes the byte `XX`, `+` becomes
a space; a `%` that is not followed by two hex digits is an `EscapeError`. -/
def QueryUnescape : Str → Except Err Str
  | [] => .ok []
  | c :: rest =>
    if c = 37 then
      match rest with
      | a :: b :: rest2 =>
        if ishex a ∧ ishex b then
          match QueryUnescape rest2 with
          | .ok t => .ok (Fin.ofNat (unhex a * 16 + unhex b) :: t)
          | .error e => .error e
        else .error (.lib "url.EscapeError")
      | _ => .error (.lib "url.EscapeError")
    else
      match QueryUnescape rest with
      | .ok t => .ok ((if c = 43 then 32 else c) :: t)
      | .error e => .error e

/-- One field as `name=value`, both sides verbatim. -/
def pairText (kv : Str × Str) : Str := kv.1 ++ ascii "=" ++ kv.2

/-- The type `url.Values`, a Go `map[string][]string`, as an association list.
A map has each key once: see `Values.WF`. -/
abbrev Values := List (Str × List Str)

namespace Values

/-- Well-formed association list: no key occurs twice. -/
def WF (v : Values) : Prop := (v.map Prod.fst).Nodup

instance (v : Values) : Decidable (WF v) := by
  unfold WF; infer_instance

/-- The map index expression `v[key]`, `none` when the key is absent. -/
def find (v : Values) (key : Str) : Option (List Str) :=
  match v with
  | [] => none
  | (k, vs) :: rest => if k = key then some vs else find rest key

/-- The method `Values.Get`: the first value of the key, or the empty string. -/
def Get (v : Values) (key : Str) : Str :=
  match find v key with
  | some (x :: _) => x
  | _ => []

/-- The method `Values.Del`: the map without the key. -/
def Del (v : Values) (key : Str) : Values :=
  v.filter (fun e => e.1 ≠ key)

/-- The method `Values.Add`: append the value to the values of the key. -/
def Add (v : Values) (key value : Str) : Values :=
  match v with
  | [] => [(key, [value])]
  | (k, vs) :: rest => if k = key then (k, vs ++ [value]) :: rest else (k, vs) :: Add rest key value

/-- The (name, value) fields of a map in the order of its entries. -/
def pairs (v : Values) : List (Str × Str) :=
  v.flatMap (fun e => e.2.map (fun x => (e.1, x)))

/-- The (name, value) fields of a map in the order `Encode` writes them: keys
ascending, the values of a key in their order. -/
def sortedPairs (v : Values) : List (Str × Str) :=
  (sortStrings (v.map Prod.fst)).flatMap (fun k => ((find v k).getD []).map (fun x => (k, x)))

/-- The text `key=value` segments that `Encode` writes for one key. -/
def encodeKey (v : Values) (k : Str) : List Str :=
  ((find v k).getD []).map (fun x => QueryEscape k ++ [61] ++ QueryEscape x)

/-- The method `Values.Encode`: the keys in ascending order, for each key its
values in order, as `key=value` with both sides escaped, joined by `&`. -/
def Encode (v : Values) : Str :=
  Join ((sortStrings (v.map Prod.fst)).flatMap (encodeKey v)) [38]

end Values

/-! ## strconv -/

/-- The two kinds of `strconv.NumError`. -/
inductive NumError where
  | syntaxErr
  | rangeErr
deriving DecidableEq, Repr

/-- The digit loop of `strconv.ParseUint(s, 10, bitSize)` on 64-bit unsigned
arithmetic: `n` is the value read so far. A byte that is not a decimal digit
is a syntax error with value 0; overflow is a range error with the largest
value, reported as soon as it happens. -/
def parseUintLoop (maxVal : Nat) : Str → Nat → Nat × Option NumError
  | [], n => (n, none)
  | c :: rest, n =>
    if 48 ≤ c.val ∧ c.val ≤ 57 then
      if n ≥ (2 ^ 64 - 1) / 10 + 1 then (maxVal, some .rangeErr)
      else
        let n10 := (n * 10) % 2 ^ 64
        let n1 := (n10 + (c.val - 48)) % 2 ^ 64
        if n1 < n10 ∨ n1 > maxVal then (maxVal, some .rangeErr)
        else parseUintLoop maxVal rest n1
    else (0, some .syntaxErr)

/-- The function `strconv.ParseUint(s, 10, bitSize)` for `1 ≤ bitSize ≤ 64`. -/
def ParseUint (s : Str) (bitSize : Nat) : Nat × Option NumError :=
  if s = [] then (0, some .syntaxErr)
  else parseUintLoop (2 ^ bitSize - 1) s 0

/-- The function `strconv.ParseInt(s, 10, bitSize)` for `1 ≤ bitSize ≤ 64`: an
optional sign, then `ParseUint`; a value out of range is clamped and reported
as a range error. -/
def ParseInt (s : Str) (bitSize : Nat) : Int × Option NumError :=
  match s with
  | [] => (0, some .syntaxErr)
  | c :: rest =>
    let neg : Bool := c = 45
    let s1 : Str := if c = 43 ∨ c = 45 then rest else s
    let (un, err) := ParseUint s1 bitSize
    if err = some .syntaxErr then (0, err)
    else
      let cutoff : Nat := 2 ^ (bitSize - 1)
      if neg = false ∧ un ≥ cutoff then ((cutoff : Int) - 1, some .rangeErr)
      else if neg = true ∧ un > cutoff then (-(cutoff : Int), some .rangeErr)
      else (if neg then -(un : Int) else (un : Int), none)

/-! ## IEEE 754 single precision, as bit patterns -/

/-- A Go `float32`, by its 32 bits (sign, 8 exponent bits, 23 fraction bits). -/
abbrev F32 := Fin 4294967296

/-- A Go `float64`, by its 64 bits. -/
abbrev F64 := Fin 18446744073709551616

namespace F32

/-- Not-a-number: exponent all ones and a non-zero fraction. -/
def isNaN (x : F32) : Bool := (x.val / 2 ^ 23) % 256 = 255 ∧ x.val % 2 ^ 23 ≠ 0

/-- An integer that orders the non-NaN values as the reals they denote: the
magnitude bits, negated when the sign bit is set (so `-0` and `+0` coincide). -/
def key (x : F32) : Int := if x.val < 2 ^ 31 then (x.val : Int) else -((x.val - 2 ^ 31 : Nat) : Int)

/-- The comparison `a < b` of two `float32` values; false when either is NaN. -/
def lt (a b : F32) : Bool := !a.isNaN && !b.isNaN && decide (a.key < b.key)

/-- The constant `0.01` converted to `float32` (0x3C23D70A). -/
def c001 : F32 := 1008981770

/-- The constant `100000000` converted to `float32` (0x4CBEBC20). -/
def c1e8 : F32 := 1287568416

end F32

/-! ## The RSA operations the program performs -/

/-- The two values of `crypto.Hash` the repository uses. -/
inductive HashAlg where
  | SHA1
  | SHA256
deriving DecidableEq, Repr

/-- The type `rsa.PublicKey`. -/
structure PublicKey where
  N : Nat
  E : Nat
deriving DecidableEq, Repr

/-- The type `rsa.PrivateKey`. -/
structure PrivateKey where
  pub : PublicKey
  D : Nat
  Primes : List Nat
deriving DecidableEq, Repr

/-- One call of `rsa.SignPKCS1v15` or `rsa.VerifyPKCS1v15`, with the hash
identifier and the digest (and signature) it was given. -/
inductive RsaOp where
  | sign (hType : HashAlg) (digest : Str)
  | verify (hType : HashAlg) (digest sig : Str)
deriving DecidableEq, Repr

/-! ## The monad of Go method bodies -/

/-- What a call leaves behind: the value it returned (or the error it returned,
or its panic), the state of the receiver at that point, and the RSA operations
it performed, in order. -/
structure Outcome (σ α : Type) where
  result : Except Err α
  state : σ
  rsaOps : List RsaOp

/-- A Go function or method body over a mutable receiver (or argument) of
type `σ`. -/
def Go (σ α : Type) : Type := σ → Outcome σ α

namespace Go

/-- Normal completion with a value. -/
def ret {σ α : Type} (a : α) : Go σ α := fun s => ⟨.ok a, s, []⟩

/-- Sequencing: an error or panic of the first part ends the computation. -/
def seq {σ α β : Type} (m : Go σ α) (f : α → Go σ β) : Go σ β := fun s =>
  match (m s).result with
  | .ok a =>
    ⟨(f a (m s).state).result, (f a (m s).state).state, (m s).rsaOps ++ (f a (m s).state).rsaOps⟩
  | .error e => ⟨.error e, (m s).state, (m s).rsaOps⟩

instance {σ : Type} : Monad (Go σ) where
  pure := ret
  bind := seq

/-- The statement `return err` (also: a panic). -/
def fail {σ α : Type} (e : Err) : Go σ α := fun s => ⟨.error e, s, []⟩

/-- The statement `if c { return err }`. -/
def failIf {σ : Type} (c : Prop) [Decidable c] (e : Err) : Go σ Unit :=
  if c then fail e else ret ()

/-- The statement `if c { body }`. -/
def when {σ : Type} (c : Prop) [Decidable c] (body : Go σ Unit) : Go σ Unit :=
  if c then body else ret ()

/-- Read the receiver. -/
def get {σ : Type} : Go σ σ := fun s => ⟨.ok s, s, []⟩

/-- Assign to the receiver. -/
def set {σ : Type} (s : σ) : Go σ Unit := fun _ => ⟨.ok (), s, []⟩

/-- Use the result of a call that has no effect on the receiver. -/
def lift {σ α : Type} (x : Except Err α) : Go σ α := fun s => ⟨x, s, []⟩

/-- Record that an RSA operation is performed. -/
def rsa {σ : Type} (op : RsaOp) : Go σ Unit := fun s => ⟨.ok (), s, [op]⟩

/-- A call `v, err = f()` of a function that returns `zero, err` on every error
path: the pair it returns becomes a value; a panic stays a panic. -/
def pair {σ α : Type} (zero : α) (m : Go σ α) : Go σ (α × Option Err) := fun s =>
  match (m s).result with
  | .ok a => ⟨.ok (a, none), (m s).state, (m s).rsaOps⟩
  | .error (.panic p) => ⟨.error (.panic p), (m s).state, (m s).rsaOps⟩
  | .error e => ⟨.ok (zero, some e), (m s).state, (m s).rsaOps⟩

/-- A call whose mutable argument is a part `τ` of the caller's state `σ`. -/
def onPart {σ τ α : Type} (getPart : σ → τ) (setPart : σ → τ → σ) (m : Go τ α) : Go σ α := fun s =>
  ⟨(m (getPart s)).result, setPart s (m (getPart s)).state, (m (getPart s)).rsaOps⟩

end Go

/-- The property `I` of the receiver, once true, stays true across `m`, whether
`m` returns a value or an error. -/
def Go.Inv {σ α : Type} (I : σ → Prop) (m : Go σ α) : Prop := ∀ s, I s → I (m s).state

/-! ## Package config -/

namespace config

/-- The struct `Config`; a nil key pointer is `none`. -/
structure Config where
  appID : Str
  alipayRootCertSN : Str
  alipayPublicKey : Option PublicKey
  appPublicKey : Option PublicKey
  appCertPublicKeySN : Str
  appPrivateKey : Option PrivateKey
  appPrivateKeyType : Str
  appSignType : Str
deriving DecidableEq, Repr

/-- The zero value of `Config`. -/
def Config.zero : Config := ⟨[], [], none, none, [], none, [], []⟩

/-- The method `SetAppID`. -/
def Config.SetAppID (value : Str) : Go Config Unit := do
  Go.failIf (value = []) (.msg "AppID不能为空")
  let obj ← Go.get
  Go.set { obj with appID := value }

/-- The method `SetAppSignType`. -/
def Config.SetAppSignType (value : Str) : Go Config Unit := do
  Go.failIf (value ≠ ascii "RSA" ∧ value ≠ ascii "RSA2") (.msg "签名类型必须是RSA或RSA2(推荐)")
  let obj ← Go.get
  Go.set { obj with appSignType := value }

/-- The method `GetAlipayRootCertSN`. -/
def Config.GetAlipayRootCertSN (obj : Config) : Str := obj.alipayRootCertSN

/-- The method `GetAppCertPublicKeySN`. -/
def Config.GetAppCertPublicKeySN (obj : Config) : Str := obj.appCertPublicKeySN

/-- The method `GetAppSignType`. -/
def Config.GetAppSignType (obj : Config) : Str := obj.appSignType

/-- The method `GetAlipayPublicKey`. -/
def Config.GetAlipayPublicKey (obj : Config) : Option PublicKey := obj.alipayPublicKey

/-- The method `GetAppPrivateKey`. -/
def Config.GetAppPrivateKey (obj : Config) : Option PrivateKey := obj.appPrivateKey

/-- The method `GetAppPrivateKeyType`. -/
def Config.GetAppPrivateKeyType (obj : Config) : Str := obj.appPrivateKeyType

/-- The method `GetAppID`. -/
def Config.GetAppID (obj : Config) : Str := obj.appID

end config

/-- A method call through a `*config.Config` that may be nil: the getters read
a field of the receiver, so a nil receiver panics. -/
def deref {σ : Type} (c : Option config.Config) : Go σ config.Config :=
  match c with
  | some cfg => Go.ret cfg
  | none => Go.fail (.panic "nil pointer dereference")

/-! ## Package pay: data -/

namespace pay

/-- The constant `APIURL`. -/
def APIURL : Str := ascii "https://openapi.alipay.com/gateway.do"

/-- The struct `ExtendParams`. -/
structure ExtendParams where
  HbFqNum : Str
  HbFqSellerPercent : Str
  NeedBuyerRealnamed : Str
  SysServiceProviderID : Str
  TransMemo : Str
deriving DecidableEq, Repr

/-- The struct `ExtUserInfo`. -/
structure ExtUserInfo where
  CertNo : Str
  CertType : Str
  MinAge : Str
  Mobile : Str
  Name : Str
  NeedCheckInfo : Str
  FixBuyer : Str
deriving DecidableEq, Repr

/-- The struct `BizContent`; a nil pointer field is `none`. -/
structure BizContent where
  AuthToken : Str
  Body : Str
  BusinessParams : Str
  DisablePayChannels : Str
  EnablePayChannels : Str
  ExtendParams : Option ExtendParams
  ExtUserInfo : Option ExtUserInfo
  GoodsType : Str
  MerchantOrderNo : Str
  OutTradeNo : Str
  PassbackParams : Str
  ProductCode : Str
  PromoParams : Str
  QuitURL : Str
  SpecifiedChannel : Str
  StoreID : Str
  Subject : Str
  TimeExpire : Str
  TimeoutExpress : Str
  TotalAmount : F32
deriving DecidableEq, Repr

/-- The zero value of `BizContent`. -/
def BizContent.zero : BizContent :=
  ⟨[], [], [], [], [], none, none, [], [], [], [], [], [], [], [], [], [], [], [], 0⟩

/-- The struct `Params` (public request parameters). A nil `alipayConfig`,
`BizContent` or `urlValues` is `none`. -/
structure Params where
  alipayConfig : Option config.Config
  AppCertSN : Str
  AlipayRootCertSN : Str
  AppID : Str
  Method : Str
  Format : Str
  ReturnURL : Str
  Charset : Str
  SignType : Str
  Timestamp : Str
  Version : Str
  NotifyURL : Str
  AppAuthToken : Str
  BizContent : Option BizContent
  sign : Str
  paramsStr : Str
  urlValues : Option Values
deriving DecidableEq, Repr

/-- The zero value of `Params`. -/
def Params.zero : Params :=
  ⟨none, [], [], [], [], [], [], [], [], [], [], [], [], none, [], [], none⟩

end pay

/-! ## Package notify: data -/

namespace notify

/-- The struct `FundBillList`. -/
structure FundBillList where
  FundChannel : Str
  Amount : Str
deriving DecidableEq, Repr

/-- The struct `VoucherDetailList` (`Typ` is the field `Type`). -/
structure VoucherDetailList where
  Name : Str
  Typ : Str
  Amount : F64
  MerchantContribute : F64
  OtherContribute : F64
  Memo : Str
deriving DecidableEq, Repr

/-- The struct `Params` (parsed notification). -/
structure Params where
  NotifyTime : Str
  NotifyType : Str
  NotifyID : Str
  AppID : Str
  Charset : Str
  Version : Str
  SignType : Str
  Sign : Str
  TradeNo : Str
  OutTradeNo : Str
  OutBizNo : Str
  BuyerID : Str
  BuyerLogonID : Str
  SellerID : Str
  SellerEmail : Str
  TradeStatus : Str
  TotalAmount : F64
  ReceiptAmount : F64
  InvoiceAmount : F64
  BuyerPayAmount : F64
  PointAmount : F64
  RefundFee : F64
  Subject : Str
  Body : Str
  GmtCreate : Str
  GmtPayment : Str
  GmtRefund : Str
  GmtClose : Str
  FundBillList : List FundBillList
  PassbackParams : Str
  VoucherDetailList : List VoucherDetailList
deriving DecidableEq, Repr

/-- The zero value of `Params`. -/
def Params.zero : Params :=
  ⟨[], [], [], [], [], [], [], [], [], [], [], [], [], [], [], [], 0, 0, 0, 0, 0, 0,
    [], [], [], [], [], [], [], [], []⟩

/-- An `*http.Request` once `ParseForm` has run on it: the error `ParseForm`
returns, and the `PostForm` map it has filled in. -/
structure Request where
  parseFormErr : Option Err
  PostForm : Values
deriving DecidableEq, Repr

end notify

/-! ## Standard-library functions taken as parameters -/

/-- The calls into `encoding/json`, `time`, `strconv.ParseFloat`, `crypto/sha1`,
`crypto/sha256`, `crypto/rsa` and `encoding/base64`. Nothing is assumed of
them here; a theorem that needs a property of one of them states it. -/
structure Lib where
  /-- The call `json.Marshal` on a `*BizContent`. -/
  jsonMarshal : Option pay.BizContent → Except Err Str
  /-- Whether `json.Unmarshal(data, &raw)` into a `json.RawMessage` succeeds. -/
  jsonValid : Str → Bool
  /-- Whether `time.Parse("2006-01-02 15:04:05", value)` succeeds. -/
  timeParse : Str → Bool
  /-- The call `strconv.ParseFloat(s, 64)`. -/
  parseFloat : Str → Except Err F64
  /-- The call `json.Unmarshal` into a `[]FundBillList`, applied to the previous value. -/
  unmarshalFundBillList : Str → List notify.FundBillList → Except Err (List notify.FundBillList)
  /-- The call `json.Unmarshal` into a `[]VoucherDetailList`. -/
  unmarshalVoucherDetailList : Str → List notify.VoucherDetailList →
    Except Err (List notify.VoucherDetailList)
  /-- The SHA-1 digest of a message. -/
  sha1 : Str → Str
  /-- The SHA-256 digest of a message. -/
  sha256 : Str → Str
  /-- The call `rsa.SignPKCS1v15` on a non-nil key. -/
  SignPKCS1v15 : PrivateKey → HashAlg → Str → Except Err Str
  /-- The call `rsa.VerifyPKCS1v15` on a non-nil key: `none` when the signature is valid. -/
  VerifyPKCS1v15 : PublicKey → HashAlg → Str → Str → Option Err
  /-- The call `base64.StdEncoding.EncodeToString`. -/
  base64Encode : Str → Str
  /-- The call `base64.StdEncoding.DecodeString`. -/
  base64Decode : Str → Except Err Str

/-! ## Package pay: validation -/

namespace pay

/-- The dereference `r.BizContent` for a field access; a nil pointer panics. -/
def biz : Go Params BizContent := fun r =>
  match r.BizContent with
  | some b => Go.ret b r
  | none => Go.fail (.panic "nil pointer dereference") r

/-- The function `checkDuration`. -/
def checkDuration (value : Str) : Except Err Bool :=
  match slice value ((value.length : Int) - 1) value.length with
  | .error e => .error e
  | .ok unit =>
    if unit ≠ ascii "d" ∧ unit ≠ ascii "m" ∧ unit ≠ ascii "h" ∧ unit ≠ ascii "c" then .ok false
    else
      match slice value 0 ((value.length : Int) - 1) with
      | .error e => .error e
      | .ok v => .ok (decide ((ParseUint v 32).1 = 0))

/-- The method `checkParams`. -/
def checkParams (lib : Lib) : Go Params Unit := do
  let r ← Go.get
  Go.failIf (r.AppID = []) (.msg "AppID参数未赋值")
  let appID := (ParseInt r.AppID 64).1
  Go.failIf (appID = 0) (.msg "AppID参数值只能是数字")
  Go.failIf (r.Format ≠ [] ∧ r.Format ≠ ascii "JSON") (.msg "Format参数值只能是JSON")
  Go.when (r.ReturnURL ≠ []) (do
    let returnUrlLen := r.ReturnURL.length
    Go.failIf (returnUrlLen < 8) (.msg "ReturnURL参数值必须是http://或https://开头")
    Go.failIf (returnUrlLen > 256) (.msg "ReturnURL参数值长度不能大于256")
    let p7 ← Go.lift (slice r.ReturnURL 0 7)
    Go.when (p7 ≠ ascii "http://") (do
      let p8 ← Go.lift (slice r.ReturnURL 0 8)
      Go.failIf (p8 ≠ ascii "https://") (.msg "ReturnURL参数值必须是http://或https://开头")))
  Go.when (r.Method = []) (Go.set { r with Method := ascii "alipay.trade.wap.pay" })
  let r ← Go.get
  Go.failIf (r.Charset = []) (.msg "Charset参数未赋值")
  Go.failIf (r.Charset.length > 10) (.msg "Charset参数值的长度不能大于10")
  Go.failIf (r.SignType ≠ ascii "RSA" ∧ r.SignType ≠ ascii "RSA2")
    (.msg "SignType参数值必须是RSA或RSA2")
  Go.failIf (lib.timeParse r.Timestamp = false) (.msg "Timestamp的参数值格式不正确")
  Go.failIf (r.Version ≠ ascii "1" ∧ r.Version ≠ ascii "1.0")
    (.msg "Version的参数值必须是1或者1.0")
  Go.when (r.NotifyURL ≠ []) (do
    let notifyUrlLen := r.NotifyURL.length
    Go.failIf (notifyUrlLen < 8) (.msg "NotifyURL参数值必须是http://或https://开头")
    Go.failIf (notifyUrlLen > 256) (.msg "NotifyURL参数值长度不能大于256")
    let p7 ← Go.lift (slice r.NotifyURL 0 7)
    Go.when (p7 ≠ ascii "http://") (do
      let p8 ← Go.lift (slice r.NotifyURL 0 8)
      Go.failIf (p8 ≠ ascii "https://") (.msg "NotifyURL参数值必须是http://或https://开头")))

/-- The method `checkBizContent`. -/
def checkBizContent (lib : Lib) : Go Params Unit := do
  let r ← Go.get
  Go.when (r.BizContent = none)
    (Go.set { r with BizContent := some { BizContent.zero with ProductCode := ascii "QUICK_WAP_WAY" } })
  let b ← biz
  Go.failIf (b.Body.length > 128) (.msg "BizContent.Body参数值的长度不能大于128")
  Go.failIf (b.Subject = []) (.msg "BizContent.Subject参数未赋值")
  Go.failIf (b.Subject.length > 256) (.msg "BizContent.Subject参数值的长度不能大于256")
  Go.failIf (b.OutTradeNo = []) (.msg "BizContent.OutTradeNo参数未赋值")
  Go.failIf (b.OutTradeNo.length > 64) (.msg "BizContent.OutTradeNo参数值的长度不能大于64")
  Go.when (b.TimeoutExpress ≠ []) (do
    let ok ← Go.lift (checkDuration b.TimeoutExpress)
    Go.failIf (ok = false) (.msg "BizContent.TimeoutExpress参数值值的格式不正确"))
  Go.when (b.TimeExpire ≠ [])
    (Go.failIf (lib.timeParse b.TimeExpire = false) (.msg "BizContent.TimeExpire的参数值格式不正确"))
  Go.failIf (F32.lt b.TotalAmount F32.c001 = true ∨ F32.lt F32.c1e8 b.TotalAmount = true)
    (.msg "BizContent.TotalAmount参数值的范围必须是0.01-100000000")
  Go.failIf (b.ProductCode ≠ ascii "QUICK_WAP_WAY")
    (.msg "BizContent.ProductCod参数值的范围必须是QUICK_WAP_WAY")
  Go.failIf (b.GoodsType ≠ ascii "0" ∧ b.GoodsType ≠ ascii "1")
    (.msg "BizContent.GoodsType参数值只能是0或1")
  Go.failIf (b.PassbackParams.length > 512) (.msg "BizContent.PassbackParams参数值的长度不能大于512")
  Go.when (b.PromoParams ≠ []) (do
    Go.failIf (b.PromoParams.length > 512) (.msg "BizContent.PromoParams参数值的长度不能大于512")
    Go.failIf (lib.jsonValid b.PromoParams = false)
      (.msg "BizContent.PromoParams参数值必须是有效的JSON格式")
    let r ← Go.get
    Go.set { r with BizContent := some { b with PassbackParams := QueryEscape b.PassbackParams } })
  Go.failIf (b.EnablePayChannels ≠ [] ∧ b.DisablePayChannels ≠ [])
    (.msg "BizContent.EnablePayChannels与BizContent.DisablePayChannels参数互斥，只能使用其中一个")
  Go.when (b.EnablePayChannels ≠ [])
    (Go.failIf (b.EnablePayChannels.length > 128)
      (.msg "BizContent.EnablePayChannels参数值的长度不能大于128"))
  Go.when (b.DisablePayChannels ≠ [])
    (Go.failIf (b.DisablePayChannels.length > 128)
      (.msg "BizContent.DisablePayChannels参数值的长度不能大于128"))
  Go.when (b.QuitURL ≠ [])
    (Go.failIf (b.QuitURL.length > 400) (.msg "BizContent.QuitURL参数值的长度不能大于400"))

/-- The method `checkExtendParams`. -/
def checkExtendParams : Go Params Unit := do
  let b ← biz
  match b.ExtendParams with
  | none => Go.ret ()
  | some e => do
    Go.when (e.SysServiceProviderID ≠ [])
      (Go.failIf (e.SysServiceProviderID.length > 64)
        (.msg "BizContent.ExtendParams.SysServiceProviderID参数值的长度不能大于64"))
    Go.when (e.NeedBuyerRealnamed ≠ [])
      (Go.failIf (e.NeedBuyerRealnamed ≠ ascii "T" ∧ e.NeedBuyerRealnamed ≠ ascii "F")
        (.msg "BizContent.ExtendParams.NeedBuyerRealnamed参数值只能是T或F"))
    Go.when (e.TransMemo ≠ [])
      (Go.failIf (e.TransMemo.length > 128)
        (.msg "BizContent.ExtendParams.TransMemo参数值的长度不能大于128"))
    Go.when (e.HbFqNum ≠ [])
      (Go.failIf (e.HbFqNum ≠ ascii "3" ∧ e.HbFqNum ≠ ascii "6" ∧ e.HbFqNum ≠ ascii "12")
        (.msg "BizContent.ExtendParams.HbFqNum参数值只能是3、6、12"))
    Go.when (e.HbFqSellerPercent ≠ [])
      (Go.failIf (e.HbFqSellerPercent ≠ ascii "100" ∧ e.HbFqSellerPercent ≠ ascii "0")
        (.msg "BizContent.ExtendParams.HbFqSellerPercent参数值只能是0或199"))

/-- The method `checkExtendUserInfo`. -/
def checkExtendUserInfo : Go Params Unit := do
  let b ← biz
  match b.ExtUserInfo with
  | none => Go.ret ()
  | some u => do
    Go.failIf (u.NeedCheckInfo ≠ [] ∧ u.NeedCheckInfo ≠ ascii "T" ∧ u.NeedCheckInfo ≠ ascii "F")
      (.msg "BizContent.ExtUserInfo.NeedCheckInfo参数值只能是T或F")
    Go.when (u.Name ≠ [] ∧ u.NeedCheckInfo = ascii "T")
      (Go.failIf (u.Name.length > 16) (.msg "BizContent.ExtendUserInfo.Name参数值的长度不能大于16"))
    Go.when (u.CertType ≠ [] ∧ u.NeedCheckInfo = ascii "T")
      (Go.failIf (u.CertType.length > 32)
        (.msg "BizContent.ExtendUserInfo.CertType参数值的长度不能大于32"))
    Go.when (u.CertNo ≠ [] ∧ u.NeedCheckInfo = ascii "T")
      (Go.failIf (u.CertNo.length > 64) (.msg "BizContent.ExtendUserInfo.CertNo参数值的长度不能大于64"))
    Go.when (u.MinAge ≠ [] ∧ u.NeedCheckInfo = ascii "T") (do
      let parsed := ParseUint u.MinAge 32
      Go.failIf (parsed.2 ≠ none) (.msg "BizContent.ExtendUserInfo.MinAge参数值必须是大于或等于0的整数")
      Go.failIf (parsed.1 = 0) (.msg "BizContent.ExtendUserInfo.MinAge参数值必须是大于或等于0的整数"))
    Go.when (u.FixBuyer ≠ [])
      (Go.failIf (u.FixBuyer ≠ ascii "T" ∧ u.FixBuyer ≠ ascii "F")
        (.msg "BizContent.ExtUserInfo.FixBuyer参数值只能是T或F"))

/-! ## Package pay: canonical string and signature -/

/-- The method `buildParamsStr`. -/
def buildParamsStr (lib : Lib) : Go Params Unit := do
  let r ← Go.get
  Go.set { r with urlValues := some [] }
  match lib.jsonMarshal r.BizContent with
  | .error err => Go.fail (.msg ("biz_content参数值序列化成JSON时失败：" ++ err.Error))
  | .ok bizContentStr =>
    let uv : Values := []
    let uv := uv.Add (ascii "alipay_root_cert_sn") r.AlipayRootCertSN
    let uv := uv.Add (ascii "app_cert_sn") r.AppCertSN
    let uv := uv.Add (ascii "app_id") r.AppID
    let uv := uv.Add (ascii "biz_content") bizContentStr
    let uv := uv.Add (ascii "charset") r.Charset
    let s := ascii "alipay_root_cert_sn=" ++ r.AlipayRootCertSN ++ ascii "&app_cert_sn="
      ++ r.AppCertSN ++ ascii "&app_id=" ++ r.AppID ++ ascii "&biz_content=" ++ bizContentStr
      ++ ascii "&charset=" ++ r.Charset
    let uv := if r.Format ≠ [] then uv.Add (ascii "format") r.Format else uv
    let s := if r.Format ≠ [] then s ++ (ascii "&format=" ++ r.Format) else s
    let s := s ++ (ascii "&method=" ++ r.Method)
    let uv := uv.Add (ascii "method") r.Method
    let uv := if r.NotifyURL ≠ [] then uv.Add (ascii "notify_url") r.NotifyURL else uv
    let s := if r.NotifyURL ≠ [] then s ++ (ascii "&notify_url=" ++ r.NotifyURL) else s
    let uv := if r.ReturnURL ≠ [] then uv.Add (ascii "return_url") r.ReturnURL else uv
    let s := if r.ReturnURL ≠ [] then s ++ (ascii "&return_url=" ++ r.ReturnURL) else s
    let uv := uv.Add (ascii "sign_type") r.SignType
    let uv := uv.Add (ascii "timestamp") r.Timestamp
    let uv := uv.Add (ascii "version") r.Version
    let s := s ++ (ascii "&sign_type=" ++ r.SignType ++ ascii "&timestamp=" ++ r.Timestamp
      ++ ascii "&version=" ++ r.Version)
    Go.set { r with urlValues := some uv, paramsStr := s }

/-- The method `makeSign`. -/
def makeSign (lib : Lib) : Go Params Str := do
  let self ← Go.get
  Go.failIf (self.paramsStr = []) (.msg "签名参数未构建")
  let cfg ← deref self.alipayConfig
  let (h, hType) ←
    (if cfg.GetAppSignType = ascii "RSA" then Go.ret (lib.sha1, HashAlg.SHA1)
     else if cfg.GetAppSignType = ascii "RSA2" then Go.ret (lib.sha256, HashAlg.SHA256)
     else Go.fail (.msg "仅支持RSA(SHA1)和RSA2(SHA256)两种签名算法"))
  let bytes := h self.paramsStr
  Go.rsa (.sign hType bytes)
  match cfg.GetAppPrivateKey with
  | none => Go.fail (.panic "nil pointer dereference")
  | some key =>
    match lib.SignPKCS1v15 key hType bytes with
    | .error err => Go.fail err
    | .ok signBytes => Go.ret (lib.base64Encode signBytes)

/-- The method `SignByCert`. -/
def SignByCert (lib : Lib) : Go Params Unit := do
  checkParams lib
  checkBizContent lib
  checkExtendParams
  checkExtendUserInfo
  let self ← Go.get
  Go.failIf (self.AppCertSN = []) (.msg "无法获取配置中的应用公钥SN")
  Go.failIf (self.AlipayRootCertSN = []) (.msg "无法获取配置中的支付宝根证书SN")
  buildParamsStr lib
  let made ← Go.pair [] (makeSign lib)
  let self ← Go.get
  Go.set { self with sign := made.1 }
  match made.2 with
  | some err => Go.fail err
  | none => Go.ret ()

/-- The function `New`; `now` is `time.Now().Format("2006-01-02 15:04:05")`. -/
def New (now : Str) (alipayConfig : Option config.Config) : Except Err Params :=
  match alipayConfig with
  | none => .error (.panic "nil pointer dereference")
  | some cfg =>
    if cfg.GetAppID = [] then .error (.msg "未设置支付宝配置的AppID参数值")
    else if cfg.GetAppSignType = [] then .error (.msg "未设置支付宝配置的AppSignType参数值")
    else if cfg.GetAppCertPublicKeySN = [] then .error (.msg "未设置支付宝配置的应用证书")
    else if cfg.GetAlipayRootCertSN = [] then .error (.msg "未设置支付宝配置的根证书")
    else .ok
      { Params.zero with
        alipayConfig := alipayConfig
        AppID := cfg.GetAppID
        Method := ascii "alipay.trade.wap.pay"
        Charset := ascii "utf-8"
        SignType := cfg.GetAppSignType
        Timestamp := now
        Version := ascii "1.0"
        AppCertSN := cfg.GetAppCertPublicKeySN
        AlipayRootCertSN := cfg.GetAlipayRootCertSN
        BizContent := some { BizContent.zero with ProductCode := ascii "QUICK_WAP_WAY" } }

/-- The method `GetParamsStr`. -/
def GetParamsStr (r : Params) : Str := r.paramsStr

/-- The method `GetURL`; writing to a nil `urlValues` map panics. -/
def GetURL : Go Params Str := do
  let r ← Go.get
  match r.urlValues with
  | none => Go.fail (.panic "assignment to entry in nil map")
  | some uv =>
    let uv := uv.Add (ascii "sign") r.sign
    Go.set { r with urlValues := some uv }
    Go.ret (APIURL ++ ascii "?" ++ uv.Encode)

end pay

/-! ## Package notify -/

namespace notify

/-- The method `req.PostFormValue` after `ParseForm`: the first value of the key
in `PostForm`, or the empty string. -/
def Request.PostFormValue (req : Request) (key : Str) : Str := req.PostForm.Get key

/-- The map `url.ParseQuery` builds from the decoded fields of a form body, in
the order received: each value is appended to the values of its key. -/
def formOfFields (fields : List (Str × Str)) : Values :=
  fields.foldl (fun m f => m.Add f.1 f.2) []

/-- A float field of `parseNotifyParams`: parsed when the form value is not
empty, otherwise left at zero. -/
def floatField (lib : Lib) (req : Request) (key : String) : Except Err F64 :=
  if req.PostFormValue (ascii key) ≠ [] then lib.parseFloat (req.PostFormValue (ascii key))
  else .ok 0

/-- The function `parseNotifyParams`. -/
def parseNotifyParams (lib : Lib) (req : Request) : Except Err Params := do
  let totalAmount ← floatField lib req "total_amount"
  let receiptAmount ← floatField lib req "receipt_amount"
  let invoiceAmount ← floatField lib req "invoice_amount"
  let buyerPayAmount ← floatField lib req "buyer_pay_amount"
  let pointAmount ← floatField lib req "point_amount"
  let refundFee ← floatField lib req "refund_fee"
  let fundBillList ←
    if req.PostFormValue (ascii "fund_bill_list") ≠ [] then
      lib.unmarshalFundBillList (req.PostFormValue (ascii "fund_bill_list")) []
    else .ok []
  let passbackParams ←
    if req.PostFormValue (ascii "passback_params") ≠ [] then
      QueryUnescape (req.PostFormValue (ascii "passback_params"))
    else .ok []
  let voucherDetailList ←
    if req.PostFormValue (ascii "voucher_detail_list") ≠ [] then
      lib.unmarshalVoucherDetailList (req.PostFormValue (ascii "voucher_detail_list")) []
    else .ok []
  return {
    NotifyTime := req.PostFormValue (ascii "notify_time")
    NotifyType := req.PostFormValue (ascii "notify_type")
    NotifyID := req.PostFormValue (ascii "notify_id")
    AppID := req.PostFormValue (ascii "app_id")
    Charset := req.PostFormValue (ascii "charset")
    Version := req.PostFormValue (ascii "version")
    SignType := req.PostFormValue (ascii "sign_type")
    Sign := req.PostFormValue (ascii "sign")
    TradeNo := req.PostFormValue (ascii "trade_no")
    OutTradeNo := req.PostFormValue (ascii "out_trade_no")
    OutBizNo := req.PostFormValue (ascii "out_biz_no")
    BuyerID := req.PostFormValue (ascii "buyer_id")
    BuyerLogonID := req.PostFormValue (ascii "buyer_logon_id")
    SellerID := req.PostFormValue (ascii "seller_id")
    SellerEmail := req.PostFormValue (ascii "seller_email")
    TradeStatus := req.PostFormValue (ascii "trade_status")
    TotalAmount := totalAmount
    ReceiptAmount := receiptAmount
    InvoiceAmount := invoiceAmount
    BuyerPayAmount := buyerPayAmount
    PointAmount := pointAmount
    RefundFee := refundFee
    Subject := req.PostFormValue (ascii "subject")
    Body := req.PostFormValue (ascii "body")
    GmtCreate := req.PostFormValue (ascii "gmt_create")
    GmtPayment := req.PostFormValue (ascii "gmt_payment")
    GmtRefund := req.PostFormValue (ascii "gmt_refund")
    GmtClose := req.PostFormValue (ascii "gmt_close")
    FundBillList := fundBillList
    PassbackParams := passbackParams
    VoucherDetailList := voucherDetailList }

/-- Lines 47 to 58 of `veritySign`: the local `data`, the string whose digest is
checked, computed from the map left after the two deletions. -/
def veritySignData (values : Values) : Except Err Str :=
  let tmp := values.Encode
  match QueryUnescape tmp with
  | .error err => .error err
  | .ok queryStr =>
    let querySlice := Split queryStr 38
    let querySlice := sortStrings querySlice
    .ok (Join querySlice (ascii "&"))

/-- The function `veritySign`; its argument `values` is a map, so the
deletions act on the map of the caller. -/
def veritySign (lib : Lib) (alipayConfig : Option config.Config) : Go Values Unit := do
  let values ← Go.get
  let sign := values.Get (ascii "sign")
  Go.set (values.Del (ascii "sign"))
  let values ← Go.get
  Go.set (values.Del (ascii "sign_type"))
  let values ← Go.get
  let data ← Go.lift (veritySignData values)
  let signData ← Go.lift (lib.base64Decode sign)
  let cfg ← deref alipayConfig
  let (h, hType) ←
    (if cfg.GetAppSignType = ascii "RSA" then Go.ret (lib.sha1, HashAlg.SHA1)
     else if cfg.GetAppSignType = ascii "RSA2" then Go.ret (lib.sha256, HashAlg.SHA256)
     else Go.fail (.msg "仅支持RSA(SHA1)和RSA2(SHA256)两种签名算法"))
  Go.rsa (.verify hType (h data) signData)
  match cfg.GetAlipayPublicKey with
  | none => Go.fail (.panic "nil pointer dereference")
  | some key =>
    match lib.VerifyPKCS1v15 key hType (h data) signData with
    | some err => Go.fail err
    | none => Go.ret ()

/-- The function `Verity`. -/
def Verity (lib : Lib) (alipayConfig : Option config.Config) : Go Request Params := do
  let req ← Go.get
  match req.parseFormErr with
  | some err => Go.fail err
  | none =>
    let params ← Go.lift (parseNotifyParams lib req)
    Go.onPart Request.PostForm (fun q m => { q with PostForm := m }) (veritySign lib alipayConfig)
    Go.ret params

end notify

/-! ## Reference definitions, in the words of the specification -/

namespace pay

/-- One `name=value` segment of a canonical string, the value verbatim. -/
def segment (name : String) (value : Str) : Str := ascii name ++ ascii "=" ++ value

/-- The segments of the request canonical string in the order fixed by the
protocol; `format`, `notify_url` and `return_url` only when not empty. -/
def requestSegments (r : Params) (bizJson : Str) : List Str :=
  [segment "alipay_root_cert_sn" r.AlipayRootCertSN, segment "app_cert_sn" r.AppCertSN,
    segment "app_id" r.AppID, segment "biz_content" bizJson, segment "charset" r.Charset]
  ++ (if r.Format ≠ [] then [segment "format" r.Format] else [])
  ++ [segment "method" r.Method]
  ++ (if r.NotifyURL ≠ [] then [segment "notify_url" r.NotifyURL] else [])
  ++ (if r.ReturnURL ≠ [] then [segment "return_url" r.ReturnURL] else [])
  ++ [segment "sign_type" r.SignType, segment "timestamp" r.Timestamp, segment "version" r.Version]

/-- The request canonical string: the segments joined by `&`. -/
def requestCanonical (r : Params) (bizJson : Str) : Str :=
  Join (requestSegments r bizJson) (ascii "&")

/-- A return or notify URL the specification accepts: empty, or 8 to 256 bytes
long and beginning with `http://` or `https://`. -/
def acceptableURL (u : Str) : Prop :=
  u = [] ∨ (8 ≤ u.length ∧ u.length ≤ 256 ∧ (ascii "http://" <+: u ∨ ascii "https://" <+: u))

instance (u : Str) : Decidable (acceptableURL u) := by
  unfold acceptableURL; infer_instance

end pay

namespace notify

/-- The `name=value` pairs of a form, values decoded, in map order. -/
def formPairs (form : Values) : List Str :=
  form.pairs.map pairText

/-- The notification canonical string of the specification: drop `sign` and
`sign_type`, render the remaining fields as `name=value`, sort the pairs, join
them with `&`. -/
def referenceCanonical (form : Values) : Str :=
  Join (sortStrings (formPairs ((form.Del (ascii "sign")).Del (ascii "sign_type")))) (ascii "&")

end notify

/-! ## A concrete library instance and concrete inputs

Stand-ins that let the definitions run on concrete inputs: hexadecimal text in
place of base64, a tagged copy of the message in place of a digest, textbook
RSA on one byte in place of PKCS #1 v1.5. -/

/-- Hexadecimal text of a byte string (stand-in for base64 encoding). -/
def hexEncode : Str → Str
  | [] => []
  | c :: rest => upperhex (c.val / 16) :: upperhex (c.val % 16) :: hexEncode rest

/-- The bytes of a hexadecimal text (stand-in for base64 decoding); any other
text is an error. -/
def hexDecode : Str → Except Err Str
  | [] => .ok []
  | [_] => .error (.lib "illegal base64 data")
  | a :: b :: rest =>
    if ishex a ∧ ishex b then
      match hexDecode rest with
      | .ok t => .ok (Fin.ofNat (unhex a * 16 + unhex b) :: t)
      | .error e => .error e
    else .error (.lib "illegal base64 data")

/-- A digest read as a number. -/
def digestNum (d : Str) : Nat := d.foldl (fun a c => a * 256 + c.val) 0

/-- The concrete library instance. -/
def demoLib : Lib where
  jsonMarshal := fun b =>
    match b with
    | none => .ok (ascii "null")
    | some c => .ok ([123] ++ c.Subject ++ [125])
  jsonValid := fun s => s.head? = some 123
  timeParse := fun s => decide (s.length = 19)
  parseFloat := fun s =>
    if s.all (fun c => 48 ≤ c.val ∧ c.val ≤ 57) then .ok 0 else .error (.lib "strconv.ParseFloat")
  unmarshalFundBillList := fun _ v => .ok v
  unmarshalVoucherDetailList := fun _ v => .ok v
  sha1 := fun m => 1 :: m
  sha256 := fun m => 2 :: m
  SignPKCS1v15 := fun key _ d =>
    if 1 < key.pub.N ∧ key.pub.N ≤ 256 then .ok [Fin.ofNat ((digestNum d % key.pub.N) ^ key.D % key.pub.N)]
    else .error (.lib "crypto/rsa: message too long for RSA key size")
  VerifyPKCS1v15 := fun key _ d sig =>
    match sig with
    | [b] =>
      if b.val ^ key.E % key.N = digestNum d % key.N then none
      else some (.lib "crypto/rsa: verification error")
    | _ => some (.lib "crypto/rsa: verification error")
  base64Encode := hexEncode
  base64Decode := hexDecode

/-- A toy key pair: modulus 33 = 3 * 11, public exponent 3, private exponent 7. -/
def demoPublicKey : PublicKey := ⟨33, 3⟩

/-- The private key of the toy key pair. -/
def demoPrivateKey : PrivateKey := ⟨demoPublicKey, 7, [3, 11]⟩

/-- A configuration with the toy key pair on both sides. -/
def demoConfig : config.Config :=
  { config.Config.zero with
    appID := ascii "2014072300007148"
    alipayRootCertSN := ascii "rootsn"
    appCertPublicKeySN := ascii "appsn"
    alipayPublicKey := some demoPublicKey
    appPrivateKey := some demoPrivateKey
    appSignType := ascii "RSA2" }

/-- A request that passes every check of `SignByCert`. -/
def demoParams : pay.Params :=
  { pay.Params.zero with
    alipayConfig := some demoConfig
    AppID := ascii "2014072300007148"
    Method := ascii "alipay.trade.wap.pay"
    Charset := ascii "utf-8"
    SignType := ascii "RSA2"
    Timestamp := ascii "2024-01-01 00:00:00"
    Version := ascii "1.0"
    AppCertSN := ascii "appsn"
    AlipayRootCertSN := ascii "rootsn"
    BizContent := some { pay.BizContent.zero with
      ProductCode := ascii "QUICK_WAP_WAY", Subject := ascii "Test", OutTradeNo := ascii "T001",
      GoodsType := ascii "1", TotalAmount := 1065353216 } }


/-! ## Package config: certificates and keys -/

namespace config

/-- The type `pem.Block`, as far as the repository reads it. -/
structure PemBlock where
  Bytes : Str
deriving DecidableEq, Repr

/-- The values of `x509.SignatureAlgorithm` that `parseCert` tells apart. -/
inductive SignatureAlgorithm where
  | SHA256WithRSA
  | SHA1WithRSA
  | other
deriving DecidableEq, Repr

/-- An `x509.Certificate`, as far as the repository reads it: `Issuer` is
`cert.Issuer.String()`, `SerialNumber` is `cert.SerialNumber.String()`. -/
structure Certificate where
  SignatureAlgorithm : SignatureAlgorithm
  Issuer : Str
  SerialNumber : Str
deriving DecidableEq, Repr

/-- The calls of package `config` into `io/ioutil`, `crypto/x509` and
`github.com/dxvgef/gommon/encrypt`. A nil slice of blocks is `none`. -/
structure CertLib where
  /-- The call `ioutil.ReadFile`. -/
  ReadFile : Str → Except Err Str
  /-- The call `encrypt.ParsePEMBlocks`. -/
  ParsePEMBlocks : Str → Option (List PemBlock)
  /-- The call `encrypt.ParseRSAPublicKey`. -/
  ParseRSAPublicKey : Str → Except Err PublicKey
  /-- The call `encrypt.ParseRSAPrivateKey`: the key and its type. -/
  ParseRSAPrivateKey : Str → Except Err (PrivateKey × Str)
  /-- The call `encrypt.FormatPKCS1PrivateKey`. -/
  FormatPKCS1PrivateKey : Str → Str
  /-- The call `x509.ParseCertificate`. -/
  ParseCertificate : Str → Except Err Certificate
  /-- The call `encrypt.MD5ByStrings`. -/
  MD5ByStrings : List Str → Except Err Str

/-- The function `parseCert`. -/
def parseCert (cl : CertLib) (block : Str) : Except Err Str :=
  match cl.ParseCertificate block with
  | .error err =>
    if err.Error = "x509: unsupported elliptic curve" then .ok [] else .error err
  | .ok cert =>
    if cert.SignatureAlgorithm = .SHA256WithRSA ∨ cert.SignatureAlgorithm = .SHA1WithRSA then
      match cl.MD5ByStrings [cert.Issuer, cert.SerialNumber] with
      | .error parseErr => .error parseErr
      | .ok sn => .ok sn
    else .ok []

/-- The loop of `LoadAlipayRootCert` over the blocks: `SNSlice` grows by every
fingerprint that is not empty; the first error of `parseCert` is returned. -/
def rootCertLoop (cl : CertLib) : List PemBlock → List Str → Except Err (List Str)
  | [], SNSlice => .ok SNSlice
  | b :: rest, SNSlice =>
    match parseCert cl b.Bytes with
    | .error err => .error err
    | .ok sn => rootCertLoop cl rest (if sn ≠ [] then SNSlice ++ [sn] else SNSlice)

/-- The method `LoadAlipayRootCert`. -/
def Config.LoadAlipayRootCert (cl : CertLib) (filePath : Str) : Go Config Unit := do
  let fileData ← Go.lift (cl.ReadFile filePath)
  match cl.ParsePEMBlocks fileData with
  | none => Go.fail (.msg "支付宝根证书数据格式无效")
  | some blocks => do
    let SNSlice ← Go.lift (rootCertLoop cl blocks [])
    Go.failIf (SNSlice.length = 0) (.msg "支付宝根证书的SN计算失败")
    let obj ← Go.get
    Go.set { obj with alipayRootCertSN := Join SNSlice (ascii "_") }

/-- The index expression `blocks[0]`; it panics on an empty slice. -/
def firstBlock {σ : Type} (blocks : List PemBlock) : Go σ PemBlock :=
  match blocks with
  | [] => Go.fail (.panic "index out of range")
  | b :: _ => Go.ret b

/-- The method `LoadAlipayCertPublicKey`. -/
def Config.LoadAlipayCertPublicKey (cl : CertLib) (filePath : Str) : Go Config Unit := do
  let fileData ← Go.lift (cl.ReadFile filePath)
  match cl.ParsePEMBlocks fileData with
  | none => Go.fail (.msg "支付宝公钥证书格式无效")
  | some blocks => do
    let b ← firstBlock blocks
    let publicKey ← Go.lift (cl.ParseRSAPublicKey b.Bytes)
    let obj ← Go.get
    Go.set { obj with alipayPublicKey := some publicKey }

/-- The method `LoadAppCertPublicKey`. -/
def Config.LoadAppCertPublicKey (cl : CertLib) (filePath : Str) : Go Config Unit := do
  let fileData ← Go.lift (cl.ReadFile filePath)
  match cl.ParsePEMBlocks fileData with
  | none => Go.fail (.msg "支付宝应用公钥证书格式无效")
  | some blocks => do
    let b ← firstBlock blocks
    let publicKey ← Go.lift (cl.ParseRSAPublicKey b.Bytes)
    let obj ← Go.get
    Go.set { obj with appPublicKey := some publicKey }
    let b2 ← firstBlock blocks
    let cert ← Go.lift (cl.ParseCertificate b2.Bytes)
    let sn ← Go.lift (cl.MD5ByStrings [cert.Issuer, cert.SerialNumber])
    let obj ← Go.get
    Go.set { obj with appCertPublicKeySN := sn }

/-- The method `LoadAppPrivateKey`. -/
def Config.LoadAppPrivateKey (cl : CertLib) (filePath : Str) : Go Config Unit := do
  let fileData ← Go.lift (cl.ReadFile filePath)
  match cl.ParsePEMBlocks fileData with
  | none => Go.fail (.msg "支付宝应用私钥无效")
  | some blocks => do
    let b ← firstBlock blocks
    let parsed ← Go.lift (cl.ParseRSAPrivateKey b.Bytes)
    let obj ← Go.get
    Go.set { obj with appPrivateKey := some parsed.1, appPrivateKeyType := parsed.2 }

/-- The method `SetAppPrivateKey` (its `log.Println` call is left out). -/
def Config.SetAppPrivateKey (cl : CertLib) (data : Str) : Go Config Unit := do
  let dataBytes := cl.FormatPKCS1PrivateKey data
  match cl.ParsePEMBlocks dataBytes with
  | none => Go.fail (.msg "支付宝应用私钥无效")
  | some blocks => do
    let b ← firstBlock blocks
    let parsed ← Go.lift (cl.ParseRSAPrivateKey b.Bytes)
    let obj ← Go.get
    Go.set { obj with appPrivateKey := some parsed.1, appPrivateKeyType := parsed.2 }

/-- The fingerprints of the blocks of a bundle that yield one, in block order. -/
def blockFingerprints (cl : CertLib) (blocks : List PemBlock) : List Str :=
  blocks.filterMap (fun b =>
    match parseCert cl b.Bytes with
    | .ok sn => if sn ≠ [] then some sn else none
    | .error _ => none)

end config

/-! ## Reference definitions for the order of checks and for the query -/

/-- The error of the first check that fails, in a list of checks in order; each
check is given as (fails, its error). -/
def firstError : List (Bool × Err) → Option Err
  | [] => none
  | (bad, e) :: rest => if bad then some e else firstError rest

namespace pay

/-- The error of the URL check: too long, or not an `http`/`https` URL of at
least 8 bytes. -/
def urlError (tooLong notHttp : String) (u : Str) : Err :=
  if 256 < u.length then .msg tooLong else .msg notHttp

/-- The checks of `checkParams` in the order AppID, Format, ReturnURL, Charset,
SignType, Timestamp, Version, NotifyURL, each with the error it returns. -/
def paramChecks (lib : Lib) (r : Params) : List (Bool × Err) :=
  [(decide (r.AppID = []), .msg "AppID参数未赋值"),
   (decide ((ParseInt r.AppID 64).1 = 0), .msg "AppID参数值只能是数字"),
   (decide (r.Format ≠ [] ∧ r.Format ≠ ascii "JSON"), .msg "Format参数值只能是JSON"),
   (decide (¬ acceptableURL r.ReturnURL),
     urlError "ReturnURL参数值长度不能大于256" "ReturnURL参数值必须是http://或https://开头" r.ReturnURL),
   (decide (r.Charset = []), .msg "Charset参数未赋值"),
   (decide (r.Charset.length > 10), .msg "Charset参数值的长度不能大于10"),
   (decide (r.SignType ≠ ascii "RSA" ∧ r.SignType ≠ ascii "RSA2"), .msg "SignType参数值必须是RSA或RSA2"),
   (decide (lib.timeParse r.Timestamp = false), .msg "Timestamp的参数值格式不正确"),
   (decide (r.Version ≠ ascii "1" ∧ r.Version ≠ ascii "1.0"), .msg "Version的参数值必须是1或者1.0"),
   (decide (¬ acceptableURL r.NotifyURL),
     urlError "NotifyURL参数值长度不能大于256" "NotifyURL参数值必须是http://或https://开头" r.NotifyURL)]

/-- The fields of the request canonical string as (name, value), in the order
fixed by the protocol; `format`, `notify_url`, `return_url` only when not empty. -/
def requestFields (r : Params) (bizJson : Str) : List (Str × Str) :=
  [(ascii "alipay_root_cert_sn", r.AlipayRootCertSN), (ascii "app_cert_sn", r.AppCertSN),
    (ascii "app_id", r.AppID), (ascii "biz_content", bizJson), (ascii "charset", r.Charset)]
  ++ (if r.Format ≠ [] then [(ascii "format", r.Format)] else [])
  ++ [(ascii "method", r.Method)]
  ++ (if r.NotifyURL ≠ [] then [(ascii "notify_url", r.NotifyURL)] else [])
  ++ (if r.ReturnURL ≠ [] then [(ascii "return_url", r.ReturnURL)] else [])
  ++ [(ascii "sign_type", r.SignType), (ascii "timestamp", r.Timestamp),
    (ascii "version", r.Version)]

end pay

/-- The text before and the text after the first occurrence of `sep`; the whole
text and nothing when `sep` does not occur (`strings.Cut`). -/
def cut (s : Str) (sep : Byte) : Str × Str :=
  match s with
  | [] => ([], [])
  | c :: rest => if c = sep then ([], rest) else ((cut rest sep).1.cons c, (cut rest sep).2)

/-- The decoded (name, value) pairs of a list of `name=value` pieces. -/
def decodePieces : List Str → Except Err (List (Str × Str))
  | [] => .ok []
  | p :: rest =>
    match QueryUnescape (cut p 61).1, QueryUnescape (cut p 61).2, decodePieces rest with
    | .ok k, .ok v, .ok l => .ok ((k, v) :: l)
    | .error e, _, _ => .error e
    | _, .error e, _ => .error e
    | _, _, .error e => .error e

/-- The decoded (name, value) pairs of a url-encoded query, in the order they
are written: the pieces between `&`, each cut at its first `=`, both sides
unescaped; the empty query has no pairs. -/
def queryPairs (q : Str) : Except Err (List (Str × Str)) :=
  if q = [] then .ok [] else decodePieces (Split q 38)

/-! ## More concrete inputs -/

/-- The sample library with a JSON stand-in that shows the subject and
`passback_params`. -/
def demoLibPassback : Lib :=
  { demoLib with
    jsonMarshal := fun b =>
      match b with
      | none => .ok (ascii "null")
      | some c => .ok ([123] ++ c.Subject ++ [44] ++ c.PassbackParams ++ [125]) }

/-- A payload that passes `checkBizContent`. -/
def demoBiz : pay.BizContent :=
  { pay.BizContent.zero with
    ProductCode := ascii "QUICK_WAP_WAY", Subject := ascii "Test", OutTradeNo := ascii "T001",
    GoodsType := ascii "1", TotalAmount := 1065353216 }

/-- A certificate library for a bundle of two blocks: `ec` cannot be parsed
(unsupported curve), `rsa` is signed with SHA-256 and RSA. -/
def demoCertLib : config.CertLib where
  ReadFile := fun _ => .ok (ascii "bundle")
  ParsePEMBlocks := fun _ => some [⟨ascii "ec"⟩, ⟨ascii "rsa"⟩]
  ParseRSAPublicKey := fun _ => .ok demoPublicKey
  ParseRSAPrivateKey := fun _ => .ok (demoPrivateKey, ascii "PKCS1")
  FormatPKCS1PrivateKey := fun d => d
  ParseCertificate := fun b =>
    if b = ascii "rsa" then .ok ⟨.SHA256WithRSA, ascii "CN=root", ascii "1234"⟩
    else .error (.lib "x509: unsupported elliptic curve")
  MD5ByStrings := fun l => .ok (hexEncode (Join l []))

/-! ## The steps of SignByCert, and requests made by New -/

/-- The error of a call, if it returned one. -/
def errorOf {α : Type} : Except Err α → Option Err
  | .ok _ => none
  | .error e => some e

/-- The first error in a list of outcomes of steps, in order. -/
def firstSome : List (Option Err) → Option Err
  | [] => none
  | some e :: _ => some e
  | none :: rest => firstSome rest

namespace pay

/-- The outcomes of the validation steps of `SignByCert` in their order:
`checkParams`, `checkBizContent`, `checkExtendParams`, `checkExtendUserInfo`
(each on the receiver as the step before left it), then AppCertSN present and
AlipayRootCertSN present. -/
def stepErrors (lib : Lib) (r : Params) : List (Option Err) :=
  let o1 := checkParams lib r
  let o2 := checkBizContent lib o1.state
  let o3 := checkExtendParams o2.state
  let o4 := checkExtendUserInfo o3.state
  [errorOf o1.result, errorOf o2.result, errorOf o3.result, errorOf o4.result,
    if r.AppCertSN = [] then some (.msg "无法获取配置中的应用公钥SN") else none,
    if r.AlipayRootCertSN = [] then some (.msg "无法获取配置中的支付宝根证书SN") else none]

end pay

/-- No RSA operation is performed by `m`. -/
def Go.Quiet {σ α : Type} (m : Go σ α) : Prop := ∀ s, (m s).rsaOps = []

/-- The request `New` makes from the sample configuration at the sample time. -/
def demoNew : pay.Params :=
  match pay.New (ascii "2024-01-01 00:00:00") (some demoConfig) with
  | .ok p => p
  | .error _ => pay.Params.zero

/-- The caller sets Subject, OutTradeNo and TotalAmount (1.00) on the payload
of a request and leaves every other field of the payload as it is. -/
def demoOrder (p : pay.Params) : pay.Params :=
  { p with BizContent := p.BizContent.map (fun b =>
      { b with Subject := ascii "Test", OutTradeNo := ascii "T001", TotalAmount := 1065353216 }) }

/-- The caller sets GoodsType on the payload of a request. -/
def withGoodsType (g : Str) (p : pay.Params) : pay.Params :=
  { p with BizContent := p.BizContent.map (fun b => { b with GoodsType := g }) }

/-- The caller sets PassbackParams and PromoParams on the payload of a request. -/
def withPassback (passback promo : Str) (p : pay.Params) : pay.Params :=
  { p with BizContent := p.BizContent.map (fun b =>
      { b with PassbackParams := passback, PromoParams := promo }) }

/-! ## Panics, calls on a configuration, and the digest of a sign type -/

/-- No call of `m` ends in a run-time panic. -/
def Go.NoPanic {σ α : Type} (m : Go σ α) : Prop := ∀ s p, (m s).result ≠ .error (.panic p)

namespace config

/-- One call of a setter or loader of `Config`, with its argument. These are
all the methods of the package that assign a field. -/
inductive Call where
  | LoadAlipayRootCert (filePath : Str)
  | LoadAlipayCertPublicKey (filePath : Str)
  | LoadAppCertPublicKey (filePath : Str)
  | LoadAppPrivateKey (filePath : Str)
  | SetAppPrivateKey (data : Str)
  | SetAppID (value : Str)
  | SetAppSignType (value : Str)
deriving DecidableEq, Repr

/-- The method a call stands for. -/
def Call.run (cl : CertLib) : Call → Go Config Unit
  | .LoadAlipayRootCert filePath => Config.LoadAlipayRootCert cl filePath
  | .LoadAlipayCertPublicKey filePath => Config.LoadAlipayCertPublicKey cl filePath
  | .LoadAppCertPublicKey filePath => Config.LoadAppCertPublicKey cl filePath
  | .LoadAppPrivateKey filePath => Config.LoadAppPrivateKey cl filePath
  | .SetAppPrivateKey data => Config.SetAppPrivateKey cl data
  | .SetAppID value => Config.SetAppID value
  | .SetAppSignType value => Config.SetAppSignType value

/-- The configuration a sequence of calls leaves, whatever each call returned
(the caller may go on after an error). -/
def runCalls (cl : CertLib) (calls : List Call) (obj : Config) : Config :=
  calls.foldl (fun c call => (call.run cl c).state) obj

end config

/-- The digest a `sign_type` value names in the protocol: `RSA` is SHA-1 and
`RSA2` is SHA-256. -/
def digestOf (signType : Str) : Option HashAlg :=
  if signType = ascii "RSA" then some .SHA1
  else if signType = ascii "RSA2" then some .SHA256
  else none

/-- A certificate library whose files hold the one block `rsa`. -/
def demoCertLibApp : config.CertLib :=
  { demoCertLib with ParsePEMBlocks := fun _ => some [⟨ascii "rsa"⟩] }

/-- A set-up of a configuration: a rejected and an accepted sign type, the
application ID and the two certificates. -/
def demoCalls : List config.Call :=
  [.SetAppSignType (ascii "MD5"), .SetAppID (ascii "2014072300007148"),
    .SetAppSignType (ascii "RSA2"), .LoadAppCertPublicKey (ascii "app.crt"),
    .LoadAlipayRootCert (ascii "root.crt")]

/-- Two further calls of `SetAppSignType`, the first one rejected. -/
def demoMoreCalls : List config.Call :=
  [.SetAppSignType (ascii "SHA"), .SetAppSignType (ascii "RSA")]

/-! ## The monad: evaluation rules -/

@[simp] theorem Go.bind_eq {σ α β : Type} (m : Go σ α) (f : α → Go σ β) : (m >>= f) = Go.seq m f := rfl
@[simp] theorem Go.pure_eq {σ α : Type} (a : α) : (pure a : Go σ α) = Go.ret a := rfl
@[simp] theorem Go.ret_apply {σ α : Type} (a : α) (s : σ) : (Go.ret a : Go σ α) s = ⟨.ok a, s, []⟩ := rfl
@[simp] theorem Go.fail_apply {σ α : Type} (e : Err) (s : σ) : (Go.fail e : Go σ α) s = ⟨.error e, s, []⟩ := rfl
@[simp] theorem Go.get_apply {σ : Type} (s : σ) : (Go.get : Go σ σ) s = ⟨.ok s, s, []⟩ := rfl
@[simp] theorem Go.set_apply {σ : Type} (t s : σ) : (Go.set t : Go σ Unit) s = ⟨.ok (), t, []⟩ := rfl
@[simp] theorem Go.lift_apply {σ α : Type} (x : Except Err α) (s : σ) : (Go.lift x : Go σ α) s = ⟨x, s, []⟩ := rfl
@[simp] theorem Go.rsa_apply {σ : Type} (op : RsaOp) (s : σ) : (Go.rsa op : Go σ Unit) s = ⟨.ok (), s, [op]⟩ := rfl

theorem Go.seq_apply_ok {σ α β : Type} (m : Go σ α) (f : α → Go σ β) (s : σ) (a : α)
    (h : (m s).result = .ok a) :
    Go.seq m f s = ⟨(f a (m s).state).result, (f a (m s).state).state,
      (m s).rsaOps ++ (f a (m s).state).rsaOps⟩ := by
  simp [Go.seq, h]

theorem Go.seq_apply_error {σ α β : Type} (m : Go σ α) (f : α → Go σ β) (s : σ) (e : Err)
    (h : (m s).result = .error e) :
    Go.seq m f s = ⟨.error e, (m s).state, (m s).rsaOps⟩ := by
  simp [Go.seq, h]

@[simp] theorem Go.seq_ret {σ α β : Type} (a : α) (f : α → Go σ β) : Go.seq (Go.ret a) f = f a := by
  funext s; simp [Go.seq]
@[simp] theorem Go.seq_fail {σ α β : Type} (e : Err) (f : α → Go σ β) : Go.seq (Go.fail e) f = Go.fail e := by
  funext s; simp [Go.seq]
@[simp] theorem Go.seq_get {σ β : Type} (f : σ → Go σ β) (s : σ) : Go.seq Go.get f s = f s s := by
  simp [Go.seq]
@[simp] theorem Go.seq_set {σ β : Type} (t : σ) (f : Unit → Go σ β) (s : σ) : Go.seq (Go.set t) f s = f () t := by
  simp [Go.seq]
@[simp] theorem Go.seq_lift_ok {σ α β : Type} (a : α) (f : α → Go σ β) : Go.seq (Go.lift (.ok a)) f = f a := by
  funext s; simp [Go.seq]
@[simp] theorem Go.seq_lift_error {σ α β : Type} (e : Err) (f : α → Go σ β) :
    Go.seq (Go.lift (.error e : Except Err α)) f = Go.fail e := by
  funext s; simp [Go.seq]

/-- Sequencing is associative. -/
theorem Go.seq_assoc {σ α β γ : Type} (m : Go σ α) (g : α → Go σ β) (f : β → Go σ γ) :
    Go.seq (Go.seq m g) f = Go.seq m (fun a => Go.seq (g a) f) := by
  funext s
  cases hm : (m s).result with
  | error e => simp [Go.seq, hm]
  | ok a =>
    cases hg : (g a (m s).state).result with
    | error e => simp [Go.seq, hm, hg]
    | ok b => simp [Go.seq, hm, hg]

theorem Go.seq_failIf {σ β : Type} (c : Prop) [Decidable c] (e : Err) (f : Unit → Go σ β) (s : σ) :
    Go.seq (Go.failIf c e) f s = if c then ⟨.error e, s, []⟩ else f () s := by
  unfold Go.failIf; split <;> simp
theorem Go.seq_when {σ β : Type} (c : Prop) [Decidable c] (body : Go σ Unit) (f : Unit → Go σ β) (s : σ) :
    Go.seq (Go.when c body) f s = if c then Go.seq body f s else f () s := by
  unfold Go.when; split <;> simp
theorem Go.failIf_apply {σ : Type} (c : Prop) [Decidable c] (e : Err) (s : σ) :
    (Go.failIf c e : Go σ Unit) s = if c then ⟨.error e, s, []⟩ else ⟨.ok (), s, []⟩ := by
  unfold Go.failIf; split <;> simp
theorem Go.when_apply {σ : Type} (c : Prop) [Decidable c] (body : Go σ Unit) (s : σ) :
    (Go.when c body) s = if c then body s else ⟨.ok (), s, []⟩ := by
  unfold Go.when; split <;> simp


/-- Sequencing with `ret` on the right does nothing. -/
theorem Go.seq_ret_right {σ α : Type} (m : Go σ α) : Go.seq m Go.ret = m := by
  funext s
  cases hm : (m s).result with
  | error e =>
    simp only [Go.seq, hm]
    rw [← hm]
  | ok a =>
    simp only [Go.seq, hm, Go.ret_apply, List.append_nil]
    rw [← hm]

/-- A failing branch first: the result is a value only on the other branch. -/
theorem Outcome.ite_error_ok_iff {σ α : Type} (c : Prop) [Decidable c] (e : Err) (s : σ) (ops : List RsaOp)
    (x : Outcome σ α) (a : α) :
    (if c then (⟨.error e, s, ops⟩ : Outcome σ α) else x).result = .ok a ↔ ¬ c ∧ x.result = .ok a := by
  by_cases h : c <;> simp [h]

/-- A failing branch last. -/
theorem Outcome.ite_ok_error_iff {σ α : Type} (c : Prop) [Decidable c] (e : Err) (s : σ) (ops : List RsaOp)
    (x : Outcome σ α) (a : α) :
    (if c then x else (⟨.error e, s, ops⟩ : Outcome σ α)).result = .ok a ↔ c ∧ x.result = .ok a := by
  by_cases h : c <;> simp [h]

/-! ## Order and sorting -/

theorem strLE_refl (a : Str) : strLE a a = true := by
  induction a with
  | nil => rfl
  | cons x xs ih => simp [strLE, ih]

theorem strLE_total (a b : Str) : strLE a b = true ∨ strLE b a = true := by
  induction a generalizing b with
  | nil => left; rfl
  | cons x xs ih =>
    cases b with
    | nil => right; rfl
    | cons y ys =>
      simp only [strLE]
      rcases lt_trichotomy x y with h | h | h
      · left; simp [h]
      · subst h; simpa using ih ys
      · right; simp [h]

theorem strLE_antisymm (a b : Str) (h1 : strLE a b = true) (h2 : strLE b a = true) : a = b := by
  induction a generalizing b with
  | nil =>
    cases b with
    | nil => rfl
    | cons y ys => simp [strLE] at h2
  | cons x xs ih =>
    cases b with
    | nil => simp [strLE] at h1
    | cons y ys =>
      simp only [strLE] at h1 h2
      rcases lt_trichotomy x y with h | h | h
      · have : ¬ y < x := not_lt.mpr (le_of_lt h)
        simp [h, this] at h2
      · subst h
        simp at h1 h2
        rw [ih ys h1 h2]
      · have : ¬ x < y := not_lt.mpr (le_of_lt h)
        simp [h, this] at h1

theorem strLE_trans (a b c : Str) (h1 : strLE a b = true) (h2 : strLE b c = true) :
    strLE a c = true := by
  induction a generalizing b c with
  | nil => rfl
  | cons x xs ih =>
    cases b with
    | nil => simp [strLE] at h1
    | cons y ys =>
      cases c with
      | nil => simp [strLE] at h2
      | cons z zs =>
        simp only [strLE] at h1 h2 ⊢
        by_cases hxy : x < y
        · by_cases hyz : y < z
          · simp [lt_trans hxy hyz]
          · by_cases hzy : z < y
            · simp [hyz, hzy] at h2
            · have : y = z := le_antisymm (not_lt.mp hzy) (not_lt.mp hyz)
              subst this; simp [hxy]
        · by_cases hyx : y < x
          · simp [hxy, hyx] at h1
          · have : x = y := le_antisymm (not_lt.mp hyx) (not_lt.mp hxy)
            subst this
            simp only [hxy, if_false] at h1
            by_cases hxz : x < z
            · simp [hxz]
            · by_cases hzx : z < x
              · simp [hxz, hzx] at h2
              · simp only [hxz, hzx, if_false] at h2 ⊢
                exact ih ys zs h1 h2

theorem strLE_nil_right (a : Str) (h : strLE a [] = true) : a = [] := by
  cases a with
  | nil => rfl
  | cons x xs => simp [strLE] at h


theorem insertSorted_eq (x : Str) (l : List Str) : insertSorted x l = List.orderedInsert StrLE x l := by
  induction l with
  | nil => rfl
  | cons y ys ih => simp [insertSorted, List.orderedInsert, ih]

theorem sortStrings_eq (l : List Str) : sortStrings l = List.insertionSort StrLE l := by
  induction l with
  | nil => rfl
  | cons x xs ih => simp [sortStrings, List.insertionSort, ih, insertSorted_eq]

theorem sortStrings_perm (l : List Str) : (sortStrings l).Perm l := by
  rw [sortStrings_eq]; exact List.perm_insertionSort _ l

theorem sortStrings_sorted (l : List Str) : (sortStrings l).Sorted StrLE := by
  haveI : IsTotal Str StrLE := ⟨strLE_total⟩
  haveI : IsTrans Str StrLE := ⟨strLE_trans⟩
  rw [sortStrings_eq]; exact List.sorted_insertionSort _ l

theorem sortStrings_congr {l1 l2 : List Str} (h : l1.Perm l2) : sortStrings l1 = sortStrings l2 :=
  haveI : IsAntisymm Str StrLE := ⟨strLE_antisymm⟩
  List.eq_of_perm_of_sorted ((sortStrings_perm l1).trans (h.trans (sortStrings_perm l2).symm))
    (sortStrings_sorted l1) (sortStrings_sorted l2)


/-! ## Escaping and unescaping -/

set_option maxRecDepth 100000 in
theorem hex_roundtrip : ∀ c : Byte,
    ishex (upperhex (c.val / 16)) = true ∧ ishex (upperhex (c.val % 16)) = true ∧
    (Fin.ofNat (unhex (upperhex (c.val / 16)) * 16 + unhex (upperhex (c.val % 16))) : Byte) = c := by
  decide

set_option maxRecDepth 100000 in
theorem shouldEscape_false : ∀ c : Byte, shouldEscape c = false → c ≠ 37 ∧ c ≠ 43 ∧ c ≠ 32 := by
  decide

theorem QueryUnescape_cons_plain (c : Byte) (t : Str) (h37 : c ≠ 37) :
    QueryUnescape (c :: t) =
      match QueryUnescape t with
      | .ok u => .ok ((if c = 43 then 32 else c) :: u)
      | .error e => .error e := by
  rw [QueryUnescape.eq_def]
  simp only [h37, if_false]

theorem QueryUnescape_percent (a b : Byte) (t : Str) (ha : ishex a = true) (hb : ishex b = true) :
    QueryUnescape (37 :: a :: b :: t) =
      match QueryUnescape t with
      | .ok u => .ok (Fin.ofNat (unhex a * 16 + unhex b) :: u)
      | .error e => .error e := by
  rw [QueryUnescape.eq_def]
  simp only [if_true, ha, hb, and_self]

/-- Unescaping an escaped string followed by more text gives the string back,
followed by the unescaped rest. -/
theorem QueryUnescape_escape_append (s t : Str) :
    QueryUnescape (QueryEscape s ++ t) =
      match QueryUnescape t with
      | .ok u => .ok (s ++ u)
      | .error e => .error e := by
  induction s with
  | nil => simp [QueryEscape]; cases QueryUnescape t <;> rfl
  | cons c rest ih =>
    by_cases h32 : c = 32
    · subst h32
      simp only [QueryEscape, if_true, List.cons_append]
      rw [QueryUnescape_cons_plain 43 _ (by decide), ih]
      cases QueryUnescape t <;> simp
    · by_cases hs : shouldEscape c = true
      · simp only [QueryEscape, h32, if_false, hs, if_true, List.cons_append]
        obtain ⟨h1, h2, h3⟩ := hex_roundtrip c
        rw [QueryUnescape_percent _ _ _ h1 h2, ih, h3]
        cases QueryUnescape t <;> simp
      · have hs2 : shouldEscape c = false := by simpa using hs
        obtain ⟨h37, h43, _⟩ := shouldEscape_false c hs2
        simp only [QueryEscape, h32, if_false, hs2, List.cons_append, Bool.false_eq_true]
        rw [QueryUnescape_cons_plain c _ h37, ih]
        simp only [h43, if_false]
        cases QueryUnescape t <;> simp

theorem QueryUnescape_escape (s : Str) : QueryUnescape (QueryEscape s) = .ok s := by
  have h := QueryUnescape_escape_append s []
  simpa [QueryUnescape] using h

/-! ## Join and Split -/

theorem Join_cons_cons (a b : Str) (l : List Str) (sep : Str) :
    Join (a :: b :: l) sep = a ++ sep ++ Join (b :: l) sep := by
  simp [Join]

theorem Split_ne_nil (s : Str) (sep : Byte) : Split s sep ≠ [] := by
  cases s with
  | nil => simp [Split]
  | cons c rest =>
    simp only [Split]
    split
    · simp
    · split <;> simp

theorem Split_append_sep (a b : Str) (sep : Byte) :
    Split (a ++ sep :: b) sep = Split a sep ++ Split b sep := by
  induction a with
  | nil => simp [Split]
  | cons c rest ih =>
    by_cases hc : c = sep
    · simp [Split, hc, ih]
    · simp only [List.cons_append, Split, hc, if_false]
      rw [show rest.append (sep :: b) = rest ++ sep :: b from rfl, ih]
      cases hs : Split rest sep with
      | nil => exact absurd hs (Split_ne_nil rest sep)
      | cons p ps => simp

/-- Splitting a joined non-empty list gives the pieces of its elements. -/
theorem Split_Join (l : List Str) (sep : Byte) (h : l ≠ []) :
    Split (Join l [sep]) sep = l.flatMap (fun p => Split p sep) := by
  induction l with
  | nil => exact absurd rfl h
  | cons a rest ih =>
    cases rest with
    | nil => simp [Join]
    | cons b rest2 =>
      rw [Join_cons_cons, List.append_assoc, List.singleton_append, Split_append_sep,
        ih (by simp)]
      simp

theorem not_mem_of_mem_Split (s : Str) (sep : Byte) (p : Str) (h : p ∈ Split s sep) : sep ∉ p := by
  induction s generalizing p with
  | nil => simp [Split] at h; subst h; simp
  | cons c rest ih =>
    by_cases hc : c = sep
    · simp only [Split, hc, if_true, List.mem_cons] at h
      rcases h with h | h
      · subst h; simp
      · exact ih p h
    · simp only [Split, hc, if_false] at h
      cases hs : Split rest sep with
      | nil => exact absurd hs (Split_ne_nil rest sep)
      | cons q qs =>
        rw [hs] at h
        simp only [List.mem_cons] at h
        rcases h with h | h
        · subst h
          have := ih q (by rw [hs]; simp)
          simp only [List.mem_cons, not_or]
          exact ⟨fun e => hc e.symm, this⟩
        · exact ih p (by rw [hs]; simp [h])

theorem exists_mem_Split (s : Str) (sep x : Byte) (hx : x ∈ s) (hne : x ≠ sep) :
    ∃ p ∈ Split s sep, p ≠ [] := by
  induction s with
  | nil => simp at hx
  | cons c rest ih =>
    by_cases hc : c = sep
    · subst hc
      simp only [List.mem_cons] at hx
      rcases hx with hx | hx
      · exact absurd hx hne
      · obtain ⟨p, hp, hpn⟩ := ih hx
        exact ⟨p, by simp [Split, hp], hpn⟩
    · simp only [Split, hc, if_false]
      cases hs : Split rest sep with
      | nil => exact ⟨[c], by simp, by simp⟩
      | cons q qs => exact ⟨c :: q, by simp, by simp⟩

theorem Split_of_not_mem (s : Str) (sep : Byte) (h : sep ∉ s) : Split s sep = [s] := by
  induction s with
  | nil => rfl
  | cons c rest ih =>
    simp only [List.mem_cons, not_or] at h
    have hc : ¬ c = sep := fun e => h.1 e.symm
    simp [Split, hc, ih h.2]

/-- The last byte of a joined list is the last byte of its last element, when
that element is not empty. -/
theorem Join_getLast (l : List Str) (sep : Str) (h : l ≠ []) (hl : l.getLast h ≠ []) :
    (Join l sep).getLast? = (l.getLast h).getLast? := by
  induction l with
  | nil => exact absurd rfl h
  | cons a rest ih =>
    cases rest with
    | nil => simp [Join]
    | cons b rest2 =>
      rw [Join_cons_cons]
      have hl2 : (b :: rest2).getLast (by simp) ≠ [] := by simpa using hl
      have hne : Join (b :: rest2) sep ≠ [] := by
        intro e
        have := ih (by simp) hl2
        rw [e] at this
        have h2 : ((b :: rest2).getLast (by simp)).getLast? = none := this.symm
        exact hl2 (List.getLast?_eq_none_iff.mp h2)
      rw [List.getLast?_append_of_ne_nil _ hne, ih (by simp) hl2]
      simp

/-! ## The notification canonical string -/

theorem ascii_eq : ascii "=" = [61] := by decide
theorem ascii_amp : ascii "&" = [38] := by decide

theorem Encode_eq (v : Values) :
    v.Encode = Join (v.sortedPairs.map (fun kv => QueryEscape kv.1 ++ [61] ++ QueryEscape kv.2)) [38] := by
  unfold Values.Encode Values.sortedPairs
  rw [List.map_flatMap]
  congr 1
  congr 1
  funext k
  simp [Values.encodeKey, List.map_map, Function.comp_def]

theorem QueryUnescape_Join (kvs : List (Str × Str)) :
    QueryUnescape (Join (kvs.map (fun kv => QueryEscape kv.1 ++ [61] ++ QueryEscape kv.2)) [38])
      = .ok (Join (kvs.map pairText) [38]) := by
  have one : ∀ (kv : Str × Str) (t u : Str), QueryUnescape t = .ok u →
      QueryUnescape (QueryEscape kv.1 ++ [61] ++ QueryEscape kv.2 ++ t) = .ok (pairText kv ++ u) := by
    intro kv t u ht
    rw [List.append_assoc, List.append_assoc, QueryUnescape_escape_append, List.singleton_append,
      QueryUnescape_cons_plain 61 _ (by decide), QueryUnescape_escape_append, ht]
    simp [pairText, ascii_eq]
  induction kvs with
  | nil => simp [Join, QueryUnescape]
  | cons kv rest ih =>
    cases rest with
    | nil =>
      have := one kv [] [] (by simp [QueryUnescape])
      simpa [Join] using this
    | cons kv2 rest2 =>
      simp only [List.map_cons, Join_cons_cons] at ih ⊢
      have h38 : QueryUnescape ([38] ++ Join ((QueryEscape kv2.1 ++ [61] ++ QueryEscape kv2.2) ::
          List.map (fun kv => QueryEscape kv.1 ++ [61] ++ QueryEscape kv.2) rest2) [38])
          = .ok ([38] ++ Join (pairText kv2 :: List.map pairText rest2) [38]) := by
        rw [List.singleton_append, QueryUnescape_cons_plain 38 _ (by decide), ih]
        simp
      have := one kv _ _ h38
      simpa [List.append_assoc] using this

/-- The string `veritySign` digests, in closed form: the fields in `Encode`
order as `name=value`, cut at every `&`, the pieces sorted and joined. -/
theorem veritySignData_eq (v : Values) :
    notify.veritySignData v =
      .ok (Join (sortStrings ((v.sortedPairs.map pairText).flatMap (fun p => Split p 38))) [38]) := by
  unfold notify.veritySignData
  simp only [Encode_eq, QueryUnescape_Join, ascii_amp]
  by_cases h : v.sortedPairs.map pairText = []
  · simp [h, Join, Split, sortStrings, insertSorted]
  · rw [Split_Join _ _ h]

theorem sorted_le_getLast (l : List Str) (hs : l.Sorted StrLE) (h : l ≠ []) (x : Str) (hx : x ∈ l) :
    StrLE x (l.getLast h) := by
  induction l with
  | nil => exact absurd rfl h
  | cons a rest ih =>
    cases rest with
    | nil =>
      simp only [List.mem_singleton] at hx
      subst hx
      exact strLE_refl _
    | cons b rest2 =>
      have hs2 : (b :: rest2).Sorted StrLE := (List.sorted_cons.mp hs).2
      have hlast : (a :: b :: rest2).getLast h = (b :: rest2).getLast (by simp) := by simp
      rw [hlast]
      rcases List.mem_cons.mp hx with hx | hx
      · subst hx
        have hab : StrLE x ((b :: rest2).getLast (by simp)) :=
          (List.sorted_cons.mp hs).1 _ (List.getLast_mem _)
        exact hab
      · exact ih hs2 (by simp) hx

theorem getLast?_ne_of_not_mem (p : Str) (c : Byte) (h : c ∉ p) : p.getLast? ≠ some c := by
  intro e
  exact h (List.mem_of_getLast?_eq_some e)

/-- The string `veritySign` digests does not end with `&`. -/
theorem veritySignData_no_trailing_amp (v : Values) :
    ∃ data, notify.veritySignData v = .ok data ∧ data.getLast? ≠ some 38 := by
  refine ⟨_, veritySignData_eq v, ?_⟩
  generalize hp : (v.sortedPairs.map pairText).flatMap (fun p => Split p 38) = pieces
  by_cases hnil : pieces = []
  · subst hnil; simp [sortStrings, Join]
  -- every piece is free of the separator
  have hfree : ∀ p ∈ pieces, (38 : Byte) ∉ p := by
    intro p hp2
    rw [← hp] at hp2
    obtain ⟨s, _, hs⟩ := List.mem_flatMap.mp hp2
    exact not_mem_of_mem_Split s 38 p hs
  -- some piece is not empty
  have hsome : ∃ p ∈ pieces, p ≠ [] := by
    have hne : v.sortedPairs.map pairText ≠ [] := by
      intro e; rw [e] at hp; simp at hp; exact hnil hp
    obtain ⟨s, rest, hs⟩ := List.exists_cons_of_ne_nil hne
    have hmem : s ∈ v.sortedPairs.map pairText := by rw [hs]; simp
    obtain ⟨kv, _, hkv⟩ := List.mem_map.mp hmem
    have h61 : (61 : Byte) ∈ s := by
      rw [← hkv]; simp [pairText, ascii_eq]
    obtain ⟨p, hp3, hpn⟩ := exists_mem_Split s 38 61 h61 (by decide)
    exact ⟨p, by rw [← hp]; exact List.mem_flatMap.mpr ⟨s, hmem, hp3⟩, hpn⟩
  have hperm := sortStrings_perm pieces
  have hl : sortStrings pieces ≠ [] := by
    intro e; rw [e] at hperm; exact hnil (List.Perm.nil_eq hperm).symm
  obtain ⟨p, hp4, hpn⟩ := hsome
  have hle := sorted_le_getLast _ (sortStrings_sorted pieces) hl p (hperm.mem_iff.mpr hp4)
  have hlast : (sortStrings pieces).getLast hl ≠ [] := by
    intro e; rw [e] at hle; exact hpn (strLE_nil_right p hle)
  rw [Join_getLast _ _ hl hlast]
  exact getLast?_ne_of_not_mem _ _ (hfree _ (hperm.mem_iff.mp (List.getLast_mem hl)))

/-! ## Maps -/

theorem Values.find_Del (v : Values) (k0 k : Str) :
    Values.find (Values.Del v k0) k = if k = k0 then none else Values.find v k := by
  induction v with
  | nil => simp [Values.Del, Values.find]
  | cons e rest ih =>
    obtain ⟨k1, vs⟩ := e
    simp only [Values.Del] at ih ⊢
    by_cases h1 : k1 = k0
    · subst h1
      simp only [List.filter, ne_eq, not_true_eq_false, decide_False]
      rw [ih]
      by_cases h2 : k = k1
      · simp [h2]
      · have : ¬ k1 = k := fun e => h2 e.symm
        simp [h2, Values.find, this]
    · simp only [List.filter, ne_eq, h1, not_false_eq_true, decide_True, Values.find]
      rw [ih]
      by_cases h2 : k1 = k
      · subst h2; simp [h1]
      · simp [h2]

theorem Values.WF_Del (v : Values) (k : Str) (h : v.WF) : (Values.Del v k).WF := by
  unfold Values.WF Values.Del at *
  exact List.Nodup.sublist (List.Sublist.map _ (List.filter_sublist _)) h

theorem Values.mem_keys_iff (v : Values) (k : Str) :
    k ∈ v.map Prod.fst ↔ Values.find v k ≠ none := by
  induction v with
  | nil => simp [Values.find]
  | cons e rest ih =>
    obtain ⟨k1, vs⟩ := e
    by_cases h : k1 = k
    · simp [Values.find, h]
    · have h2 : ¬ k = k1 := fun e => h e.symm
      simp only [List.map_cons, List.mem_cons, h2, false_or, Values.find, h, if_false]
      exact ih

theorem Values.sortedPairs_congr (a b : Values) (ha : a.WF) (hb : b.WF)
    (h : ∀ k, Values.find a k = Values.find b k) : a.sortedPairs = b.sortedPairs := by
  have hperm : (a.map Prod.fst).Perm (b.map Prod.fst) := by
    apply (List.perm_ext_iff_of_nodup ha hb).mpr
    intro k
    rw [Values.mem_keys_iff, Values.mem_keys_iff, h]
  unfold Values.sortedPairs
  rw [sortStrings_congr hperm]
  congr 1
  funext k
  rw [h]

theorem veritySignData_congr (a b : Values) (ha : a.WF) (hb : b.WF)
    (h : ∀ k, Values.find a k = Values.find b k) :
    notify.veritySignData a = notify.veritySignData b := by
  rw [veritySignData_eq, veritySignData_eq, Values.sortedPairs_congr a b ha hb h]

theorem Values.find_of_mem (v : Values) (h : v.WF) (e : Str × List Str) (he : e ∈ v) :
    Values.find v e.1 = some e.2 := by
  induction v with
  | nil => simp at he
  | cons e1 rest ih =>
    obtain ⟨k1, vs⟩ := e1
    have hnd := List.nodup_cons.mp h
    rcases List.mem_cons.mp he with he | he
    · subst he; simp [Values.find]
    · have hk : k1 ≠ e.1 := by
        intro e2
        apply hnd.1
        exact List.mem_map.mpr ⟨e, he, e2.symm⟩
      simp only [Values.find, hk, if_false]
      exact ih hnd.2 he

theorem Values.sortedPairs_perm (v : Values) (h : v.WF) : v.sortedPairs.Perm v.pairs := by
  unfold Values.sortedPairs Values.pairs
  refine ((sortStrings_perm _).flatMap_right _).trans ?_
  rw [List.flatMap_map]
  apply List.Perm.of_eq
  apply List.flatMap_congr
  intro e he
  simp [Values.find_of_mem v h e he]

theorem Values.pairs_Del (v : Values) (k : Str) :
    (Values.Del v k).pairs = v.pairs.filter (fun kv => kv.1 ≠ k) := by
  induction v with
  | nil => rfl
  | cons e rest ih =>
    obtain ⟨k1, vs⟩ := e
    simp only [Values.Del, Values.pairs] at ih ⊢
    by_cases h1 : k1 = k
    · simp only [List.filter, ne_eq, h1, not_true_eq_false, decide_False, List.flatMap_cons,
        List.filter_append]
      rw [ih]
      simp [List.filter_map, Function.comp_def]
    · simp only [List.filter, ne_eq, h1, not_false_eq_true, decide_True, List.flatMap_cons,
        List.filter_append]
      rw [ih]
      simp [List.filter_map, Function.comp_def, h1]

theorem Values.pairs_Add (v : Values) (k x : Str) :
    (Values.Add v k x).pairs.Perm (v.pairs ++ [(k, x)]) := by
  induction v with
  | nil => simp [Values.Add, Values.pairs]
  | cons e rest ih =>
    obtain ⟨k1, vs⟩ := e
    by_cases h1 : k1 = k
    · subst h1
      simp only [Values.Add, if_true, Values.pairs, List.flatMap_cons, List.map_append,
        List.map_cons, List.map_nil, List.append_assoc]
      exact List.Perm.append_left _ List.perm_append_comm
    · simp only [Values.Add, h1, if_false, Values.pairs, List.flatMap_cons, List.append_assoc]
          at ih ⊢
      exact List.Perm.append_left _ ih

theorem Values.keys_Add (v : Values) (k x : Str) :
    (Values.Add v k x).map Prod.fst = if k ∈ v.map Prod.fst then v.map Prod.fst else v.map Prod.fst ++ [k] := by
  induction v with
  | nil => simp [Values.Add]
  | cons e rest ih =>
    obtain ⟨k1, vs⟩ := e
    by_cases h1 : k1 = k
    · subst h1; simp [Values.Add]
    · have h2 : ¬ k = k1 := fun e => h1 e.symm
      simp only [Values.Add, h1, if_false, List.map_cons, ih, List.mem_cons, h2, false_or]
      split <;> simp

theorem Values.WF_Add (v : Values) (k x : Str) (h : v.WF) : (Values.Add v k x).WF := by
  unfold Values.WF at *
  rw [Values.keys_Add]
  split
  · exact h
  · rename_i hk
    exact List.Nodup.append h (List.nodup_singleton k) (by simpa using hk)

theorem foldl_Add_spec (fields : List (Str × Str)) (acc : Values) (h : acc.WF) :
    (fields.foldl (fun m f => Values.Add m f.1 f.2) acc).WF ∧
    (fields.foldl (fun m f => Values.Add m f.1 f.2) acc).pairs.Perm (acc.pairs ++ fields) := by
  induction fields generalizing acc with
  | nil => simp [h]
  | cons f rest ih =>
    obtain ⟨h1, h2⟩ := ih (Values.Add acc f.1 f.2) (Values.WF_Add acc f.1 f.2 h)
    refine ⟨h1, ?_⟩
    simp only [List.foldl_cons]
    refine h2.trans ?_
    have := (Values.pairs_Add acc f.1 f.2).append_right rest
    simpa using this

theorem formOfFields_WF (fields : List (Str × Str)) : (notify.formOfFields fields).WF :=
  (foldl_Add_spec fields [] (by simp [Values.WF])).1

theorem formOfFields_pairs (fields : List (Str × Str)) :
    (notify.formOfFields fields).pairs.Perm fields := by
  have := (foldl_Add_spec fields [] (by simp [Values.WF])).2
  simpa [Values.pairs] using this

/-- The string `veritySign` digests is the same for every order of the
received fields. -/
theorem veritySignData_perm (l1 l2 : List (Str × Str)) (h : l1.Perm l2) (k1 k2 : Str) :
    notify.veritySignData (Values.Del (Values.Del (notify.formOfFields l1) k1) k2) =
    notify.veritySignData (Values.Del (Values.Del (notify.formOfFields l2) k1) k2) := by
  have key : ∀ l : List (Str × Str),
      (Values.Del (Values.Del (notify.formOfFields l) k1) k2).sortedPairs.Perm
        ((l.filter (fun kv => kv.1 ≠ k1)).filter (fun kv => kv.1 ≠ k2)) := by
    intro l
    refine (Values.sortedPairs_perm _
      (Values.WF_Del _ _ (Values.WF_Del _ _ (formOfFields_WF l)))).trans ?_
    rw [Values.pairs_Del, Values.pairs_Del]
    exact ((formOfFields_pairs l).filter _).filter _
  have hp : (Values.Del (Values.Del (notify.formOfFields l1) k1) k2).sortedPairs.Perm
      (Values.Del (Values.Del (notify.formOfFields l2) k1) k2).sortedPairs :=
    (key l1).trans (((h.filter _).filter _).trans (key l2).symm)
  rw [veritySignData_eq, veritySignData_eq]
  rw [sortStrings_congr ((hp.map pairText).flatMap_right _)]

/-! ## veritySign and Verity -/

theorem RSA2_ne_RSA : ascii "RSA2" ≠ ascii "RSA" := by decide

/-- The outcome of `veritySign` in closed form: its result, the map it leaves
behind (the caller's map without `sign` and `sign_type`) and the RSA operation
it performs. -/
theorem veritySign_apply (lib : Lib) (cfg : Option config.Config) (v : Values) :
    notify.veritySign lib cfg v =
      ⟨(match notify.veritySignData ((v.Del (ascii "sign")).Del (ascii "sign_type")) with
        | .error e => .error e
        | .ok data =>
          match lib.base64Decode (v.Get (ascii "sign")) with
          | .error e => .error e
          | .ok signData =>
            match cfg with
            | none => .error (.panic "nil pointer dereference")
            | some c =>
              if c.GetAppSignType = ascii "RSA" then
                match c.GetAlipayPublicKey with
                | none => .error (.panic "nil pointer dereference")
                | some key =>
                  match lib.VerifyPKCS1v15 key .SHA1 (lib.sha1 data) signData with
                  | some err => .error err
                  | none => .ok ()
              else if c.GetAppSignType = ascii "RSA2" then
                match c.GetAlipayPublicKey with
                | none => .error (.panic "nil pointer dereference")
                | some key =>
                  match lib.VerifyPKCS1v15 key .SHA256 (lib.sha256 data) signData with
                  | some err => .error err
                  | none => .ok ()
              else .error (.msg "仅支持RSA(SHA1)和RSA2(SHA256)两种签名算法")),
       (v.Del (ascii "sign")).Del (ascii "sign_type"),
       (match notify.veritySignData ((v.Del (ascii "sign")).Del (ascii "sign_type")) with
        | .error _ => []
        | .ok data =>
          match lib.base64Decode (v.Get (ascii "sign")) with
          | .error _ => []
          | .ok signData =>
            match cfg with
            | none => []
            | some c =>
              if c.GetAppSignType = ascii "RSA" then [.verify .SHA1 (lib.sha1 data) signData]
              else if c.GetAppSignType = ascii "RSA2" then
                [.verify .SHA256 (lib.sha256 data) signData]
              else [])⟩ := by
  unfold notify.veritySign
  simp only [Go.bind_eq, Go.seq_get, Go.seq_set]
  cases h1 : notify.veritySignData ((v.Del (ascii "sign")).Del (ascii "sign_type")) with
  | error e => simp
  | ok data =>
    cases h2 : lib.base64Decode (v.Get (ascii "sign")) with
    | error e => simp
    | ok signData =>
      cases cfg with
      | none => simp [deref]
      | some c =>
        simp only [Go.seq_lift_ok, deref, Go.seq_ret]
        by_cases h3 : c.GetAppSignType = ascii "RSA"
        · cases h5 : c.GetAlipayPublicKey with
          | none => simp [Go.seq, h3, h5]
          | some key =>
            cases h6 : lib.VerifyPKCS1v15 key HashAlg.SHA1 (lib.sha1 data) signData <;>
              simp [Go.seq, h3, h5, h6]
        · by_cases h4 : c.GetAppSignType = ascii "RSA2"
          · cases h5 : c.GetAlipayPublicKey with
            | none => simp [Go.seq, h4, RSA2_ne_RSA, h5]
            | some key =>
              cases h6 : lib.VerifyPKCS1v15 key HashAlg.SHA256 (lib.sha256 data) signData <;>
                simp [Go.seq, h4, RSA2_ne_RSA, h5, h6]
          · simp [h3, h4]

/-! ## makeSign -/

/-- The outcome of `makeSign` in closed form: its result, the receiver
(unchanged) and the RSA operation it performs. -/
theorem makeSign_apply (lib : Lib) (r : pay.Params) :
    pay.makeSign lib r =
      ⟨(if r.paramsStr = [] then .error (.msg "签名参数未构建")
        else
          match r.alipayConfig with
          | none => .error (.panic "nil pointer dereference")
          | some c =>
            if c.GetAppSignType = ascii "RSA" then
              match c.GetAppPrivateKey with
              | none => .error (.panic "nil pointer dereference")
              | some key =>
                match lib.SignPKCS1v15 key .SHA1 (lib.sha1 r.paramsStr) with
                | .error err => .error err
                | .ok signBytes => .ok (lib.base64Encode signBytes)
            else if c.GetAppSignType = ascii "RSA2" then
              match c.GetAppPrivateKey with
              | none => .error (.panic "nil pointer dereference")
              | some key =>
                match lib.SignPKCS1v15 key .SHA256 (lib.sha256 r.paramsStr) with
                | .error err => .error err
                | .ok signBytes => .ok (lib.base64Encode signBytes)
            else .error (.msg "仅支持RSA(SHA1)和RSA2(SHA256)两种签名算法")),
       r,
       (if r.paramsStr = [] then []
        else
          match r.alipayConfig with
          | none => []
          | some c =>
            if c.GetAppSignType = ascii "RSA" then [.sign .SHA1 (lib.sha1 r.paramsStr)]
            else if c.GetAppSignType = ascii "RSA2" then [.sign .SHA256 (lib.sha256 r.paramsStr)]
            else [])⟩ := by
  unfold pay.makeSign
  simp only [Go.bind_eq, Go.seq_get, Go.seq_failIf]
  by_cases h0 : r.paramsStr = []
  · simp [h0]
  simp only [h0, if_false]
  cases h1 : r.alipayConfig with
  | none => simp [deref]
  | some c =>
    simp only [deref, Go.seq_ret]
    by_cases h3 : c.GetAppSignType = ascii "RSA"
    · cases h5 : c.GetAppPrivateKey with
      | none => simp [Go.seq, h3, h5]
      | some key =>
        cases h6 : lib.SignPKCS1v15 key HashAlg.SHA1 (lib.sha1 r.paramsStr) <;>
          simp [Go.seq, h3, h5, h6]
    · by_cases h4 : c.GetAppSignType = ascii "RSA2"
      · cases h5 : c.GetAppPrivateKey with
        | none => simp [Go.seq, h4, RSA2_ne_RSA, h5]
        | some key =>
          cases h6 : lib.SignPKCS1v15 key HashAlg.SHA256 (lib.sha256 r.paramsStr) <;>
            simp [Go.seq, h4, RSA2_ne_RSA, h5, h6]
      · simp [h3, h4]

/-- C6: in `makeSign` and in `veritySign` the configured sign type `RSA` selects
SHA-1 and `RSA2` selects SHA-256: the one RSA operation performed is on that
digest of the canonical string, and the result of the call is the result of
`rsa.SignPKCS1v15` (base64-encoded) or of `rsa.VerifyPKCS1v15` called with that
hash identifier and that digest. Under every other configured sign type the
call returns the error of the switch (in `veritySign` after the base64
decoding) and performs no RSA operation. -/
theorem signType_selects_digest (lib : Lib) (c : config.Config) (r : pay.Params) (v : Values)
    (hr : r.alipayConfig = some c) :
    (c.GetAppSignType = ascii "RSA" →
      (r.paramsStr ≠ [] →
        (pay.makeSign lib r).rsaOps = [.sign .SHA1 (lib.sha1 r.paramsStr)] ∧
        ∀ key, c.GetAppPrivateKey = some key →
          (pay.makeSign lib r).result =
            match lib.SignPKCS1v15 key .SHA1 (lib.sha1 r.paramsStr) with
            | .error err => .error err
            | .ok signBytes => .ok (lib.base64Encode signBytes)) ∧
      (∀ data signData,
        notify.veritySignData ((v.Del (ascii "sign")).Del (ascii "sign_type")) = .ok data →
        lib.base64Decode (v.Get (ascii "sign")) = .ok signData →
        (notify.veritySign lib (some c) v).rsaOps = [.verify .SHA1 (lib.sha1 data) signData] ∧
        ∀ key, c.GetAlipayPublicKey = some key →
          (notify.veritySign lib (some c) v).result =
            match lib.VerifyPKCS1v15 key .SHA1 (lib.sha1 data) signData with
            | some err => .error err
            | none => .ok ())) ∧
    (c.GetAppSignType = ascii "RSA2" →
      (r.paramsStr ≠ [] →
        (pay.makeSign lib r).rsaOps = [.sign .SHA256 (lib.sha256 r.paramsStr)] ∧
        ∀ key, c.GetAppPrivateKey = some key →
          (pay.makeSign lib r).result =
            match lib.SignPKCS1v15 key .SHA256 (lib.sha256 r.paramsStr) with
            | .error err => .error err
            | .ok signBytes => .ok (lib.base64Encode signBytes)) ∧
      (∀ data signData,
        notify.veritySignData ((v.Del (ascii "sign")).Del (ascii "sign_type")) = .ok data →
        lib.base64Decode (v.Get (ascii "sign")) = .ok signData →
        (notify.veritySign lib (some c) v).rsaOps = [.verify .SHA256 (lib.sha256 data) signData] ∧
        ∀ key, c.GetAlipayPublicKey = some key →
          (notify.veritySign lib (some c) v).result =
            match lib.VerifyPKCS1v15 key .SHA256 (lib.sha256 data) signData with
            | some err => .error err
            | none => .ok ())) ∧
    (c.GetAppSignType ≠ ascii "RSA" → c.GetAppSignType ≠ ascii "RSA2" →
      (∃ e, (pay.makeSign lib r).result = .error e) ∧ (pay.makeSign lib r).rsaOps = [] ∧
      (∃ e, (notify.veritySign lib (some c) v).result = .error e) ∧
      (notify.veritySign lib (some c) v).rsaOps = [] ∧
      (r.paramsStr ≠ [] → (pay.makeSign lib r).result
        = .error (.msg "仅支持RSA(SHA1)和RSA2(SHA256)两种签名算法")) ∧
      (∀ signData, lib.base64Decode (v.Get (ascii "sign")) = .ok signData →
        (notify.veritySign lib (some c) v).result
          = .error (.msg "仅支持RSA(SHA1)和RSA2(SHA256)两种签名算法"))) := by
  rw [makeSign_apply, veritySign_apply]
  simp only [hr]
  refine ⟨?_, ?_, ?_⟩
  · intro h
    refine ⟨fun hp => ⟨by simp [h, hp], fun key hk => ?_⟩,
      fun data signData hd hs => ⟨by simp [h, hd, hs], fun key hk => ?_⟩⟩
    · simp only [h, hp, hk, if_true, if_false]
    · simp only [h, hd, hs, hk, if_true]
  · intro h
    refine ⟨fun hp => ⟨by simp [h, hp, RSA2_ne_RSA], fun key hk => ?_⟩,
      fun data signData hd hs => ⟨by simp [h, hd, hs, RSA2_ne_RSA], fun key hk => ?_⟩⟩
    · simp only [h, hp, hk, RSA2_ne_RSA, if_true, if_false]
    · simp only [h, hd, hs, hk, RSA2_ne_RSA, if_true, if_false]
  · intro h1 h2
    refine ⟨?_, ?_, ?_, ?_, ?_, ?_⟩
    · by_cases hp : r.paramsStr = [] <;> simp [h1, h2, hp]
    · by_cases hp : r.paramsStr = [] <;> simp [h1, h2, hp]
    · rw [veritySignData_eq]
      cases lib.base64Decode (v.Get (ascii "sign")) <;> simp [h1, h2]
    · rw [veritySignData_eq]
      cases lib.base64Decode (v.Get (ascii "sign")) <;> simp [h1, h2]
    · intro hp
      simp [h1, h2, hp]
    · intro signData hs
      rw [veritySignData_eq]
      simp [h1, h2, hs]

/-- The sample request under the sample configuration (`RSA2`) and under the
same configuration with the sign type `RSA`: the RSA operation is on the
SHA-256 digest in the first and on the SHA-1 digest in the second, and the
signatures returned are those of the two digests. -/
theorem signType_selects_digest_witness :
    (pay.makeSign demoLib { demoParams with paramsStr := ascii "a=1" }).rsaOps
      = [.sign .SHA256 (demoLib.sha256 (ascii "a=1"))] ∧
    (pay.makeSign demoLib { demoParams with paramsStr := ascii "a=1" }).result
      = .ok (ascii "05") ∧
    (pay.makeSign demoLib { demoParams with
      paramsStr := ascii "a=1",
      alipayConfig := some { demoConfig with appSignType := ascii "RSA" } }).rsaOps
      = [.sign .SHA1 (demoLib.sha1 (ascii "a=1"))] ∧
    (pay.makeSign demoLib { demoParams with
      paramsStr := ascii "a=1",
      alipayConfig := some { demoConfig with appSignType := ascii "RSA" } }).result
      = .ok (ascii "0A") := by
  have h2 := ((signType_selects_digest demoLib demoConfig
    { demoParams with paramsStr := ascii "a=1" } [] rfl).2.1 (by decide)).1 (by decide)
  have h1 := ((signType_selects_digest demoLib { demoConfig with appSignType := ascii "RSA" }
    { demoParams with
      paramsStr := ascii "a=1",
      alipayConfig := some { demoConfig with appSignType := ascii "RSA" } } [] rfl).1
    (by decide)).1 (by decide)
  exact ⟨h2.1, (h2.2 demoPrivateKey rfl).trans (by decide), h1.1,
    (h1.2 demoPrivateKey rfl).trans (by decide)⟩

/-- C4: a signature returned by `makeSign` verifies. Let `makeSign` run with a
private key and return the base64 text `sig` for its canonical string, and let
`veritySign` run under the same sign type with a public key that accepts every
signature the private key makes, on a form whose `sign` value is `sig` and whose
reconstructed string is that canonical string: then `veritySign` returns no
error. Base64 decoding is assumed to invert base64 encoding. -/
theorem makeSign_veritySign_roundtrip (lib : Lib) (cs cv : config.Config) (priv : PrivateKey)
    (pub : PublicKey) (r : pay.Params) (v : Values) (sig : Str)
    (hmatch : ∀ h d s, lib.SignPKCS1v15 priv h d = .ok s → lib.VerifyPKCS1v15 pub h d s = none)
    (hb64 : ∀ b, lib.base64Decode (lib.base64Encode b) = .ok b)
    (hr : r.alipayConfig = some cs) (hpriv : cs.GetAppPrivateKey = some priv)
    (hpub : cv.GetAlipayPublicKey = some pub) (htype : cs.GetAppSignType = cv.GetAppSignType)
    (hsig : (pay.makeSign lib r).result = .ok sig)
    (hget : v.Get (ascii "sign") = sig)
    (hdata : notify.veritySignData ((v.Del (ascii "sign")).Del (ascii "sign_type"))
      = .ok r.paramsStr) :
    (notify.veritySign lib (some cv) v).result = .ok () := by
  rw [makeSign_apply] at hsig
  rw [veritySign_apply]
  simp only [hr, hpriv] at hsig
  simp only [hdata, hget, hpub, ← htype]
  by_cases hp : r.paramsStr = []
  · simp [hp] at hsig
  simp only [hp, if_false] at hsig
  by_cases h1 : cs.GetAppSignType = ascii "RSA"
  · simp only [h1, if_true] at hsig ⊢
    cases hs : lib.SignPKCS1v15 priv .SHA1 (lib.sha1 r.paramsStr) with
    | error e => simp [hs] at hsig
    | ok sb =>
      simp only [hs, Except.ok.injEq] at hsig
      subst hsig
      simp [hb64, hmatch _ _ _ hs]
  · by_cases h2 : cs.GetAppSignType = ascii "RSA2"
    · simp only [h2, RSA2_ne_RSA, if_true, if_false] at hsig ⊢
      cases hs : lib.SignPKCS1v15 priv .SHA256 (lib.sha256 r.paramsStr) with
      | error e => simp [hs] at hsig
      | ok sb =>
        simp only [hs, Except.ok.injEq] at hsig
        subst hsig
        simp [hb64, hmatch _ _ _ hs]
    · simp [h1, h2] at hsig

theorem hexDecode_hexEncode (b : Str) : hexDecode (hexEncode b) = .ok b := by
  induction b with
  | nil => rfl
  | cons c rest ih =>
    obtain ⟨h1, h2, h3⟩ := hex_roundtrip c
    simp [hexEncode, hexDecode, h1, h2, h3, ih]

theorem demo_rsa_small : ∀ m : Fin 33, (m.val ^ 7 % 33) ^ 3 % 33 = m.val := by decide

/-- The toy public key accepts every signature the toy private key makes. -/
theorem demo_keys_match (h : HashAlg) (d s : Str)
    (hs : demoLib.SignPKCS1v15 demoPrivateKey h d = .ok s) :
    demoLib.VerifyPKCS1v15 demoPublicKey h d s = none := by
  have hm : digestNum d % 33 < 33 := Nat.mod_lt _ (by decide)
  have key := demo_rsa_small ⟨digestNum d % 33, hm⟩
  simp only at key
  have hlt : (digestNum d % 33) ^ 7 % 33 < 256 := lt_trans (Nat.mod_lt _ (by decide)) (by decide)
  simp only [demoLib, demoPrivateKey, demoPublicKey] at hs ⊢
  simp at hs
  subst hs
  simp [Fin.ofNat, Nat.mod_eq_of_lt hlt, key]

/-- The toy key pair, hexadecimal text for base64: a signed string verifies. -/
theorem makeSign_veritySign_roundtrip_witness :
    (notify.veritySign demoLib (some demoConfig)
      [(ascii "a", [ascii "1"]), (ascii "sign", [ascii "05"])]).result = .ok () :=
  makeSign_veritySign_roundtrip demoLib demoConfig demoConfig demoPrivateKey demoPublicKey
    { demoParams with paramsStr := ascii "a=1" }
    [(ascii "a", [ascii "1"]), (ascii "sign", [ascii "05"])] (ascii "05")
    demo_keys_match hexDecode_hexEncode rfl rfl rfl rfl (by decide) (by decide) (by decide)

theorem Values.find_Add (v : Values) (k x k2 : Str) :
    Values.find (Values.Add v k x) k2 =
      if k2 = k then some ((Values.find v k).getD [] ++ [x]) else Values.find v k2 := by
  induction v with
  | nil =>
    by_cases h : k2 = k
    · subst h; simp [Values.Add, Values.find]
    · have h2 : ¬ k = k2 := fun e => h e.symm
      simp [Values.Add, Values.find, h, h2]
  | cons e rest ih =>
    obtain ⟨k1, vs⟩ := e
    by_cases h1 : k1 = k
    · subst h1
      by_cases h : k2 = k1
      · subst h; simp [Values.Add, Values.find]
      · have h2 : ¬ k1 = k2 := fun e => h e.symm
        simp [Values.Add, Values.find, h, h2]
    · by_cases h : k2 = k
      · subst h
        simp [Values.Add, Values.find, h1, ih]
      · by_cases h3 : k1 = k2
        · simp [Values.Add, Values.find, h1, h, h3]
        · simp [Values.Add, Values.find, h1, h, h3, ih]

theorem foldl_Add_find (fields : List (Str × Str)) (acc : Values) (k : Str) :
    Values.find (fields.foldl (fun m f => Values.Add m f.1 f.2) acc) k =
      if (fields.filter (fun kv => kv.1 = k)) = [] then Values.find acc k
      else some ((Values.find acc k).getD [] ++ (fields.filter (fun kv => kv.1 = k)).map Prod.snd) := by
  induction fields generalizing acc with
  | nil => simp
  | cons f rest ih =>
    simp only [List.foldl_cons]
    rw [ih, Values.find_Add]
    by_cases hf : f.1 = k
    · subst hf
      by_cases hr : rest.filter (fun kv => kv.1 = f.1) = []
      · simp [hr, List.filter_cons]
      · simp [hr, List.filter_cons]
    · have hf2 : ¬ k = f.1 := fun e => hf e.symm
      have hfl : List.filter (fun kv => decide (kv.1 = k)) (f :: rest)
          = List.filter (fun kv => decide (kv.1 = k)) rest := by
        simp [List.filter_cons, hf]
      rw [hfl]
      simp [hf2]

/-- The value `Get` returns on a parsed form: the value of the first received
field of that name. -/
theorem formOfFields_Get (fields : List (Str × Str)) (k : Str) :
    (notify.formOfFields fields).Get k =
      (((fields.filter (fun kv => kv.1 = k)).head?).map Prod.snd).getD [] := by
  unfold Values.Get notify.formOfFields
  rw [foldl_Add_find]
  cases h : fields.filter (fun kv => kv.1 = k) with
  | nil => simp [Values.find]
  | cons a rest => simp [Values.find]

/-- The result and the RSA operation of `veritySign` depend on the form only
through its `sign` value and the string reconstructed from the other fields. -/
theorem veritySign_congr (lib : Lib) (cfg : Option config.Config) (v1 v2 : Values)
    (hg : v1.Get (ascii "sign") = v2.Get (ascii "sign"))
    (hd : notify.veritySignData ((v1.Del (ascii "sign")).Del (ascii "sign_type")) =
      notify.veritySignData ((v2.Del (ascii "sign")).Del (ascii "sign_type"))) :
    (notify.veritySign lib cfg v1).result = (notify.veritySign lib cfg v2).result ∧
    (notify.veritySign lib cfg v1).rsaOps = (notify.veritySign lib cfg v2).rsaOps := by
  rw [veritySign_apply, veritySign_apply]
  simp only [hg, hd, and_self]

/-- C5: two forms that differ only in the value or the presence of the
`sign_type` field get the same result from `veritySign`, and the same RSA
operation is performed for both: the digest algorithm comes from the
configuration, never from the form. -/
theorem veritySign_ignores_sign_type (lib : Lib) (cfg : Option config.Config) (v1 v2 : Values)
    (h1 : v1.WF) (h2 : v2.WF)
    (h : ∀ k, k ≠ ascii "sign_type" → Values.find v1 k = Values.find v2 k) :
    (notify.veritySign lib cfg v1).result = (notify.veritySign lib cfg v2).result ∧
    (notify.veritySign lib cfg v1).rsaOps = (notify.veritySign lib cfg v2).rsaOps := by
  apply veritySign_congr
  · unfold Values.Get
    rw [h (ascii "sign") (by decide)]
  · apply veritySignData_congr
    · exact Values.WF_Del _ _ (Values.WF_Del _ _ h1)
    · exact Values.WF_Del _ _ (Values.WF_Del _ _ h2)
    · intro k
      rw [Values.find_Del, Values.find_Del, Values.find_Del, Values.find_Del]
      by_cases hk : k = ascii "sign_type"
      · simp [hk]
      · simp [hk, h k hk]

/-- A form that says `sign_type=RSA` and the same form without the field, under
a configuration of type `RSA2`. -/
theorem veritySign_ignores_sign_type_witness :
    (notify.veritySign demoLib (some demoConfig)
      [(ascii "a", [ascii "1"]), (ascii "sign", [ascii "05"]), (ascii "sign_type", [ascii "RSA"])]).result
    = (notify.veritySign demoLib (some demoConfig)
      [(ascii "a", [ascii "1"]), (ascii "sign", [ascii "05"])]).result :=
  (veritySign_ignores_sign_type demoLib (some demoConfig)
    [(ascii "a", [ascii "1"]), (ascii "sign", [ascii "05"]), (ascii "sign_type", [ascii "RSA"])]
    [(ascii "a", [ascii "1"]), (ascii "sign", [ascii "05"])]
    (by decide) (by decide)
    (by
      intro k hk
      simp only [Values.find]
      have e : ¬ ascii "sign_type" = k := fun e => hk e.symm
      simp [e])).1

/-- The outcome of `Verity` in closed form. -/
theorem Verity_apply (lib : Lib) (cfg : Option config.Config) (req : notify.Request) :
    notify.Verity lib cfg req =
      match req.parseFormErr with
      | some err => ⟨.error err, req, []⟩
      | none =>
        match notify.parseNotifyParams lib req with
        | .error e => ⟨.error e, req, []⟩
        | .ok p =>
          ⟨(match (notify.veritySign lib cfg req.PostForm).result with
            | .ok _ => .ok p
            | .error e => .error e),
           { req with PostForm := (notify.veritySign lib cfg req.PostForm).state },
           (notify.veritySign lib cfg req.PostForm).rsaOps⟩ := by
  unfold notify.Verity
  simp only [Go.bind_eq, Go.seq_get]
  cases h1 : req.parseFormErr with
  | some err => simp
  | none =>
    cases h2 : notify.parseNotifyParams lib req with
    | error e => simp
    | ok p =>
      simp only [Go.seq_lift_ok]
      cases h3 : (notify.veritySign lib cfg req.PostForm).result <;>
        simp [Go.seq, Go.onPart, h3, h1]

/-- C7: `Verity` returns parsed parameters only if `veritySign` succeeded on the
form of the request; when `veritySign` fails on it, `Verity` returns an error
and no parameters, and that error is the one of `veritySign` whenever parsing
got as far as the signature check. -/
theorem Verity_only_verified (lib : Lib) (cfg : Option config.Config) (req : notify.Request) :
    (∀ p, (notify.Verity lib cfg req).result = .ok p →
      (notify.veritySign lib cfg req.PostForm).result = .ok () ∧
      notify.parseNotifyParams lib req = .ok p) ∧
    (∀ e, (notify.veritySign lib cfg req.PostForm).result = .error e →
      (∃ e2, (notify.Verity lib cfg req).result = .error e2) ∧
      (req.parseFormErr = none → (∃ p, notify.parseNotifyParams lib req = .ok p) →
        (notify.Verity lib cfg req).result = .error e)) := by
  rw [Verity_apply]
  constructor
  · intro p h
    cases h1 : req.parseFormErr with
    | some err => simp [h1] at h
    | none =>
      cases h2 : notify.parseNotifyParams lib req with
      | error e => simp [h1, h2] at h
      | ok q =>
        cases h3 : (notify.veritySign lib cfg req.PostForm).result with
        | error e => simp [h1, h2, h3] at h
        | ok u =>
          simp only [h1, h2, h3, Except.ok.injEq] at h
          exact ⟨rfl, by rw [h]⟩
  · intro e he
    constructor
    · cases h1 : req.parseFormErr with
      | some err => exact ⟨err, by simp⟩
      | none =>
        cases h2 : notify.parseNotifyParams lib req with
        | error e2 => exact ⟨e2, by simp⟩
        | ok q => exact ⟨e, by simp [he]⟩
    · intro h1 ⟨p, h2⟩
      simp [h1, h2, he]

/-- A form with a wrong signature: `Verity` returns the verification error. -/
theorem Verity_only_verified_witness :
    (notify.Verity demoLib (some demoConfig)
      ⟨none, [(ascii "a", [ascii "1"]), (ascii "sign", [ascii "00"])]⟩).result
      = .error (.lib "crypto/rsa: verification error") :=
  ((Verity_only_verified demoLib (some demoConfig)
      ⟨none, [(ascii "a", [ascii "1"]), (ascii "sign", [ascii "00"])]⟩).2
    (.lib "crypto/rsa: verification error") (by decide)).2 rfl ⟨_, rfl⟩

/-- C8, as stated, fails: after `veritySign` (and after `Verity`) the caller's
map has lost its `sign` and `sign_type` entries. -/
theorem veritySign_mutates_form_counterexample :
    (notify.veritySign demoLib (some demoConfig)
      [(ascii "a", [ascii "1"]), (ascii "sign", [ascii "05"]),
        (ascii "sign_type", [ascii "RSA2"])]).state
      = [(ascii "a", [ascii "1"])] ∧
    (notify.Verity demoLib (some demoConfig)
      ⟨none, [(ascii "a", [ascii "1"]), (ascii "sign", [ascii "05"]),
        (ascii "sign_type", [ascii "RSA2"])]⟩).state.PostForm
      ≠ [(ascii "a", [ascii "1"]), (ascii "sign", [ascii "05"]),
        (ascii "sign_type", [ascii "RSA2"])] := by
  decide

/-- C8, amended: `veritySign` deletes the `sign` and `sign_type` entries from the
map it is given, which is the caller's map, and leaves every other entry as it
was; when `Verity` gets as far as the signature check, the `PostForm` of the
request is left without these two entries. -/
theorem veritySign_deletes_in_place (lib : Lib) (cfg : Option config.Config) (v : Values)
    (req : notify.Request) :
    (notify.veritySign lib cfg v).state = (v.Del (ascii "sign")).Del (ascii "sign_type") ∧
    (∀ k, k ≠ ascii "sign" → k ≠ ascii "sign_type" →
      Values.find (notify.veritySign lib cfg v).state k = Values.find v k) ∧
    Values.find (notify.veritySign lib cfg v).state (ascii "sign") = none ∧
    Values.find (notify.veritySign lib cfg v).state (ascii "sign_type") = none ∧
    (req.parseFormErr = none → (∃ p, notify.parseNotifyParams lib req = .ok p) →
      (notify.Verity lib cfg req).state.PostForm
        = (req.PostForm.Del (ascii "sign")).Del (ascii "sign_type")) := by
  rw [veritySign_apply, Verity_apply]
  refine ⟨rfl, ?_, ?_, ?_, ?_⟩
  · intro k h1 h2
    simp [Values.find_Del, h1, h2]
  · simp only [Values.find_Del]
    simp [show ascii "sign" ≠ ascii "sign_type" by decide]
  · simp [Values.find_Del]
  · intro h1 ⟨p, h2⟩
    simp only [h1, h2]
    rw [veritySign_apply]

/-- A form that keeps its field `a` and loses `sign`. -/
theorem veritySign_deletes_in_place_witness :
    (notify.Verity demoLib (some demoConfig)
      ⟨none, [(ascii "a", [ascii "1"]), (ascii "sign", [ascii "05"])]⟩).state.PostForm
      = (Values.Del [(ascii "a", [ascii "1"]), (ascii "sign", [ascii "05"])] (ascii "sign")).Del
          (ascii "sign_type") :=
  (veritySign_deletes_in_place demoLib (some demoConfig) []
    ⟨none, [(ascii "a", [ascii "1"]), (ascii "sign", [ascii "05"])]⟩).2.2.2.2 rfl ⟨_, rfl⟩

/-- C3, as stated, fails: two orders of the same received fields, two `sign`
fields among them. With `sign=!!!!` first the result is the decoding error, with
`sign=AAAA` first it is the verification error; with the toy signature `05` of
`a=1` first the result is `nil`, with `00` first it is the verification error. -/
theorem veritySign_field_order_counterexample :
    List.Perm [(ascii "a", ascii "1"), (ascii "sign", ascii "!!!!"), (ascii "sign", ascii "AAAA")]
      [(ascii "a", ascii "1"), (ascii "sign", ascii "AAAA"), (ascii "sign", ascii "!!!!")] ∧
    (notify.veritySign demoLib (some demoConfig) (notify.formOfFields
      [(ascii "a", ascii "1"), (ascii "sign", ascii "!!!!"), (ascii "sign", ascii "AAAA")])).result
      = .error (.lib "illegal base64 data") ∧
    (notify.veritySign demoLib (some demoConfig) (notify.formOfFields
      [(ascii "a", ascii "1"), (ascii "sign", ascii "AAAA"), (ascii "sign", ascii "!!!!")])).result
      = .error (.lib "crypto/rsa: verification error") ∧
    List.Perm [(ascii "a", ascii "1"), (ascii "sign", ascii "05"), (ascii "sign", ascii "00")]
      [(ascii "a", ascii "1"), (ascii "sign", ascii "00"), (ascii "sign", ascii "05")] ∧
    (notify.veritySign demoLib (some demoConfig) (notify.formOfFields
      [(ascii "a", ascii "1"), (ascii "sign", ascii "05"), (ascii "sign", ascii "00")])).result
      = .ok () ∧
    (notify.veritySign demoLib (some demoConfig) (notify.formOfFields
      [(ascii "a", ascii "1"), (ascii "sign", ascii "00"), (ascii "sign", ascii "05")])).result
      = .error (.lib "crypto/rsa: verification error") :=
  ⟨List.Perm.cons _ (List.Perm.swap _ _ _), by decide, by decide,
    List.Perm.cons _ (List.Perm.swap _ _ _), by decide, by decide⟩

/-- C3, amended: for every list of received fields and every permutation of it
the string `veritySign` reconstructs is the same; the result of `veritySign`
(and the RSA operation it performs) is the same when the first received `sign`
field is the same in both orders, in particular when there is at most one. -/
theorem veritySign_field_order (lib : Lib) (cfg : Option config.Config)
    (l1 l2 : List (Str × Str)) (h : l1.Perm l2) :
    notify.veritySignData (((notify.formOfFields l1).Del (ascii "sign")).Del (ascii "sign_type"))
      = notify.veritySignData
          (((notify.formOfFields l2).Del (ascii "sign")).Del (ascii "sign_type")) ∧
    ((l1.filter (fun kv => kv.1 = ascii "sign")).head?
        = (l2.filter (fun kv => kv.1 = ascii "sign")).head? →
      (notify.veritySign lib cfg (notify.formOfFields l1)).result
        = (notify.veritySign lib cfg (notify.formOfFields l2)).result ∧
      (notify.veritySign lib cfg (notify.formOfFields l1)).rsaOps
        = (notify.veritySign lib cfg (notify.formOfFields l2)).rsaOps) ∧
    ((l1.filter (fun kv => kv.1 = ascii "sign")).length ≤ 1 →
      (notify.veritySign lib cfg (notify.formOfFields l1)).result
        = (notify.veritySign lib cfg (notify.formOfFields l2)).result) := by
  have hd := veritySignData_perm l1 l2 h (ascii "sign") (ascii "sign_type")
  have hhead : (l1.filter (fun kv => kv.1 = ascii "sign")).head?
        = (l2.filter (fun kv => kv.1 = ascii "sign")).head? →
      (notify.veritySign lib cfg (notify.formOfFields l1)).result
        = (notify.veritySign lib cfg (notify.formOfFields l2)).result ∧
      (notify.veritySign lib cfg (notify.formOfFields l1)).rsaOps
        = (notify.veritySign lib cfg (notify.formOfFields l2)).rsaOps := by
    intro hh
    apply veritySign_congr _ _ _ _ _ hd
    rw [formOfFields_Get, formOfFields_Get, hh]
  refine ⟨hd, hhead, ?_⟩
  intro hlen
  apply (hhead ?_).1
  have hp : (l1.filter (fun kv => kv.1 = ascii "sign")).Perm
      (l2.filter (fun kv => kv.1 = ascii "sign")) := h.filter _
  cases hf : l1.filter (fun kv => kv.1 = ascii "sign") with
  | nil =>
    rw [hf] at hp
    rw [List.Perm.nil_eq hp]
  | cons a rest =>
    rw [hf] at hlen hp
    have hr : rest = [] := by
      cases rest with
      | nil => rfl
      | cons b r2 => simp at hlen
    subst hr
    rw [List.singleton_perm.mp hp]

/-- Two orders of a form with one `sign` field. -/
theorem veritySign_field_order_witness :
    (notify.veritySign demoLib (some demoConfig) (notify.formOfFields
      [(ascii "a", ascii "1"), (ascii "sign", ascii "05")])).result
    = (notify.veritySign demoLib (some demoConfig) (notify.formOfFields
      [(ascii "sign", ascii "05"), (ascii "a", ascii "1")])).result :=
  (veritySign_field_order demoLib (some demoConfig)
    [(ascii "a", ascii "1"), (ascii "sign", ascii "05")]
    [(ascii "sign", ascii "05"), (ascii "a", ascii "1")] (List.Perm.swap _ _ _)).2.2
    (by decide)

/-- The reference canonical string of the specification is what `veritySign`
digests, for a form in which no remaining name or value contains `&`. -/
theorem veritySignData_eq_reference (form : Values) (hwf : form.WF)
    (hamp : ∀ kv ∈ ((form.Del (ascii "sign")).Del (ascii "sign_type")).pairs,
      (38 : Byte) ∉ kv.1 ∧ (38 : Byte) ∉ kv.2) :
    notify.veritySignData ((form.Del (ascii "sign")).Del (ascii "sign_type"))
      = .ok (notify.referenceCanonical form) := by
  have hwf2 := Values.WF_Del _ (ascii "sign_type") (Values.WF_Del _ (ascii "sign") hwf)
  have hperm := Values.sortedPairs_perm _ hwf2
  rw [veritySignData_eq]
  unfold notify.referenceCanonical notify.formPairs
  rw [ascii_amp]
  congr 2
  rw [← sortStrings_congr (hperm.map pairText)]
  congr 1
  have hone : ∀ p ∈ ((form.Del (ascii "sign")).Del (ascii "sign_type")).sortedPairs.map pairText,
      Split p 38 = [p] := by
    intro p hp
    obtain ⟨kv, hkv, e⟩ := List.mem_map.mp hp
    subst e
    have := hamp kv (hperm.mem_iff.mp hkv)
    apply Split_of_not_mem
    simp [pairText, ascii_eq, this.1, this.2]
  generalize ((form.Del (ascii "sign")).Del (ascii "sign_type")).sortedPairs.map pairText = l
    at hone
  induction l with
  | nil => rfl
  | cons a rest ih =>
    simp only [List.flatMap_cons]
    rw [hone a (by simp), ih (fun p hp => hone p (by simp [hp]))]
    rfl

/-- C2: a form with the value `A&B`: `veritySign` digests `B&app_id=1&body=A`,
the reference canonical string is `app_id=1&body=A&B`. -/
theorem veritySignData_ampersand_value :
    notify.veritySignData
      ((Values.Del [(ascii "app_id", [ascii "1"]), (ascii "body", [ascii "A&B"]),
        (ascii "sign", [ascii "05"]), (ascii "sign_type", [ascii "RSA2"])]
        (ascii "sign")).Del (ascii "sign_type"))
      = .ok (ascii "B&app_id=1&body=A") ∧
    notify.referenceCanonical [(ascii "app_id", [ascii "1"]), (ascii "body", [ascii "A&B"]),
        (ascii "sign", [ascii "05"]), (ascii "sign_type", [ascii "RSA2"])]
      = ascii "app_id=1&body=A&B" ∧
    ascii "B&app_id=1&body=A" ≠ ascii "app_id=1&body=A&B" := by
  decide

/-! ## The request canonical string -/

/-- C1: when `json.Marshal` of `BizContent` yields `j`, `buildParamsStr` returns
no error and the canonical string it stores (what `GetParamsStr` returns) is the
`&`-joined list of `name=value` segments in the fixed order, with `format`,
`notify_url` and `return_url` present exactly when the field is not empty,
`biz_content` equal to `j` and every value verbatim. -/
theorem buildParamsStr_canonical (lib : Lib) (r : pay.Params) (j : Str)
    (h : lib.jsonMarshal r.BizContent = .ok j) :
    (pay.buildParamsStr lib r).result = .ok () ∧
    pay.GetParamsStr (pay.buildParamsStr lib r).state = pay.requestCanonical r j := by
  have e0 : ascii "alipay_root_cert_sn=" = ascii "alipay_root_cert_sn" ++ ascii "=" := by decide
  have e1 : ascii "&app_cert_sn=" = ascii "&" ++ (ascii "app_cert_sn" ++ ascii "=") := by decide
  have e2 : ascii "&app_id=" = ascii "&" ++ (ascii "app_id" ++ ascii "=") := by decide
  have e3 : ascii "&biz_content=" = ascii "&" ++ (ascii "biz_content" ++ ascii "=") := by decide
  have e4 : ascii "&charset=" = ascii "&" ++ (ascii "charset" ++ ascii "=") := by decide
  have e5 : ascii "&format=" = ascii "&" ++ (ascii "format" ++ ascii "=") := by decide
  have e6 : ascii "&method=" = ascii "&" ++ (ascii "method" ++ ascii "=") := by decide
  have e7 : ascii "&notify_url=" = ascii "&" ++ (ascii "notify_url" ++ ascii "=") := by decide
  have e8 : ascii "&return_url=" = ascii "&" ++ (ascii "return_url" ++ ascii "=") := by decide
  have e9 : ascii "&sign_type=" = ascii "&" ++ (ascii "sign_type" ++ ascii "=") := by decide
  have e10 : ascii "&timestamp=" = ascii "&" ++ (ascii "timestamp" ++ ascii "=") := by decide
  have e11 : ascii "&version=" = ascii "&" ++ (ascii "version" ++ ascii "=") := by decide
  simp only [pay.buildParamsStr, Go.bind_eq, Go.seq_get, Go.seq_set, h, Go.set, pay.GetParamsStr,
    pay.requestCanonical, pay.requestSegments, pay.segment, e0, e1, e2, e3, e4, e5, e6, e7, e8,
    e9, e10, e11, true_and]
  by_cases hf : r.Format = [] <;> by_cases hn : r.NotifyURL = [] <;>
    by_cases hr : r.ReturnURL = [] <;>
    simp [hf, hn, hr, Join, List.append_assoc]

/-- The canonical string of the sample request, with the stand-in JSON text. -/
theorem buildParamsStr_canonical_witness :
    (pay.buildParamsStr demoLib demoParams).result = .ok () ∧
    pay.GetParamsStr (pay.buildParamsStr demoLib demoParams).state
      = pay.requestCanonical demoParams (ascii "\x7bTest\x7d") :=
  buildParamsStr_canonical demoLib demoParams (ascii "\x7bTest\x7d") (by decide)

/-! ## checkParams -/

theorem slice_zero (s : Str) (j : Nat) (h : j ≤ s.length) : slice s 0 (j : Int) = .ok (s.take j) := by
  simp [slice, h]

theorem take_eq_iff_isPrefix (p u : Str) : u.take p.length = p ↔ p <+: u := by
  constructor
  · intro e; rw [← e]; exact List.take_prefix _ _
  · intro hp; exact (List.prefix_iff_eq_take.mp hp).symm

/-- The URL test of `checkParams`, followed by the rest of the method: it
continues on an acceptable URL and otherwise returns one of two errors, the
receiver unchanged. -/
theorem urlBlock_seq {β : Type} (u : Str) (e1 e2 : Err) (f : Unit → Go pay.Params β)
    (s : pay.Params) :
    Go.seq (Go.when (u ≠ [])
      (Go.seq (Go.failIf (u.length < 8) e1) fun _ =>
        Go.seq (Go.failIf (u.length > 256) e2) fun _ =>
          Go.seq (Go.lift (slice u 0 7)) fun p7 =>
            Go.when (p7 ≠ ascii "http://")
              (Go.seq (Go.lift (slice u 0 8)) fun p8 => Go.failIf (p8 ≠ ascii "https://") e1))) f s =
    if pay.acceptableURL u then f () s
    else ⟨.error (if 256 < u.length then e2 else e1), s, []⟩ := by
  have p7 : u.take 7 = ascii "http://" ↔ ascii "http://" <+: u :=
    take_eq_iff_isPrefix (ascii "http://") u
  have p8 : u.take 8 = ascii "https://" ↔ ascii "https://" <+: u :=
    take_eq_iff_isPrefix (ascii "https://") u
  simp only [Go.seq_when, Go.seq_assoc, Go.seq_failIf, pay.acceptableURL, ← p7, ← p8]
  by_cases h0 : u = []
  · simp [h0]
  by_cases h1 : u.length < 8
  · have h2 : ¬ 256 < u.length := by omega
    have h3 : ¬ 8 ≤ u.length := by omega
    simp [h0, h1, h2, h3]
  by_cases h2 : u.length > 256
  · have h3 : ¬ u.length ≤ 256 := by omega
    simp [h0, h1, h2, h3]
  have s7 : slice u 0 7 = .ok (u.take 7) := slice_zero u 7 (by omega)
  have s8 : slice u 0 8 = .ok (u.take 8) := slice_zero u 8 (by omega)
  have h2n : ¬ 256 < u.length := h2
  have h3 : 8 ≤ u.length ∧ u.length ≤ 256 := by omega
  simp only [h0, h1, h2, h2n, s7, s8, h3, Go.seq_lift_ok, Go.seq_when, Go.seq_failIf, ne_eq,
    not_false_eq_true, if_true, if_false, true_and, false_or]
  by_cases h7 : u.take 7 = ascii "http://"
  · simp [h7]
  · by_cases h8 : u.take 8 = ascii "https://"
    · simp [h7, h8]
    · simp [h7, h8]

/-- The URL test of `checkParams` as the last statement of the method. -/
theorem urlBlock_apply (u : Str) (e1 e2 : Err) (s : pay.Params) :
    (Go.when (u ≠ [])
      (Go.seq (Go.failIf (u.length < 8) e1) fun _ =>
        Go.seq (Go.failIf (u.length > 256) e2) fun _ =>
          Go.seq (Go.lift (slice u 0 7)) fun p7 =>
            Go.when (p7 ≠ ascii "http://")
              (Go.seq (Go.lift (slice u 0 8)) fun p8 => Go.failIf (p8 ≠ ascii "https://") e1))) s =
    if pay.acceptableURL u then ⟨.ok (), s, []⟩
    else ⟨.error (if 256 < u.length then e2 else e1), s, []⟩ := by
  have h := urlBlock_seq u e1 e2 Go.ret s
  rw [Go.seq_ret_right] at h
  exact h

/-- What `checkParams` accepts. -/
theorem checkParams_ok_iff (lib : Lib) (r : pay.Params) :
    (pay.checkParams lib r).result = .ok () ↔
      r.AppID ≠ [] ∧ (ParseInt r.AppID 64).1 ≠ 0 ∧ (r.Format = [] ∨ r.Format = ascii "JSON") ∧
      pay.acceptableURL r.ReturnURL ∧ r.Charset ≠ [] ∧ r.Charset.length ≤ 10 ∧
      (r.SignType = ascii "RSA" ∨ r.SignType = ascii "RSA2") ∧ lib.timeParse r.Timestamp = true ∧
      (r.Version = ascii "1" ∨ r.Version = ascii "1.0") ∧ pay.acceptableURL r.NotifyURL := by
  unfold pay.checkParams
  simp only [Go.bind_eq, Go.seq_get, Go.seq_failIf, urlBlock_seq, urlBlock_apply]
  have ht : lib.timeParse r.Timestamp = true ↔ ¬ lib.timeParse r.Timestamp = false := by simp
  have hc : r.Charset.length ≤ 10 ↔ ¬ r.Charset.length > 10 := by omega
  rw [ht, hc]
  by_cases hM : r.Method = []
  · simp only [Go.seq_when, hM, if_true, Go.seq_set, Go.seq_get, Go.seq_failIf, urlBlock_apply,
      Outcome.ite_error_ok_iff, Outcome.ite_ok_error_iff, and_true]
    tauto
  · simp only [Go.seq_when, hM, if_false, Go.seq_set, Go.seq_get, Go.seq_failIf, urlBlock_apply,
      Outcome.ite_error_ok_iff, Outcome.ite_ok_error_iff, and_true]
    tauto

/-- C10: with every other field valid (`checkParams` accepts the request with
the URL left empty), `checkParams` accepts a `ReturnURL` exactly when it is
empty or 8 to 256 bytes long and begins with `http://` or `https://`; likewise
for `NotifyURL`. The URL `ftp://x` and every URL of length 257 are rejected. -/
theorem checkParams_url (lib : Lib) (r : pay.Params) (u : Str) :
    ((pay.checkParams lib { r with ReturnURL := [] }).result = .ok () →
      ((pay.checkParams lib { r with ReturnURL := u }).result = .ok () ↔ pay.acceptableURL u)) ∧
    ((pay.checkParams lib { r with NotifyURL := [] }).result = .ok () →
      ((pay.checkParams lib { r with NotifyURL := u }).result = .ok () ↔ pay.acceptableURL u)) ∧
    (pay.checkParams lib { r with ReturnURL := ascii "ftp://x" }).result ≠ .ok () ∧
    (pay.checkParams lib { r with NotifyURL := ascii "ftp://x" }).result ≠ .ok () ∧
    (u.length = 257 → (pay.checkParams lib { r with ReturnURL := u }).result ≠ .ok () ∧
      (pay.checkParams lib { r with NotifyURL := u }).result ≠ .ok ()) := by
  have hftp : ¬ pay.acceptableURL (ascii "ftp://x") := by decide
  have h257 : u.length = 257 → ¬ pay.acceptableURL u := by
    intro hl hu
    rcases hu with h0 | ⟨_, h2, _⟩
    · rw [h0] at hl; simp at hl
    · omega
  refine ⟨?_, ?_, ?_, ?_, ?_⟩
  · intro h
    rw [checkParams_ok_iff] at h ⊢
    obtain ⟨h1, h2, h3, _, h5, h6, h7, h8, h9, h10⟩ := h
    exact ⟨fun hh => hh.2.2.2.1, fun hu => ⟨h1, h2, h3, hu, h5, h6, h7, h8, h9, h10⟩⟩
  · intro h
    rw [checkParams_ok_iff] at h ⊢
    obtain ⟨h1, h2, h3, h4, h5, h6, h7, h8, h9, _⟩ := h
    exact ⟨fun hh => hh.2.2.2.2.2.2.2.2.2, fun hu => ⟨h1, h2, h3, h4, h5, h6, h7, h8, h9, hu⟩⟩
  · rw [ne_eq, checkParams_ok_iff]
    exact fun hh => hftp hh.2.2.2.1
  · rw [ne_eq, checkParams_ok_iff]
    exact fun hh => hftp hh.2.2.2.2.2.2.2.2.2
  · intro hl
    constructor
    · rw [ne_eq, checkParams_ok_iff]
      exact fun hh => h257 hl hh.2.2.2.1
    · rw [ne_eq, checkParams_ok_iff]
      exact fun hh => h257 hl hh.2.2.2.2.2.2.2.2.2

/-- An `https` return URL on the sample request. -/
theorem checkParams_url_witness :
    (pay.checkParams demoLib
      { demoParams with ReturnURL := ascii "https://example.com/return" }).result = .ok () :=
  ((checkParams_url demoLib demoParams (ascii "https://example.com/return")).1
    (by decide)).mpr (by decide)

/-! ## Invariants of the validation methods -/

theorem Go.inv_ret {σ α : Type} (I : σ → Prop) (a : α) : Go.Inv I (Go.ret a : Go σ α) := fun _ h => h
theorem Go.inv_fail {σ α : Type} (I : σ → Prop) (e : Err) : Go.Inv I (Go.fail e : Go σ α) := fun _ h => h
theorem Go.inv_get {σ : Type} (I : σ → Prop) : Go.Inv I (Go.get : Go σ σ) := fun _ h => h
theorem Go.inv_lift {σ α : Type} (I : σ → Prop) (x : Except Err α) : Go.Inv I (Go.lift x : Go σ α) :=
  fun _ h => h
theorem Go.inv_rsa {σ : Type} (I : σ → Prop) (op : RsaOp) : Go.Inv I (Go.rsa op : Go σ Unit) :=
  fun _ h => h
theorem Go.inv_set {σ : Type} (I : σ → Prop) (t : σ) (h : I t) : Go.Inv I (Go.set t) := fun _ _ => h
theorem Go.inv_failIf {σ : Type} (I : σ → Prop) (c : Prop) [Decidable c] (e : Err) :
    Go.Inv I (Go.failIf c e : Go σ Unit) := by
  intro s h; rw [Go.failIf_apply]; split <;> exact h
theorem Go.inv_when {σ : Type} (I : σ → Prop) (c : Prop) [Decidable c] (body : Go σ Unit)
    (hb : Go.Inv I body) : Go.Inv I (Go.when c body) := by
  intro s h; rw [Go.when_apply]; split
  · exact hb s h
  · exact h
theorem Go.inv_seq {σ α β : Type} (I : σ → Prop) (m : Go σ α) (f : α → Go σ β)
    (hm : Go.Inv I m) (hf : ∀ a, Go.Inv I (f a)) : Go.Inv I (Go.seq m f) := by
  intro s h
  cases hr : (m s).result with
  | error e => rw [Go.seq_apply_error m f s e hr]; exact hm s h
  | ok a => rw [Go.seq_apply_ok m f s a hr]; exact hf a _ (hm s h)
theorem Go.inv_seq_get {σ β : Type} (I : σ → Prop) (f : σ → Go σ β)
    (hf : ∀ r, I r → Go.Inv I (f r)) : Go.Inv I (Go.seq Go.get f) := by
  intro s h; rw [Go.seq_get]; exact hf s h s h
theorem Go.inv_biz (I : pay.Params → Prop) : Go.Inv I pay.biz := by
  intro s h; unfold pay.biz; split <;> exact h

/-- The four validation methods change nothing of the receiver but `Method`
and `BizContent`. -/
theorem checks_inv (lib : Lib) (I : pay.Params → Prop)
    (hI : ∀ s m b, I s → I { s with Method := m, BizContent := b }) :
    Go.Inv I (pay.checkParams lib) ∧ Go.Inv I (pay.checkBizContent lib) ∧
    Go.Inv I pay.checkExtendParams ∧ Go.Inv I pay.checkExtendUserInfo := by
  refine ⟨?_, ?_, ?_, ?_⟩
  · unfold pay.checkParams
    simp only [Go.bind_eq]
    with_reducible apply Go.inv_seq_get
    intro r hr
    with_reducible repeat' first
      | exact Go.inv_failIf _ _ _
      | exact Go.inv_lift _ _
      | exact Go.inv_set _ _ (hI _ _ _ hr)
      | apply Go.inv_when
      | (apply Go.inv_seq_get; intro r2 hr2)
      | apply Go.inv_seq
      | intro _
  · unfold pay.checkBizContent
    simp only [Go.bind_eq]
    with_reducible apply Go.inv_seq_get
    intro r hr
    with_reducible apply Go.inv_seq
    · with_reducible apply Go.inv_when
      exact Go.inv_set _ _ (hI _ _ _ hr)
    intro _
    with_reducible apply Go.inv_seq
    · exact Go.inv_biz _
    intro b
    with_reducible repeat' first
      | exact Go.inv_failIf _ _ _
      | exact Go.inv_lift _ _
      | (apply Go.inv_seq_get; intro r2 hr2; exact Go.inv_set _ _ (hI _ _ _ hr2))
      | apply Go.inv_when
      | apply Go.inv_seq
      | intro _
  · unfold pay.checkExtendParams
    simp only [Go.bind_eq]
    with_reducible apply Go.inv_seq
    · exact Go.inv_biz _
    intro b
    cases b.ExtendParams with
    | none => exact Go.inv_ret _ _
    | some e =>
      simp only []
      with_reducible repeat' first
        | exact Go.inv_failIf _ _ _
        | apply Go.inv_when
        | apply Go.inv_seq
        | intro _
  · unfold pay.checkExtendUserInfo
    simp only [Go.bind_eq]
    with_reducible apply Go.inv_seq
    · exact Go.inv_biz _
    intro b
    cases b.ExtUserInfo with
    | none => exact Go.inv_ret _ _
    | some u =>
      simp only []
      with_reducible repeat' first
        | exact Go.inv_failIf _ _ _
        | apply Go.inv_when
        | apply Go.inv_seq
        | intro _

/-! ## SignByCert -/

/-- A sequence that returns a value: its first part returned a value, and the
rest, run on the state the first part left, returned the value and left the
final state. -/
theorem Go.seq_ok {σ α β : Type} (m : Go σ α) (f : α → Go σ β) (s : σ) (b : β)
    (h : (Go.seq m f s).result = .ok b) :
    ∃ a, (m s).result = .ok a ∧ (f a (m s).state).result = .ok b ∧
      (Go.seq m f s).state = (f a (m s).state).state := by
  cases hm : (m s).result with
  | error e => rw [Go.seq_apply_error m f s e hm] at h; simp at h
  | ok a =>
    rw [Go.seq_apply_ok m f s a hm] at h ⊢
    exact ⟨a, rfl, h, rfl⟩

theorem Go.pair_state {σ α : Type} (zero : α) (m : Go σ α) (s : σ) :
    (Go.pair zero m s).state = (m s).state := by
  unfold Go.pair
  split <;> rfl

/-- The canonical string `buildParamsStr` stores ends with the version field. -/
theorem buildParamsStr_ends (lib : Lib) (s : pay.Params)
    (h : (pay.buildParamsStr lib s).result = .ok ()) :
    ∃ pre, (pay.buildParamsStr lib s).state.paramsStr = pre ++ (ascii "&version=" ++ s.Version) := by
  cases hj : lib.jsonMarshal s.BizContent with
  | error e =>
    unfold pay.buildParamsStr at h
    simp [hj] at h
  | ok j =>
    unfold pay.buildParamsStr
    simp only [Go.bind_eq, Go.seq_get, Go.seq_set, hj, Go.set_apply]
    have key : ∀ X A : Str, ∃ pre, X ++ (A ++ ascii "&version=" ++ s.Version)
        = pre ++ (ascii "&version=" ++ s.Version) :=
      fun X A => ⟨X ++ A, by simp only [List.append_assoc]⟩
    exact key _ _

theorem getLast?_version (pre v : Str) (hv : v = ascii "1" ∨ v = ascii "1.0") :
    (pre ++ (ascii "&version=" ++ v)).getLast? ≠ some 38 := by
  have h1 : (ascii "&version=" ++ ascii "1").getLast? = some 49 := by decide
  have h2 : (ascii "&version=" ++ ascii "1.0").getLast? = some 48 := by decide
  rcases hv with hv | hv <;> subst hv
  · rw [List.getLast?_append, h1]; simp
  · rw [List.getLast?_append, h2]; simp

/-- After a successful `SignByCert` the canonical string does not end with `&`. -/
theorem SignByCert_no_trailing_amp (lib : Lib) (r : pay.Params)
    (h : (pay.SignByCert lib r).result = .ok ()) :
    (pay.GetParamsStr (pay.SignByCert lib r).state).getLast? ≠ some 38 := by
  have hI : ∀ (s : pay.Params) (m : Str) (b : Option pay.BizContent),
      s.Version = r.Version → ({ s with Method := m, BizContent := b } : pay.Params).Version = r.Version :=
    fun _ _ _ hs => hs
  obtain ⟨i1, i2, i3, i4⟩ := checks_inv lib (fun s => s.Version = r.Version) hI
  unfold pay.SignByCert at h ⊢
  simp only [Go.bind_eq] at h ⊢
  obtain ⟨_, h1, h, e1⟩ := Go.seq_ok _ _ _ _ h
  rw [e1]; clear e1
  have v1 := i1 r rfl
  have hver := ((checkParams_ok_iff lib r).mp h1).2.2.2.2.2.2.2.2.1
  generalize (pay.checkParams lib r).state = s1 at h v1 ⊢
  obtain ⟨_, _, h, e2⟩ := Go.seq_ok _ _ _ _ h
  rw [e2]; clear e2
  have v2 := i2 s1 v1
  generalize (pay.checkBizContent lib s1).state = s2 at h v2 ⊢
  obtain ⟨_, _, h, e3⟩ := Go.seq_ok _ _ _ _ h
  rw [e3]; clear e3
  have v3 := i3 s2 v2
  generalize (pay.checkExtendParams s2).state = s3 at h v3 ⊢
  obtain ⟨_, _, h, e4⟩ := Go.seq_ok _ _ _ _ h
  rw [e4]; clear e4
  have v4 := i4 s3 v3
  generalize (pay.checkExtendUserInfo s3).state = s4 at h v4 ⊢
  simp only [Go.seq_get, Go.seq_failIf] at h ⊢
  by_cases c1 : s4.AppCertSN = []
  · simp [c1] at h
  by_cases c2 : s4.AlipayRootCertSN = []
  · simp [c1, c2] at h
  simp only [c1, c2, if_false] at h ⊢
  obtain ⟨_, hb, h, e5⟩ := Go.seq_ok _ _ _ _ h
  rw [e5]; clear e5
  obtain ⟨pre, hpre⟩ := buildParamsStr_ends lib s4 hb
  generalize (pay.buildParamsStr lib s4).state = s5 at h hpre ⊢
  obtain ⟨made, hm, h, e6⟩ := Go.seq_ok _ _ _ _ h
  rw [e6]; clear e6
  rw [Go.pair_state, makeSign_apply] at h ⊢
  simp only [Go.seq_get, Go.seq_set] at h ⊢
  unfold pay.GetParamsStr
  have hfin : s5.paramsStr.getLast? ≠ some 38 := by
    rw [hpre, v4]
    exact getLast?_version pre r.Version hver
  cases made.2 with
  | none => exact hfin
  | some err => exact hfin

/-- C9: neither canonical string ends with the separator: after a successful
`SignByCert` the request canonical string does not end with `&`, and for every
form the string `veritySign` reconstructs (which always exists) does not end
with `&`. -/
theorem canonical_no_trailing_amp (lib : Lib) (r : pay.Params) (v : Values) :
    ((pay.SignByCert lib r).result = .ok () →
      (pay.GetParamsStr (pay.SignByCert lib r).state).getLast? ≠ some 38) ∧
    (∃ data, notify.veritySignData ((v.Del (ascii "sign")).Del (ascii "sign_type")) = .ok data ∧
      data.getLast? ≠ some 38) :=
  ⟨SignByCert_no_trailing_amp lib r, veritySignData_no_trailing_amp _⟩

/-- The sample request is signed and its canonical string ends with `0`. -/
theorem canonical_no_trailing_amp_witness :
    (pay.GetParamsStr (pay.SignByCert demoLib demoParams).state).getLast? ≠ some 38 :=
  (canonical_no_trailing_amp demoLib demoParams []).1 (by decide)

/-! ## Field checks that miss their documented meaning -/

/-- C11: with every other field valid, `checkParams` accepts the AppID `-5`,
`+5` and `99999999999999999999x`, none of them a string of digits, and rejects
the all-digit AppID `0`: it accepts an AppID exactly when it is not empty and
the value `strconv.ParseInt` returns for it, error ignored, is not zero. -/
theorem checkParams_AppID_not_digits (lib : Lib) (r : pay.Params) (a : Str)
    (h : (pay.checkParams lib r).result = .ok ()) :
    (pay.checkParams lib { r with AppID := ascii "-5" }).result = .ok () ∧
    (pay.checkParams lib { r with AppID := ascii "+5" }).result = .ok () ∧
    (pay.checkParams lib { r with AppID := ascii "99999999999999999999x" }).result = .ok () ∧
    (pay.checkParams lib { r with AppID := ascii "0" }).result ≠ .ok () ∧
    ((pay.checkParams lib { r with AppID := a }).result = .ok () ↔
      a ≠ [] ∧ (ParseInt a 64).1 ≠ 0) := by
  have a1 : ascii "-5" ≠ [] ∧ (ParseInt (ascii "-5") 64).1 ≠ 0 := by decide
  have a2 : ascii "+5" ≠ [] ∧ (ParseInt (ascii "+5") 64).1 ≠ 0 := by decide
  have a3 : ascii "99999999999999999999x" ≠ [] ∧
      (ParseInt (ascii "99999999999999999999x") 64).1 ≠ 0 := by decide
  have a4 : ¬ (ParseInt (ascii "0") 64).1 ≠ 0 := by decide
  rw [checkParams_ok_iff] at h
  obtain ⟨_, _, h3, h4, h5, h6, h7, h8, h9, h10⟩ := h
  refine ⟨?_, ?_, ?_, ?_, ?_⟩
  · rw [checkParams_ok_iff]
    exact ⟨a1.1, a1.2, h3, h4, h5, h6, h7, h8, h9, h10⟩
  · rw [checkParams_ok_iff]
    exact ⟨a2.1, a2.2, h3, h4, h5, h6, h7, h8, h9, h10⟩
  · rw [checkParams_ok_iff]
    exact ⟨a3.1, a3.2, h3, h4, h5, h6, h7, h8, h9, h10⟩
  · rw [ne_eq, checkParams_ok_iff]
    exact fun hh => a4 hh.2.1
  · rw [checkParams_ok_iff]
    exact ⟨fun hh => ⟨hh.1, hh.2.1⟩, fun hh => ⟨hh.1, hh.2, h3, h4, h5, h6, h7, h8, h9, h10⟩⟩

/-- The sample request with the AppID `-5` passes `checkParams`. -/
theorem checkParams_AppID_not_digits_witness :
    (pay.checkParams demoLib { demoParams with AppID := ascii "-5" }).result = .ok () :=
  (checkParams_AppID_not_digits demoLib demoParams [] (by decide)).1

/-- The outcome of `checkDuration` on a text that ends in one of the four unit
letters: true exactly when `strconv.ParseUint` returns 0 for the text before
the unit. -/
theorem checkDuration_unit (d : Str) (u : Byte)
    (hu : u = 109 ∨ u = 104 ∨ u = 100 ∨ u = 99) :
    pay.checkDuration (d ++ [u]) = .ok (decide ((ParseUint d 32).1 = 0)) := by
  have hlen : (((d ++ [u]).length : Nat) : Int) - 1 = (d.length : Int) := by
    simp
  have s1 : slice (d ++ [u]) (d.length : Int) ((d ++ [u]).length : Nat) = .ok [u] := by
    unfold slice
    simp
  have s2 : slice (d ++ [u]) 0 (d.length : Int) = .ok d := by
    rw [slice_zero _ _ (by simp)]
    simp
  have hunit : ¬ ([u] ≠ ascii "d" ∧ [u] ≠ ascii "m" ∧ [u] ≠ ascii "h" ∧ [u] ≠ ascii "c") := by
    have e1 : ascii "d" = [100] := by decide
    have e2 : ascii "m" = [109] := by decide
    have e3 : ascii "h" = [104] := by decide
    have e4 : ascii "c" = [99] := by decide
    rw [e1, e2, e3, e4]
    rcases hu with h | h | h | h <;> subst h <;> simp
  unfold pay.checkDuration
  rw [hlen, s1]
  simp only [hunit, if_false, s2]

/-- C19: on a text that ends in one of the units `m`, `h`, `d`, `c`,
`checkDuration` returns true exactly when `strconv.ParseUint` returns 0 for the
text before the unit (zero, not a number, or missing), and false for every
positive number. It returns false for the documented values `1m`, `90m`, `15d`
and `1c` and true for `0m`, `xm` and `m`, so `checkBizContent` rejects the
sample payload with the TimeoutExpress `90m` and accepts it with `xm`. -/
theorem checkDuration_inverted (d : Str) (u : Byte)
    (hu : u = 109 ∨ u = 104 ∨ u = 100 ∨ u = 99) :
    pay.checkDuration (d ++ [u]) = .ok (decide ((ParseUint d 32).1 = 0)) ∧
    pay.checkDuration (ascii "1m") = .ok false ∧
    pay.checkDuration (ascii "90m") = .ok false ∧
    pay.checkDuration (ascii "15d") = .ok false ∧
    pay.checkDuration (ascii "1c") = .ok false ∧
    pay.checkDuration (ascii "0m") = .ok true ∧
    pay.checkDuration (ascii "xm") = .ok true ∧
    pay.checkDuration (ascii "m") = .ok true ∧
    (pay.checkBizContent demoLib
      { demoParams with BizContent := some { demoBiz with TimeoutExpress := ascii "90m" } }).result
      = .error (.msg "BizContent.TimeoutExpress参数值值的格式不正确") ∧
    (pay.checkBizContent demoLib
      { demoParams with BizContent := some { demoBiz with TimeoutExpress := ascii "xm" } }).result
      = .ok () :=
  ⟨checkDuration_unit d u hu, by decide⟩

/-- The value `90m` of the field comment: `checkDuration` returns false. -/
theorem checkDuration_inverted_witness : pay.checkDuration (ascii "90m") = .ok false :=
  (checkDuration_inverted (ascii "90") 109 (Or.inl rfl)).1

/-- C20: when NeedCheckInfo is `T`, the other ExtUserInfo fields are valid and
MinAge is not empty, `checkExtendUserInfo` accepts exactly when
`strconv.ParseUint(MinAge, 10, 32)` returns no error and a value other than 0;
for MinAge `0` it returns the error whose text asks for an integer greater than
or equal to 0. -/
theorem checkExtendUserInfo_MinAge (r : pay.Params) (b : pay.BizContent) (u : pay.ExtUserInfo)
    (hb : r.BizContent = some b) (hu : b.ExtUserInfo = some u)
    (hT : u.NeedCheckInfo = ascii "T")
    (hName : u.Name.length ≤ 16) (hType : u.CertType.length ≤ 32) (hNo : u.CertNo.length ≤ 64)
    (hFix : u.FixBuyer = [] ∨ u.FixBuyer = ascii "T" ∨ u.FixBuyer = ascii "F")
    (hAge : u.MinAge ≠ []) :
    ((pay.checkExtendUserInfo r).result = .ok () ↔
      (ParseUint u.MinAge 32).2 = none ∧ (ParseUint u.MinAge 32).1 ≠ 0) ∧
    (u.MinAge = ascii "0" → (pay.checkExtendUserInfo r).result =
      .error (.msg "BizContent.ExtendUserInfo.MinAge参数值必须是大于或等于0的整数")) := by
  have hT1 : ¬ (ascii "T" ≠ ([] : Str) ∧ ascii "T" ≠ ascii "T" ∧ ascii "T" ≠ ascii "F") := by decide
  have hn1 : ¬ u.Name.length > 16 := by omega
  have hn2 : ¬ u.CertType.length > 32 := by omega
  have hn3 : ¬ u.CertNo.length > 64 := by omega
  have hfix : ¬ (u.FixBuyer ≠ [] ∧ u.FixBuyer ≠ ascii "T" ∧ u.FixBuyer ≠ ascii "F") := by tauto
  have key : pay.checkExtendUserInfo r =
      ⟨(if (ParseUint u.MinAge 32).2 ≠ none then
          .error (.msg "BizContent.ExtendUserInfo.MinAge参数值必须是大于或等于0的整数")
        else if (ParseUint u.MinAge 32).1 = 0 then
          .error (.msg "BizContent.ExtendUserInfo.MinAge参数值必须是大于或等于0的整数")
        else .ok ()), r, []⟩ := by
    have e0 : pay.biz r = ⟨.ok b, r, []⟩ := by unfold pay.biz; rw [hb]; rfl
    unfold pay.checkExtendUserInfo
    simp only [Go.bind_eq]
    rw [Go.seq_apply_ok _ _ _ b (by rw [e0]), e0]
    simp only [hu, hT, Go.seq_failIf, Go.seq_when, Go.failIf_apply, Go.when_apply, hT1, hn1, hn2,
      hn3, hfix, hAge, if_false, ne_eq, not_false_eq_true, and_self, and_true, if_true,
      List.nil_append, ite_self, Go.seq_assoc]
    by_cases c1 : (ParseUint u.MinAge 32).2 = none
    · by_cases c2 : (ParseUint u.MinAge 32).1 = 0
      · simp [c1, c2]
      · by_cases c3 : u.FixBuyer = []
        · simp [c1, c2, c3]
        · have c4 : ¬ (¬ u.FixBuyer = ascii "T" ∧ ¬ u.FixBuyer = ascii "F") := by tauto
          simp [c1, c2, c3, c4]
    · simp [c1]
  rw [key]
  constructor
  · by_cases c1 : (ParseUint u.MinAge 32).2 = none
    · by_cases c2 : (ParseUint u.MinAge 32).1 = 0 <;> simp [c1, c2]
    · simp [c1]
  · intro h0
    have z : (ParseUint (ascii "0") 32).2 = none ∧ (ParseUint (ascii "0") 32).1 = 0 := by decide
    simp [h0, z.1, z.2]

/-- A buyer record with NeedCheckInfo `T` and MinAge `0` is rejected. -/
theorem checkExtendUserInfo_MinAge_witness :
    (pay.checkExtendUserInfo { demoParams with BizContent := some { demoBiz with
      ExtUserInfo := some ⟨[], [], ascii "0", [], [], ascii "T", []⟩ } }).result =
      .error (.msg "BizContent.ExtendUserInfo.MinAge参数值必须是大于或等于0的整数") :=
  (checkExtendUserInfo_MinAge _ _ ⟨[], [], ascii "0", [], [], ascii "T", []⟩ rfl rfl rfl
    (by decide) (by decide) (by decide) (by decide) (by decide)).2 rfl

/-! ## The order of the checks -/

/-- One failing branch in front of a chain of checks. -/
theorem firstError_step {σ : Type} (c : Prop) [Decidable c] (e : Err) (s : σ) (x : Outcome σ Unit)
    (rest : List (Bool × Err))
    (h : x.result = match firstError rest with
      | none => .ok ()
      | some e => .error e) :
    (if c then (⟨.error e, s, []⟩ : Outcome σ Unit) else x).result =
      match firstError ((decide c, e) :: rest) with
      | none => .ok ()
      | some e => .error e := by
  by_cases hc : c <;> simp [firstError, hc, h]

/-- One check written with its passing branch first. -/
theorem firstError_step_neg {σ : Type} (c : Prop) [Decidable c] (e : Err) (s : σ)
    (x : Outcome σ Unit) (rest : List (Bool × Err))
    (h : x.result = match firstError rest with
      | none => .ok ()
      | some e => .error e) :
    (if c then x else (⟨.error e, s, []⟩ : Outcome σ Unit)).result =
      match firstError ((decide (¬ c), e) :: rest) with
      | none => .ok ()
      | some e => .error e := by
  by_cases hc : c <;> simp [firstError, hc, h]

/-- The closed form of the result of `checkParams`: the error of the first
failing check in the order of `paramChecks`. -/
theorem checkParams_result (lib : Lib) (r : pay.Params) :
    (pay.checkParams lib r).result =
      match firstError (pay.paramChecks lib r) with
      | none => .ok ()
      | some e => .error e := by
  unfold pay.checkParams pay.paramChecks pay.urlError
  simp only [Go.bind_eq, Go.seq_get, Go.seq_failIf, urlBlock_seq, urlBlock_apply]
  apply firstError_step
  apply firstError_step
  apply firstError_step
  apply firstError_step_neg
  by_cases hM : r.Method = [] <;>
  · simp only [Go.seq_when, hM, if_true, if_false, Go.seq_set, Go.seq_get, Go.seq_failIf,
      urlBlock_apply]
    apply firstError_step
    apply firstError_step
    apply firstError_step
    apply firstError_step
    apply firstError_step
    apply firstError_step_neg
    rfl

theorem Go.quiet_ret {σ α : Type} (a : α) : Go.Quiet (Go.ret a : Go σ α) := fun _ => rfl
theorem Go.quiet_fail {σ α : Type} (e : Err) : Go.Quiet (Go.fail e : Go σ α) := fun _ => rfl
theorem Go.quiet_get {σ : Type} : Go.Quiet (Go.get : Go σ σ) := fun _ => rfl
theorem Go.quiet_set {σ : Type} (t : σ) : Go.Quiet (Go.set t) := fun _ => rfl
theorem Go.quiet_lift {σ α : Type} (x : Except Err α) : Go.Quiet (Go.lift x : Go σ α) := fun _ => rfl
theorem Go.quiet_failIf {σ : Type} (c : Prop) [Decidable c] (e : Err) :
    Go.Quiet (Go.failIf c e : Go σ Unit) := by
  intro s; rw [Go.failIf_apply]; split <;> rfl
theorem Go.quiet_when {σ : Type} (c : Prop) [Decidable c] (body : Go σ Unit)
    (hb : Go.Quiet body) : Go.Quiet (Go.when c body) := by
  intro s; rw [Go.when_apply]; split
  · exact hb s
  · rfl
theorem Go.quiet_seq {σ α β : Type} (m : Go σ α) (f : α → Go σ β)
    (hm : Go.Quiet m) (hf : ∀ a, Go.Quiet (f a)) : Go.Quiet (Go.seq m f) := by
  intro s
  cases hr : (m s).result with
  | error e => rw [Go.seq_apply_error m f s e hr]; exact hm s
  | ok a => rw [Go.seq_apply_ok m f s a hr]; simp [hm s, hf a _]
theorem Go.quiet_biz : Go.Quiet pay.biz := by
  intro s; unfold pay.biz; split <;> rfl

/-- The four validation methods perform no RSA operation. -/
theorem checks_quiet (lib : Lib) :
    Go.Quiet (pay.checkParams lib) ∧ Go.Quiet (pay.checkBizContent lib) ∧
    Go.Quiet pay.checkExtendParams ∧ Go.Quiet pay.checkExtendUserInfo := by
  refine ⟨?_, ?_, ?_, ?_⟩
  · unfold pay.checkParams
    simp only [Go.bind_eq]
    with_reducible repeat' first
      | exact Go.quiet_failIf _ _
      | exact Go.quiet_lift _
      | exact Go.quiet_set _
      | exact Go.quiet_get
      | apply Go.quiet_when
      | apply Go.quiet_seq
      | intro _
  · unfold pay.checkBizContent
    simp only [Go.bind_eq]
    with_reducible repeat' first
      | exact Go.quiet_failIf _ _
      | exact Go.quiet_lift _
      | exact Go.quiet_set _
      | exact Go.quiet_get
      | exact Go.quiet_biz
      | apply Go.quiet_when
      | apply Go.quiet_seq
      | intro _
  · unfold pay.checkExtendParams
    simp only [Go.bind_eq]
    with_reducible apply Go.quiet_seq
    · exact Go.quiet_biz
    intro b
    cases b.ExtendParams with
    | none => exact Go.quiet_ret _
    | some e =>
      simp only []
      with_reducible repeat' first
        | exact Go.quiet_failIf _ _
        | apply Go.quiet_when
        | apply Go.quiet_seq
        | intro _
  · unfold pay.checkExtendUserInfo
    simp only [Go.bind_eq]
    with_reducible apply Go.quiet_seq
    · exact Go.quiet_biz
    intro b
    cases b.ExtUserInfo with
    | none => exact Go.quiet_ret _
    | some u =>
      simp only []
      with_reducible repeat' first
        | exact Go.quiet_failIf _ _
        | apply Go.quiet_when
        | apply Go.quiet_seq
        | intro _

/-- What a failing validation step of `SignByCert` leaves: the error of the
first failing step, no RSA operation, and `paramsStr`, `urlValues` and `sign`
as they were. -/
theorem SignByCert_validation (lib : Lib) (r : pay.Params) (e : Err)
    (h : firstSome (pay.stepErrors lib r) = some e) :
    (pay.SignByCert lib r).result = .error e ∧
    (pay.SignByCert lib r).state.paramsStr = r.paramsStr ∧
    (pay.SignByCert lib r).state.urlValues = r.urlValues ∧
    (pay.SignByCert lib r).state.sign = r.sign ∧
    (pay.SignByCert lib r).rsaOps = [] := by
  have hI : ∀ (s : pay.Params) (m : Str) (b : Option pay.BizContent),
      (s.paramsStr = r.paramsStr ∧ s.urlValues = r.urlValues ∧ s.sign = r.sign ∧
        s.AppCertSN = r.AppCertSN ∧ s.AlipayRootCertSN = r.AlipayRootCertSN) →
      (({ s with Method := m, BizContent := b } : pay.Params).paramsStr = r.paramsStr ∧
        ({ s with Method := m, BizContent := b } : pay.Params).urlValues = r.urlValues ∧
        ({ s with Method := m, BizContent := b } : pay.Params).sign = r.sign ∧
        ({ s with Method := m, BizContent := b } : pay.Params).AppCertSN = r.AppCertSN ∧
        ({ s with Method := m, BizContent := b } : pay.Params).AlipayRootCertSN
          = r.AlipayRootCertSN) :=
    fun _ _ _ hs => hs
  obtain ⟨i1, i2, i3, i4⟩ := checks_inv lib _ hI
  obtain ⟨q1, q2, q3, q4⟩ := checks_quiet lib
  have v1 := i1 r ⟨rfl, rfl, rfl, rfl, rfl⟩
  have w1 := q1 r
  unfold pay.stepErrors at h
  unfold pay.SignByCert
  simp only [Go.bind_eq]
  cases h1 : (pay.checkParams lib r).result with
  | error e1 =>
    rw [Go.seq_apply_error _ _ _ e1 h1]
    simp only [h1, errorOf, firstSome, Option.some.injEq] at h
    subst h
    exact ⟨rfl, v1.1, v1.2.1, v1.2.2.1, w1⟩
  | ok u1 =>
    rw [Go.seq_apply_ok _ _ _ u1 h1]
    simp only [h1, errorOf, firstSome] at h
    simp only [w1, List.nil_append]
    generalize (pay.checkParams lib r).state = s1 at h v1 ⊢
    have v2 := i2 s1 v1
    have w2 := q2 s1
    cases h2 : (pay.checkBizContent lib s1).result with
    | error e2 =>
      rw [Go.seq_apply_error _ _ _ e2 h2]
      simp only [h2, errorOf, firstSome, Option.some.injEq] at h
      subst h
      exact ⟨rfl, v2.1, v2.2.1, v2.2.2.1, w2⟩
    | ok u2 =>
      rw [Go.seq_apply_ok _ _ _ u2 h2]
      simp only [h2, errorOf, firstSome] at h
      simp only [w2, List.nil_append]
      generalize (pay.checkBizContent lib s1).state = s2 at h v2 ⊢
      have v3 := i3 s2 v2
      have w3 := q3 s2
      cases h3 : (pay.checkExtendParams s2).result with
      | error e3 =>
        rw [Go.seq_apply_error _ _ _ e3 h3]
        simp only [h3, errorOf, firstSome, Option.some.injEq] at h
        subst h
        exact ⟨rfl, v3.1, v3.2.1, v3.2.2.1, w3⟩
      | ok u3 =>
        rw [Go.seq_apply_ok _ _ _ u3 h3]
        simp only [h3, errorOf, firstSome] at h
        simp only [w3, List.nil_append]
        generalize (pay.checkExtendParams s2).state = s3 at h v3 ⊢
        have v4 := i4 s3 v3
        have w4 := q4 s3
        cases h4 : (pay.checkExtendUserInfo s3).result with
        | error e4 =>
          rw [Go.seq_apply_error _ _ _ e4 h4]
          simp only [h4, errorOf, firstSome, Option.some.injEq] at h
          subst h
          exact ⟨rfl, v4.1, v4.2.1, v4.2.2.1, w4⟩
        | ok u4 =>
          rw [Go.seq_apply_ok _ _ _ u4 h4]
          simp only [h4, errorOf, firstSome] at h
          simp only [w4, List.nil_append]
          generalize (pay.checkExtendUserInfo s3).state = s4 at h v4 ⊢
          obtain ⟨v41, v42, v43, v44, v45⟩ := v4
          simp only [Go.seq_get, Go.seq_failIf, v44, v45]
          by_cases c1 : r.AppCertSN = []
          · simp only [c1, if_true, firstSome, Option.some.injEq] at h
            subst h
            simp only [c1, if_true]
            exact ⟨trivial, v41, v42, v43, trivial⟩
          · by_cases c2 : r.AlipayRootCertSN = []
            · simp only [c1, c2, if_true, if_false, firstSome, Option.some.injEq] at h
              subst h
              simp only [c1, c2, if_true, if_false]
              exact ⟨trivial, v41, v42, v43, trivial⟩
            · simp [c1, c2, firstSome] at h

/-- C12: `checkParams` returns the error of the first failing check in the order
AppID, Format, ReturnURL, Charset, SignType, Timestamp, Version, NotifyURL, and
`SignByCert` returns the error of the first failing step in the order
`checkParams`, `checkBizContent`, `checkExtendParams`, `checkExtendUserInfo`,
AppCertSN present, AlipayRootCertSN present; when a step fails, `paramsStr`,
`urlValues` and `sign` are as before the call and no RSA operation is performed. -/
theorem SignByCert_fail_fast (lib : Lib) (r : pay.Params) :
    ((pay.checkParams lib r).result =
      match firstError (pay.paramChecks lib r) with
      | none => .ok ()
      | some e => .error e) ∧
    (∀ e, firstSome (pay.stepErrors lib r) = some e →
      (pay.SignByCert lib r).result = .error e ∧
      (pay.SignByCert lib r).state.paramsStr = r.paramsStr ∧
      (pay.SignByCert lib r).state.urlValues = r.urlValues ∧
      (pay.SignByCert lib r).state.sign = r.sign ∧
      (pay.SignByCert lib r).rsaOps = []) :=
  ⟨checkParams_result lib r, SignByCert_validation lib r⟩

/-- A request with two defects, a Charset of 11 bytes and a missing subject:
`SignByCert` returns the error of the Charset check, the earlier one. -/
theorem SignByCert_fail_fast_witness :
    (pay.SignByCert demoLib { demoParams with
      Charset := ascii "utf-8-utf-8", BizContent := some { demoBiz with Subject := [] } }).result
      = .error (.msg "Charset参数值的长度不能大于10") :=
  ((SignByCert_fail_fast demoLib { demoParams with
      Charset := ascii "utf-8-utf-8", BizContent := some { demoBiz with Subject := [] } }).2
    (.msg "Charset参数值的长度不能大于10") (by decide)).1

/-! ## The root certificate bundle -/

/-- The loop of `LoadAlipayRootCert`, when `parseCert` returns no error on any
block: the fingerprints that are not empty are appended in block order. -/
theorem rootCertLoop_eq (cl : config.CertLib) (blocks : List config.PemBlock) (acc : List Str)
    (h : ∀ b ∈ blocks, errorOf (config.parseCert cl b.Bytes) = none) :
    config.rootCertLoop cl blocks acc = .ok (acc ++ config.blockFingerprints cl blocks) := by
  induction blocks generalizing acc with
  | nil => simp [config.rootCertLoop, config.blockFingerprints]
  | cons b rest ih =>
    have hb := h b (List.mem_cons_self _ _)
    have hrest : ∀ b ∈ rest, errorOf (config.parseCert cl b.Bytes) = none :=
      fun b hb => h b (List.mem_cons_of_mem _ hb)
    cases hsn : config.parseCert cl b.Bytes with
    | error e => rw [hsn] at hb; simp [errorOf] at hb
    | ok sn =>
      have hf : config.blockFingerprints cl (b :: rest) =
          (if sn ≠ [] then [sn] else []) ++ config.blockFingerprints cl rest := by
        unfold config.blockFingerprints
        by_cases c : sn = [] <;> simp [List.filterMap_cons, hsn, c]
      rw [config.rootCertLoop, hsn, hf]
      simp only []
      rw [ih _ hrest]
      by_cases c : sn = [] <;> simp [c]

/-- C13: for a root bundle whose blocks all pass `parseCert` without an error,
`LoadAlipayRootCert` stores the fingerprints that are not empty, in block
order, joined by `_`; when no block yields a fingerprint it returns an error
and leaves the configuration as it was. For a bundle of two blocks of which
only the second yields a fingerprint, the stored value is that fingerprint. -/
theorem LoadAlipayRootCert_fingerprints (cl : config.CertLib) (filePath fileData : Str)
    (blocks : List config.PemBlock) (obj : config.Config)
    (hr : cl.ReadFile filePath = .ok fileData)
    (hp : cl.ParsePEMBlocks fileData = some blocks)
    (hall : ∀ b ∈ blocks, errorOf (config.parseCert cl b.Bytes) = none) :
    (config.blockFingerprints cl blocks ≠ [] →
      (config.Config.LoadAlipayRootCert cl filePath obj).result = .ok () ∧
      (config.Config.LoadAlipayRootCert cl filePath obj).state =
        { obj with alipayRootCertSN := Join (config.blockFingerprints cl blocks) (ascii "_") }) ∧
    (config.blockFingerprints cl blocks = [] →
      (config.Config.LoadAlipayRootCert cl filePath obj).result
        = .error (.msg "支付宝根证书的SN计算失败") ∧
      (config.Config.LoadAlipayRootCert cl filePath obj).state = obj) ∧
    (∀ b1 b2 sn, blocks = [b1, b2] → config.parseCert cl b1.Bytes = .ok [] →
      config.parseCert cl b2.Bytes = .ok sn → sn ≠ [] →
      (config.Config.LoadAlipayRootCert cl filePath obj).result = .ok () ∧
      (config.Config.LoadAlipayRootCert cl filePath obj).state.GetAlipayRootCertSN = sn) := by
  have key : config.Config.LoadAlipayRootCert cl filePath obj =
      if config.blockFingerprints cl blocks = [] then
        ⟨.error (.msg "支付宝根证书的SN计算失败"), obj, []⟩
      else ⟨.ok (),
        ({ obj with alipayRootCertSN := Join (config.blockFingerprints cl blocks) (ascii "_") } :
          config.Config), []⟩ := by
    unfold config.Config.LoadAlipayRootCert
    simp only [Go.bind_eq, hr, Go.seq_lift_ok, hp, rootCertLoop_eq cl blocks [] hall,
      List.nil_append, Go.seq_failIf, Go.seq_get, Go.set_apply, List.length_eq_zero]
  refine ⟨?_, ?_, ?_⟩
  · intro hne
    rw [key, if_neg hne]
    exact ⟨rfl, rfl⟩
  · intro he
    rw [key, if_pos he]
    exact ⟨rfl, rfl⟩
  · intro b1 b2 sn hb h1 h2 hsn
    have hf : config.blockFingerprints cl blocks = [sn] := by
      subst hb
      unfold config.blockFingerprints
      simp [List.filterMap_cons, h1, h2, hsn]
    rw [key, hf]
    simp [Join, config.Config.GetAlipayRootCertSN]

/-- The bundle of the sample certificate library: the first block has an
unsupported curve, the second yields the fingerprint that is stored. -/
theorem LoadAlipayRootCert_fingerprints_witness :
    (config.Config.LoadAlipayRootCert demoCertLib (ascii "root.crt") config.Config.zero).result
      = .ok () ∧
    (config.Config.LoadAlipayRootCert demoCertLib (ascii "root.crt")
      config.Config.zero).state.GetAlipayRootCertSN = ascii "434E3D726F6F7431323334" :=
  (LoadAlipayRootCert_fingerprints demoCertLib (ascii "root.crt") (ascii "bundle")
    [⟨ascii "ec"⟩, ⟨ascii "rsa"⟩] config.Config.zero rfl rfl (by decide)).2.2
    ⟨ascii "ec"⟩ ⟨ascii "rsa"⟩ (ascii "434E3D726F6F7431323334") rfl (by decide) (by decide)
    (by decide)

/-! ## The query of a URL -/

set_option maxRecDepth 100000 in
theorem upperhex_plain : ∀ c : Byte,
    shouldEscape (upperhex (c.val / 16)) = false ∧ shouldEscape (upperhex (c.val % 16)) = false := by
  decide

/-- Every byte `QueryEscape` writes is `+`, `%` or a byte that needs no escape. -/
theorem mem_QueryEscape (s : Str) (x : Byte) (hx : x ∈ QueryEscape s) :
    x = 43 ∨ x = 37 ∨ shouldEscape x = false := by
  induction s with
  | nil => simp [QueryEscape] at hx
  | cons c rest ih =>
    unfold QueryEscape at hx
    by_cases h32 : c = 32
    · simp only [h32, if_true, List.mem_cons] at hx
      rcases hx with hx | hx
      · exact Or.inl hx
      · exact ih hx
    · by_cases he : shouldEscape c = true
      · simp only [h32, he, if_false, if_true, List.mem_cons] at hx
        rcases hx with hx | hx | hx | hx
        · exact Or.inr (Or.inl hx)
        · exact Or.inr (Or.inr (hx ▸ (upperhex_plain c).1))
        · exact Or.inr (Or.inr (hx ▸ (upperhex_plain c).2))
        · exact ih hx
      · simp only [h32, he, if_false, Bool.false_eq_true, List.mem_cons] at hx
        rcases hx with rfl | hx
        · exact Or.inr (Or.inr (by simpa using he))
        · exact ih hx

theorem amp_not_mem_QueryEscape (s : Str) : (38 : Byte) ∉ QueryEscape s := by
  intro h
  rcases mem_QueryEscape s 38 h with h | h | h
  · exact absurd h (by decide)
  · exact absurd h (by decide)
  · exact absurd h (by decide)

theorem eq_not_mem_QueryEscape (s : Str) : (61 : Byte) ∉ QueryEscape s := by
  intro h
  rcases mem_QueryEscape s 61 h with h | h | h
  · exact absurd h (by decide)
  · exact absurd h (by decide)
  · exact absurd h (by decide)

theorem cut_append (a b : Str) (sep : Byte) (h : sep ∉ a) : cut (a ++ sep :: b) sep = (a, b) := by
  induction a with
  | nil => simp [cut]
  | cons c rest ih =>
    simp only [List.mem_cons, not_or] at h
    have hc : ¬ c = sep := fun e => h.1 e.symm
    simp [cut, hc, ih h.2]

/-- Decoding the pieces `Encode` writes gives back the fields. -/
theorem decodePieces_map (kvs : List (Str × Str)) :
    decodePieces (kvs.map (fun kv => QueryEscape kv.1 ++ [61] ++ QueryEscape kv.2)) = .ok kvs := by
  induction kvs with
  | nil => rfl
  | cons kv rest ih =>
    have ih2 : decodePieces (rest.map (fun kv => QueryEscape kv.1 ++ 61 :: QueryEscape kv.2))
        = .ok rest := by
      simpa using ih
    simp only [List.map_cons, decodePieces, List.append_assoc, List.singleton_append,
      cut_append _ _ 61 (eq_not_mem_QueryEscape kv.1), QueryUnescape_escape, ih2]

theorem Split_Join_pieces (l : List Str) (sep : Byte) (hne : l ≠ []) (h : ∀ p ∈ l, sep ∉ p) :
    Split (Join l [sep]) sep = l := by
  rw [Split_Join l sep hne]
  induction l with
  | nil => exact absurd rfl hne
  | cons a rest ih =>
    rw [List.flatMap_cons, Split_of_not_mem a sep (h a (List.mem_cons_self _ _))]
    cases rest with
    | nil => simp
    | cons b rest2 =>
      rw [ih (by simp) (fun p hp => h p (List.mem_cons_of_mem _ hp))]
      rfl

theorem Join_ne_nil (a : Str) (l : List Str) (sep : Str) (ha : a ≠ []) : Join (a :: l) sep ≠ [] := by
  cases l with
  | nil => simpa [Join] using ha
  | cons b rest => simp [Join, ha]

/-- The decoded pairs of the text `Encode` writes are the fields of the map,
keys ascending. -/
theorem queryPairs_Encode (m : Values) : queryPairs m.Encode = .ok m.sortedPairs := by
  rw [Encode_eq]
  unfold queryPairs
  cases hs : m.sortedPairs with
  | nil => simp [Join]
  | cons kv rest =>
    rw [← hs]
    have hne : m.sortedPairs.map (fun kv => QueryEscape kv.1 ++ [61] ++ QueryEscape kv.2) ≠ [] := by
      rw [hs]; simp
    have hj : Join (m.sortedPairs.map (fun kv => QueryEscape kv.1 ++ [61] ++ QueryEscape kv.2)) [38]
        ≠ [] := by
      rw [hs, List.map_cons]
      exact Join_ne_nil _ _ _ (by simp)
    rw [if_neg hj, Split_Join_pieces _ 38 hne, decodePieces_map]
    intro p hp
    obtain ⟨kv2, _, rfl⟩ := List.mem_map.mp hp
    simp only [List.mem_append, List.mem_singleton, not_or]
    exact ⟨⟨amp_not_mem_QueryEscape _, by decide⟩, amp_not_mem_QueryEscape _⟩

/-! ## GetURL -/

/-- The map `buildParamsStr` fills holds the fields of the canonical string. -/
theorem buildParamsStr_urlValues (lib : Lib) (r : pay.Params) (j : Str)
    (h : lib.jsonMarshal r.BizContent = .ok j) :
    (pay.buildParamsStr lib r).state =
      { r with urlValues := some (notify.formOfFields (pay.requestFields r j)),
               paramsStr := (pay.buildParamsStr lib r).state.paramsStr } := by
  unfold pay.buildParamsStr
  simp only [Go.bind_eq, Go.seq_get, Go.seq_set, h, Go.set_apply, pay.requestFields,
    notify.formOfFields]
  by_cases hf : r.Format = [] <;> by_cases hn : r.NotifyURL = [] <;>
    by_cases hr : r.ReturnURL = [] <;>
    simp [hf, hn, hr]

theorem requestSegments_eq (r : pay.Params) (j : Str) :
    pay.requestSegments r j = (pay.requestFields r j).map pairText := by
  unfold pay.requestSegments pay.requestFields
  by_cases hf : r.Format = [] <;> by_cases hn : r.NotifyURL = [] <;>
    by_cases hr : r.ReturnURL = [] <;>
    simp [hf, hn, hr, pay.segment, pairText]

theorem requestFields_no_sign (r : pay.Params) (j : Str) :
    ∀ kv ∈ pay.requestFields r j, kv.1 ≠ ascii "sign" := by
  have n1 : ascii "alipay_root_cert_sn" ≠ ascii "sign" := by decide
  have n2 : ascii "app_cert_sn" ≠ ascii "sign" := by decide
  have n3 : ascii "app_id" ≠ ascii "sign" := by decide
  have n4 : ascii "biz_content" ≠ ascii "sign" := by decide
  have n5 : ascii "charset" ≠ ascii "sign" := by decide
  have n6 : ascii "format" ≠ ascii "sign" := by decide
  have n7 : ascii "method" ≠ ascii "sign" := by decide
  have n8 : ascii "notify_url" ≠ ascii "sign" := by decide
  have n9 : ascii "return_url" ≠ ascii "sign" := by decide
  have n10 : ascii "sign_type" ≠ ascii "sign" := by decide
  have n11 : ascii "timestamp" ≠ ascii "sign" := by decide
  have n12 : ascii "version" ≠ ascii "sign" := by decide
  unfold pay.requestFields
  by_cases hf : r.Format = [] <;> by_cases hn : r.NotifyURL = [] <;>
    by_cases hr : r.ReturnURL = [] <;>
    simp [hf, hn, hr, n1, n2, n3, n4, n5, n6, n7, n8, n9, n10, n11, n12]

theorem makeSign_result_congr (lib : Lib) (s t : pay.Params) (h1 : s.paramsStr = t.paramsStr)
    (h2 : s.alipayConfig = t.alipayConfig) :
    (pay.makeSign lib s).result = (pay.makeSign lib t).result := by
  rw [makeSign_apply, makeSign_apply, h1, h2]

/-- The pair a call `v, err = f()` yields is a value without an error exactly
when `f` returned that value. -/
theorem Go.pair_ok {σ α : Type} (zero : α) (m : Go σ α) (s : σ) (made : α × Option Err)
    (h : (Go.pair zero m s).result = .ok made) (hn : made.2 = none) :
    (m s).result = .ok made.1 := by
  unfold Go.pair at h
  cases hm : (m s).result with
  | ok a =>
    simp only [hm, Except.ok.injEq] at h
    rw [← h]
  | error e =>
    cases e with
    | panic p => simp [hm] at h
    | msg t =>
      simp only [hm, Except.ok.injEq] at h
      rw [← h] at hn
      simp at hn
    | lib t =>
      simp only [hm, Except.ok.injEq] at h
      rw [← h] at hn
      simp at hn

/-- The receiver after a successful `SignByCert`: the map and the canonical
string hold the same fields, and `sign` is what `makeSign` returns for them. -/
theorem SignByCert_ok_state (lib : Lib) (r : pay.Params)
    (h : (pay.SignByCert lib r).result = .ok ()) :
    ∃ j, (pay.SignByCert lib r).state.urlValues =
        some (notify.formOfFields (pay.requestFields (pay.SignByCert lib r).state j)) ∧
      (pay.SignByCert lib r).state.paramsStr = pay.requestCanonical (pay.SignByCert lib r).state j ∧
      (pay.makeSign lib (pay.SignByCert lib r).state).result
        = .ok (pay.SignByCert lib r).state.sign := by
  unfold pay.SignByCert at h ⊢
  simp only [Go.bind_eq] at h ⊢
  obtain ⟨_, _, h, e1⟩ := Go.seq_ok _ _ _ _ h
  rw [e1]; clear e1
  generalize (pay.checkParams lib r).state = s1 at h ⊢
  obtain ⟨_, _, h, e2⟩ := Go.seq_ok _ _ _ _ h
  rw [e2]; clear e2
  generalize (pay.checkBizContent lib s1).state = s2 at h ⊢
  obtain ⟨_, _, h, e3⟩ := Go.seq_ok _ _ _ _ h
  rw [e3]; clear e3
  generalize (pay.checkExtendParams s2).state = s3 at h ⊢
  obtain ⟨_, _, h, e4⟩ := Go.seq_ok _ _ _ _ h
  rw [e4]; clear e4
  generalize (pay.checkExtendUserInfo s3).state = s4 at h ⊢
  simp only [Go.seq_get, Go.seq_failIf] at h ⊢
  by_cases c1 : s4.AppCertSN = []
  · simp [c1] at h
  by_cases c2 : s4.AlipayRootCertSN = []
  · simp [c1, c2] at h
  simp only [c1, c2, if_false] at h ⊢
  obtain ⟨_, hb, h, e5⟩ := Go.seq_ok _ _ _ _ h
  rw [e5]; clear e5
  cases hj : lib.jsonMarshal s4.BizContent with
  | error e =>
    unfold pay.buildParamsStr at hb
    simp [hj] at hb
  | ok j =>
    have hs5 := buildParamsStr_urlValues lib s4 j hj
    have hc5 := (buildParamsStr_canonical lib s4 j hj).2
    unfold pay.GetParamsStr at hc5
    rw [hc5] at hs5
    generalize (pay.buildParamsStr lib s4).state = s5 at h hs5 ⊢
    obtain ⟨made, hm, h, e6⟩ := Go.seq_ok _ _ _ _ h
    rw [e6]; clear e6
    rw [Go.pair_state, makeSign_apply] at h ⊢
    simp only [Go.seq_get, Go.seq_set] at h ⊢
    cases hm2 : made.2 with
    | some err => simp [hm2] at h
    | none =>
      have hsig := Go.pair_ok _ _ _ _ hm hm2
      simp only [Go.ret_apply]
      refine ⟨j, ?_, ?_, ?_⟩
      · rw [hs5]; rfl
      · rw [hs5]; rfl
      · rw [← hsig]
        exact makeSign_result_congr lib _ _ rfl rfl

/-- The outcome of `GetURL` on a receiver whose map is not nil. -/
theorem GetURL_apply (s : pay.Params) (uv : Values) (h : s.urlValues = some uv) :
    pay.GetURL s = ⟨.ok (pay.APIURL ++ ascii "?" ++ (uv.Add (ascii "sign") s.sign).Encode),
      { s with urlValues := some (uv.Add (ascii "sign") s.sign) }, []⟩ := by
  unfold pay.GetURL
  simp only [Go.bind_eq, Go.seq_get, h, Go.seq_set, Go.ret_apply]

/-- The number of `sign` fields among the fields of a map to which `sign` was
added `n` times after the fields of a canonical string. -/
theorem countP_sign (r : pay.Params) (j : Str) (l d : List (Str × Str))
    (h : d.Perm (pay.requestFields r j ++ l)) :
    d.countP (fun kv => decide (kv.1 = ascii "sign"))
      = l.countP (fun kv => decide (kv.1 = ascii "sign")) := by
  rw [h.countP_eq, List.countP_append]
  have z : (pay.requestFields r j).countP (fun kv => decide (kv.1 = ascii "sign")) = 0 := by
    rw [List.countP_eq_zero]
    intro kv hkv
    simpa using requestFields_no_sign r j kv hkv
  rw [z, Nat.zero_add]

/-- C15: after a successful `SignByCert`, `GetURL` returns the endpoint
`https://openapi.alipay.com/gateway.do`, then `?`, then a query whose decoded
(name, value) pairs are, up to order, the fields of the canonical string with
the same values and one more field `sign`; the query has exactly one `sign`
field, and its value is what `makeSign` returns for the canonical string. -/
theorem GetURL_query (lib : Lib) (r : pay.Params)
    (h : (pay.SignByCert lib r).result = .ok ()) :
    ∃ j q decoded,
      (pay.GetURL (pay.SignByCert lib r).state).result
        = .ok (ascii "https://openapi.alipay.com/gateway.do" ++ ascii "?" ++ q) ∧
      pay.GetParamsStr (pay.SignByCert lib r).state
        = Join ((pay.requestFields (pay.SignByCert lib r).state j).map pairText) (ascii "&") ∧
      queryPairs q = .ok decoded ∧
      decoded.Perm (pay.requestFields (pay.SignByCert lib r).state j
        ++ [(ascii "sign", (pay.SignByCert lib r).state.sign)]) ∧
      decoded.countP (fun kv => decide (kv.1 = ascii "sign")) = 1 ∧
      (pay.makeSign lib (pay.SignByCert lib r).state).result
        = .ok (pay.SignByCert lib r).state.sign := by
  obtain ⟨j, huv, hps, hsig⟩ := SignByCert_ok_state lib r h
  generalize (pay.SignByCert lib r).state = s at huv hps hsig ⊢
  have hwf : (Values.Add (notify.formOfFields (pay.requestFields s j)) (ascii "sign") s.sign).WF :=
    Values.WF_Add _ _ _ (formOfFields_WF _)
  have hperm : (Values.Add (notify.formOfFields (pay.requestFields s j)) (ascii "sign")
      s.sign).sortedPairs.Perm (pay.requestFields s j ++ [(ascii "sign", s.sign)]) :=
    ((Values.sortedPairs_perm _ hwf).trans (Values.pairs_Add _ _ _)).trans
      ((formOfFields_pairs _).append_right _)
  refine ⟨j, _, _, ?_, ?_, queryPairs_Encode _, hperm, ?_, hsig⟩
  · rw [GetURL_apply s _ huv]
    rfl
  · unfold pay.GetParamsStr
    rw [hps, pay.requestCanonical, requestSegments_eq]
  · rw [countP_sign s j _ _ hperm]
    simp

/-- The URL of the sample request. -/
theorem GetURL_query_witness :
    ∃ j q decoded,
      (pay.GetURL (pay.SignByCert demoLib demoParams).state).result
        = .ok (ascii "https://openapi.alipay.com/gateway.do" ++ ascii "?" ++ q) ∧
      pay.GetParamsStr (pay.SignByCert demoLib demoParams).state
        = Join ((pay.requestFields (pay.SignByCert demoLib demoParams).state j).map pairText)
          (ascii "&") ∧
      queryPairs q = .ok decoded ∧
      decoded.Perm (pay.requestFields (pay.SignByCert demoLib demoParams).state j
        ++ [(ascii "sign", (pay.SignByCert demoLib demoParams).state.sign)]) ∧
      decoded.countP (fun kv => decide (kv.1 = ascii "sign")) = 1 ∧
      (pay.makeSign demoLib (pay.SignByCert demoLib demoParams).state).result
        = .ok (pay.SignByCert demoLib demoParams).state.sign :=
  GetURL_query demoLib demoParams (by decide)

set_option maxRecDepth 100000 in
/-- The URLs two calls of `GetURL` in a row return for the sample request. -/
theorem GetURL_twice_sample :
    (pay.GetURL (pay.SignByCert demoLib demoParams).state).result
      = .ok (ascii ("https://openapi.alipay.com/gateway.do?alipay_root_cert_sn=rootsn"
        ++ "&app_cert_sn=appsn&app_id=2014072300007148&biz_content=%7BTest%7D&charset=utf-8"
        ++ "&method=alipay.trade.wap.pay&sign=0C&sign_type=RSA2"
        ++ "&timestamp=2024-01-01+00%3A00%3A00&version=1.0")) ∧
    (pay.GetURL (pay.GetURL (pay.SignByCert demoLib demoParams).state).state).result
      = .ok (ascii ("https://openapi.alipay.com/gateway.do?alipay_root_cert_sn=rootsn"
        ++ "&app_cert_sn=appsn&app_id=2014072300007148&biz_content=%7BTest%7D&charset=utf-8"
        ++ "&method=alipay.trade.wap.pay&sign=0C&sign=0C&sign_type=RSA2"
        ++ "&timestamp=2024-01-01+00%3A00%3A00&version=1.0")) := by
  decide

/-- C16: after a successful `SignByCert`, two calls of `GetURL` in a row return
different URLs: the query of the second has two `sign` fields. For the sample
request the first URL ends in `sign=0C&sign_type=RSA2&...` and the second in
`sign=0C&sign=0C&sign_type=RSA2&...`. -/
theorem GetURL_second_call (lib : Lib) (r : pay.Params)
    (h : (pay.SignByCert lib r).result = .ok ()) :
    ∃ u1 q2 d2,
      (pay.GetURL (pay.SignByCert lib r).state).result = .ok u1 ∧
      (pay.GetURL (pay.GetURL (pay.SignByCert lib r).state).state).result
        = .ok (pay.APIURL ++ ascii "?" ++ q2) ∧
      u1 ≠ pay.APIURL ++ ascii "?" ++ q2 ∧
      queryPairs q2 = .ok d2 ∧
      d2.countP (fun kv => decide (kv.1 = ascii "sign")) = 2 := by
  obtain ⟨j, huv, hps, hsig⟩ := SignByCert_ok_state lib r h
  generalize (pay.SignByCert lib r).state = s at huv hps hsig ⊢
  have hwf1 : (Values.Add (notify.formOfFields (pay.requestFields s j)) (ascii "sign") s.sign).WF :=
    Values.WF_Add _ _ _ (formOfFields_WF _)
  have hperm1 : (Values.Add (notify.formOfFields (pay.requestFields s j)) (ascii "sign")
      s.sign).pairs.Perm (pay.requestFields s j ++ [(ascii "sign", s.sign)]) :=
    (Values.pairs_Add _ _ _).trans ((formOfFields_pairs _).append_right _)
  have hperm2 : (Values.Add (Values.Add (notify.formOfFields (pay.requestFields s j))
      (ascii "sign") s.sign) (ascii "sign") s.sign).sortedPairs.Perm
      (pay.requestFields s j ++ [(ascii "sign", s.sign), (ascii "sign", s.sign)]) := by
    refine ((Values.sortedPairs_perm _ (Values.WF_Add _ _ _ hwf1)).trans
      (Values.pairs_Add _ _ _)).trans ?_
    have := hperm1.append_right [(ascii "sign", s.sign)]
    simpa [List.append_assoc] using this
  have c1 := countP_sign s j _ _ ((Values.sortedPairs_perm _ hwf1).trans hperm1)
  have c2 := countP_sign s j _ _ hperm2
  simp only [List.countP_cons, List.countP_nil, decide_True, if_true] at c1 c2
  rw [GetURL_apply s _ huv]
  refine ⟨_, _, _, rfl, ?_, ?_, queryPairs_Encode _, c2⟩
  · rw [GetURL_apply _ _ rfl]
  · intro he
    have hq := List.append_cancel_left he
    have hd := congrArg queryPairs hq
    rw [queryPairs_Encode, queryPairs_Encode] at hd
    have hd2 := Except.ok.inj hd
    rw [hd2, c2] at c1
    simp at c1

/-- The two URLs of the sample request differ: the first has one `sign` field,
the second has two. -/
theorem GetURL_second_call_witness :
    (pay.GetURL (pay.SignByCert demoLib demoParams).state).result ≠
      (pay.GetURL (pay.GetURL (pay.SignByCert demoLib demoParams).state).state).result ∧
    (pay.GetURL (pay.GetURL (pay.SignByCert demoLib demoParams).state).state).result
      = .ok (ascii ("https://openapi.alipay.com/gateway.do?alipay_root_cert_sn=rootsn"
        ++ "&app_cert_sn=appsn&app_id=2014072300007148&biz_content=%7BTest%7D&charset=utf-8"
        ++ "&method=alipay.trade.wap.pay&sign=0C&sign=0C&sign_type=RSA2"
        ++ "&timestamp=2024-01-01+00%3A00%3A00&version=1.0")) := by
  obtain ⟨u1, q2, d2, h1, h2, hne, _, _⟩ := GetURL_second_call demoLib demoParams (by decide)
  refine ⟨?_, GetURL_twice_sample.2⟩
  rw [h1, h2]
  exact fun e => hne (Except.ok.inj e)

/-! ## The payload across calls -/

/-- A check that passes in front of a sequence: the condition is false and the
sequence is the rest. -/
theorem Go.seq_failIf_ok {σ β : Type} (c : Prop) [Decidable c] (e : Err) (f : Unit → Go σ β) (s : σ)
    (b : β) (h : (Go.seq (Go.failIf c e) f s).result = .ok b) :
    ¬ c ∧ Go.seq (Go.failIf c e) f s = f () s := by
  rw [Go.seq_failIf] at h ⊢
  by_cases hc : c
  · simp [hc] at h
  · simp [hc]

/-- A statement that leaves the receiver as it is, in front of a sequence that
returns a value. -/
theorem Go.seq_stable_ok {σ β : Type} (m : Go σ Unit) (f : Unit → Go σ β) (s : σ) (b : β)
    (hm : Go.Inv (fun t => t = s) m)
    (h : (Go.seq m f s).result = .ok b) :
    (m s).result = .ok () ∧ (f () s).result = .ok b ∧ (Go.seq m f s).state = (f () s).state := by
  obtain ⟨a, h1, h2, h3⟩ := Go.seq_ok m f s b h
  have hs : (m s).state = s := hm s rfl
  rw [hs] at h2 h3
  exact ⟨h1, h2, h3⟩

/-- The receiver after a successful `checkBizContent`: PassbackParams is
replaced by its escaped form when PromoParams is not empty, and only then. -/
theorem checkBizContent_state (lib : Lib) (r : pay.Params) (b : pay.BizContent)
    (hb : r.BizContent = some b) (h : (pay.checkBizContent lib r).result = .ok ()) :
    (pay.checkBizContent lib r).state =
      if b.PromoParams = [] then r
      else { r with BizContent := some { b with PassbackParams := QueryEscape b.PassbackParams } } := by
  have hn : ¬ r.BizContent = none := by rw [hb]; simp
  have e0 : pay.biz r = ⟨.ok b, r, []⟩ := by unfold pay.biz; rw [hb]; rfl
  unfold pay.checkBizContent at h ⊢
  simp only [Go.bind_eq, Go.seq_get] at h ⊢
  rw [Go.seq_when, if_neg hn, Go.seq_apply_ok _ _ _ b (by rw [e0]), e0] at h ⊢
  simp only [] at h ⊢
  obtain ⟨_, e1⟩ := Go.seq_failIf_ok _ _ _ _ _ h
  rw [e1] at h ⊢; clear e1
  obtain ⟨_, e1⟩ := Go.seq_failIf_ok _ _ _ _ _ h
  rw [e1] at h ⊢; clear e1
  obtain ⟨_, e1⟩ := Go.seq_failIf_ok _ _ _ _ _ h
  rw [e1] at h ⊢; clear e1
  obtain ⟨_, e1⟩ := Go.seq_failIf_ok _ _ _ _ _ h
  rw [e1] at h ⊢; clear e1
  obtain ⟨_, e1⟩ := Go.seq_failIf_ok _ _ _ _ _ h
  rw [e1] at h ⊢; clear e1
  obtain ⟨_, h2, e2⟩ := Go.seq_stable_ok _ _ r ()
    (Go.inv_when _ _ _ (Go.inv_seq _ _ _ (Go.inv_lift _ _) (fun _ => Go.inv_failIf _ _ _))) h
  rw [e2]; clear e2 h
  obtain ⟨_, h, e2⟩ := Go.seq_stable_ok _ _ r () (Go.inv_when _ _ _ (Go.inv_failIf _ _ _)) h2
  rw [e2]; clear e2 h2
  obtain ⟨_, e1⟩ := Go.seq_failIf_ok _ _ _ _ _ h
  rw [e1] at h ⊢; clear e1
  obtain ⟨_, e1⟩ := Go.seq_failIf_ok _ _ _ _ _ h
  rw [e1] at h ⊢; clear e1
  obtain ⟨_, e1⟩ := Go.seq_failIf_ok _ _ _ _ _ h
  rw [e1] at h ⊢; clear e1
  obtain ⟨_, e1⟩ := Go.seq_failIf_ok _ _ _ _ _ h
  rw [e1] at h ⊢; clear e1
  have rest : ∀ t : pay.Params, Go.Inv (fun s => s = t)
      (Go.seq (Go.failIf (b.EnablePayChannels ≠ [] ∧ b.DisablePayChannels ≠ [])
        (.msg "BizContent.EnablePayChannels与BizContent.DisablePayChannels参数互斥，只能使用其中一个"))
        fun _ => Go.seq (Go.when (b.EnablePayChannels ≠ [])
          (Go.failIf (b.EnablePayChannels.length > 128)
            (.msg "BizContent.EnablePayChannels参数值的长度不能大于128")))
        fun _ => Go.seq (Go.when (b.DisablePayChannels ≠ [])
          (Go.failIf (b.DisablePayChannels.length > 128)
            (.msg "BizContent.DisablePayChannels参数值的长度不能大于128")))
        fun _ => Go.when (b.QuitURL ≠ [])
          (Go.failIf (b.QuitURL.length > 400) (.msg "BizContent.QuitURL参数值的长度不能大于400"))) := by
    intro t
    with_reducible repeat' first
      | exact Go.inv_failIf _ _ _
      | apply Go.inv_when
      | apply Go.inv_seq
      | intro _
  by_cases hp : b.PromoParams = []
  · rw [Go.seq_when, if_neg (not_not.mpr hp), if_pos hp]
    exact rest r r rfl
  · rw [Go.seq_when, if_pos hp, Go.seq_assoc] at h ⊢
    obtain ⟨_, e1⟩ := Go.seq_failIf_ok _ _ _ _ _ h
    rw [e1] at h ⊢; clear e1
    rw [Go.seq_assoc] at h ⊢
    obtain ⟨_, e1⟩ := Go.seq_failIf_ok _ _ _ _ _ h
    rw [e1] at h ⊢; clear e1
    rw [Go.seq_assoc, Go.seq_get, Go.seq_set, if_neg hp]
    exact rest _ _ rfl

/-- The statement `checkParams` assigns only `Method`. -/
theorem checkParams_inv (lib : Lib) (I : pay.Params → Prop)
    (hI : ∀ s m, I s → I { s with Method := m }) : Go.Inv I (pay.checkParams lib) := by
  unfold pay.checkParams
  simp only [Go.bind_eq]
  with_reducible apply Go.inv_seq_get
  intro r hr
  with_reducible repeat' first
    | exact Go.inv_failIf _ _ _
    | exact Go.inv_lift _ _
    | exact Go.inv_set _ _ (hI _ _ hr)
    | apply Go.inv_when
    | (apply Go.inv_seq_get; intro r2 hr2)
    | apply Go.inv_seq
    | intro _

/-- The methods `checkExtendParams` and `checkExtendUserInfo` assign nothing. -/
theorem checkExtend_inv (I : pay.Params → Prop) :
    Go.Inv I pay.checkExtendParams ∧ Go.Inv I pay.checkExtendUserInfo := by
  refine ⟨?_, ?_⟩
  · unfold pay.checkExtendParams
    simp only [Go.bind_eq]
    with_reducible apply Go.inv_seq
    · exact Go.inv_biz _
    intro b
    cases b.ExtendParams with
    | none => exact Go.inv_ret _ _
    | some e =>
      simp only []
      with_reducible repeat' first
        | exact Go.inv_failIf _ _ _
        | apply Go.inv_when
        | apply Go.inv_seq
        | intro _
  · unfold pay.checkExtendUserInfo
    simp only [Go.bind_eq]
    with_reducible apply Go.inv_seq
    · exact Go.inv_biz _
    intro b
    cases b.ExtUserInfo with
    | none => exact Go.inv_ret _ _
    | some u =>
      simp only []
      with_reducible repeat' first
        | exact Go.inv_failIf _ _ _
        | apply Go.inv_when
        | apply Go.inv_seq
        | intro _

/-- The payload a successful `SignByCert` leaves in the receiver: PassbackParams
is replaced by its escaped form when PromoParams is not empty. -/
theorem SignByCert_ok_biz (lib : Lib) (r : pay.Params) (b : pay.BizContent)
    (hb : r.BizContent = some b) (h : (pay.SignByCert lib r).result = .ok ()) :
    (pay.SignByCert lib r).state.BizContent =
      some (if b.PromoParams = [] then b
        else { b with PassbackParams := QueryEscape b.PassbackParams }) := by
  have i1 := checkParams_inv lib (fun s => s.BizContent = some b) (fun _ _ hs => hs)
  unfold pay.SignByCert at h ⊢
  simp only [Go.bind_eq] at h ⊢
  obtain ⟨_, _, h, e1⟩ := Go.seq_ok _ _ _ _ h
  rw [e1]; clear e1
  have v1 := i1 r hb
  generalize (pay.checkParams lib r).state = s1 at h v1 ⊢
  obtain ⟨_, h2, h, e2⟩ := Go.seq_ok _ _ _ _ h
  rw [e2]; clear e2
  have v2 : (pay.checkBizContent lib s1).state.BizContent =
      some (if b.PromoParams = [] then b
        else { b with PassbackParams := QueryEscape b.PassbackParams }) := by
    rw [checkBizContent_state lib s1 b v1 h2]
    by_cases hp : b.PromoParams = []
    · simp only [hp, if_true]; exact v1
    · simp only [hp, if_false]
  generalize (pay.checkBizContent lib s1).state = s2 at h v2 ⊢
  obtain ⟨i3, i4⟩ := checkExtend_inv (fun s => s.BizContent =
      some (if b.PromoParams = [] then b
        else { b with PassbackParams := QueryEscape b.PassbackParams }))
  obtain ⟨_, _, h, e3⟩ := Go.seq_ok _ _ _ _ h
  rw [e3]; clear e3
  have v3 := i3 s2 v2
  generalize (pay.checkExtendParams s2).state = s3 at h v3 ⊢
  obtain ⟨_, _, h, e4⟩ := Go.seq_ok _ _ _ _ h
  rw [e4]; clear e4
  have v4 := i4 s3 v3
  generalize (pay.checkExtendUserInfo s3).state = s4 at h v4 ⊢
  simp only [Go.seq_get, Go.seq_failIf] at h ⊢
  by_cases c1 : s4.AppCertSN = []
  · simp [c1] at h
  by_cases c2 : s4.AlipayRootCertSN = []
  · simp [c1, c2] at h
  simp only [c1, c2, if_false] at h ⊢
  obtain ⟨_, hbp, h, e5⟩ := Go.seq_ok _ _ _ _ h
  rw [e5]; clear e5
  cases hj : lib.jsonMarshal s4.BizContent with
  | error e =>
    unfold pay.buildParamsStr at hbp
    simp [hj] at hbp
  | ok j =>
    have hs5 := buildParamsStr_urlValues lib s4 j hj
    have v5 : (pay.buildParamsStr lib s4).state.BizContent = s4.BizContent := by
      rw [hs5]
    rw [v4] at v5
    generalize (pay.buildParamsStr lib s4).state = s5 at h v5 ⊢
    obtain ⟨made, hm, h, e6⟩ := Go.seq_ok _ _ _ _ h
    rw [e6]; clear e6
    rw [Go.pair_state, makeSign_apply] at h ⊢
    simp only [Go.seq_get, Go.seq_set] at h ⊢
    cases hm2 : made.2 with
    | some err => simp [hm2] at h
    | none => exact v5

/-- A payload with an empty GoodsType that passes the checks before it is
rejected by `checkBizContent`. -/
theorem checkBizContent_GoodsType (lib : Lib) (r : pay.Params) (b : pay.BizContent)
    (hb : r.BizContent = some b) (h1 : b.Body.length ≤ 128) (h2 : b.Subject ≠ [])
    (h3 : b.Subject.length ≤ 256) (h4 : b.OutTradeNo ≠ []) (h5 : b.OutTradeNo.length ≤ 64)
    (h6 : b.TimeoutExpress = []) (h7 : b.TimeExpire = [])
    (h8 : F32.lt b.TotalAmount F32.c001 = false) (h9 : F32.lt F32.c1e8 b.TotalAmount = false)
    (h10 : b.ProductCode = ascii "QUICK_WAP_WAY")
    (h11 : b.GoodsType ≠ ascii "0" ∧ b.GoodsType ≠ ascii "1") :
    (pay.checkBizContent lib r).result = .error (.msg "BizContent.GoodsType参数值只能是0或1") := by
  have hn : ¬ r.BizContent = none := by rw [hb]; simp
  have e0 : pay.biz r = ⟨.ok b, r, []⟩ := by unfold pay.biz; rw [hb]; rfl
  have g1 : ¬ b.Body.length > 128 := by omega
  have g3 : ¬ b.Subject.length > 256 := by omega
  have g5 : ¬ b.OutTradeNo.length > 64 := by omega
  unfold pay.checkBizContent
  simp only [Go.bind_eq, Go.seq_get]
  rw [Go.seq_when, if_neg hn, Go.seq_apply_ok _ _ _ b (by rw [e0]), e0]
  simp only [Go.seq_failIf, Go.seq_when, g1, h2, g3, h4, g5, h6, h7, h8, h9, h10, h11, if_false,
    if_true, ne_eq, not_true_eq_false, not_false_eq_true, Bool.false_eq_true, or_self, and_self]

set_option maxRecDepth 100000 in
/-- The request made by `New` with Subject, OutTradeNo, TotalAmount and
GoodsType set: the sample library signs it; its canonical string. -/
theorem New_request_sample :
    (pay.SignByCert demoLib (withGoodsType (ascii "1") (demoOrder demoNew))).result = .ok () ∧
    pay.GetParamsStr (pay.SignByCert demoLib (withGoodsType (ascii "1") (demoOrder demoNew))).state
      = ascii ("alipay_root_cert_sn=rootsn&app_cert_sn=appsn&app_id=2014072300007148"
        ++ "&biz_content=\x7bTest\x7d&charset=utf-8&method=alipay.trade.wap.pay&sign_type=RSA2"
        ++ "&timestamp=2024-01-01 00:00:00&version=1.0") := by
  decide

/-- C14: for every library whose `time.Parse` accepts `2024-01-01 00:00:00`,
the request made by `New` from the sample configuration, with only Subject
`Test`, OutTradeNo `T001` and TotalAmount 1.00 set by the caller (GoodsType is
left empty), is rejected by `SignByCert` with the GoodsType error and no
canonical string is built. With GoodsType `1` set as well, the sample library
signs the request and the canonical string has the nine fields in the order
alipay_root_cert_sn, app_cert_sn, app_id, biz_content, charset, method,
sign_type, timestamp, version. -/
theorem New_request_GoodsType (lib : Lib)
    (hlib : lib.timeParse (ascii "2024-01-01 00:00:00") = true) :
    pay.New (ascii "2024-01-01 00:00:00") (some demoConfig) = .ok demoNew ∧
    (demoOrder demoNew).BizContent.map (fun b => b.GoodsType) = some [] ∧
    (pay.SignByCert lib (demoOrder demoNew)).result
      = .error (.msg "BizContent.GoodsType参数值只能是0或1") ∧
    pay.GetParamsStr (pay.SignByCert lib (demoOrder demoNew)).state = [] ∧
    (pay.SignByCert demoLib (withGoodsType (ascii "1") (demoOrder demoNew))).result = .ok () ∧
    pay.GetParamsStr (pay.SignByCert demoLib (withGoodsType (ascii "1") (demoOrder demoNew))).state
      = ascii ("alipay_root_cert_sn=rootsn&app_cert_sn=appsn&app_id=2014072300007148"
        ++ "&biz_content=\x7bTest\x7d&charset=utf-8&method=alipay.trade.wap.pay&sign_type=RSA2"
        ++ "&timestamp=2024-01-01 00:00:00&version=1.0") := by
  have hb : (demoOrder demoNew).BizContent = some { pay.BizContent.zero with
      ProductCode := ascii "QUICK_WAP_WAY", Subject := ascii "Test", OutTradeNo := ascii "T001",
      TotalAmount := 1065353216 } := by decide
  have hcp : (pay.checkParams lib (demoOrder demoNew)).result = .ok () := by
    rw [checkParams_ok_iff]
    exact ⟨by decide, by decide, by decide, by decide, by decide, by decide, by decide, hlib,
      by decide, by decide⟩
  have hs1 := checkParams_inv lib (fun s => s.BizContent = (demoOrder demoNew).BizContent)
    (fun _ _ hs => hs) (demoOrder demoNew) rfl
  have hcb := checkBizContent_GoodsType lib (pay.checkParams lib (demoOrder demoNew)).state _
    (hs1.trans hb) (by decide) (by decide) (by decide) (by decide) (by decide) (by decide)
    (by decide) (by decide) (by decide) (by decide) (by decide)
  have hfirst : firstSome (pay.stepErrors lib (demoOrder demoNew))
      = some (.msg "BizContent.GoodsType参数值只能是0或1") := by
    unfold pay.stepErrors
    simp only [hcp, hcb, errorOf, firstSome]
  obtain ⟨r1, r2, _, _, _⟩ := SignByCert_validation lib (demoOrder demoNew) _ hfirst
  refine ⟨by decide, by decide, r1, ?_, New_request_sample.1, New_request_sample.2⟩
  unfold pay.GetParamsStr
  rw [r2]
  decide

/-- The sample library rejects the request made by `New`. -/
theorem New_request_GoodsType_witness :
    (pay.SignByCert demoLib (demoOrder demoNew)).result
      = .error (.msg "BizContent.GoodsType参数值只能是0或1") :=
  (New_request_GoodsType demoLib (by decide)).2.2.1

/-- C18: after a successful `checkBizContent` the payload is the one supplied
when PromoParams is empty, and the one supplied with PassbackParams replaced by
its url-escaped form when PromoParams is not empty: whether PassbackParams is
escaped depends on PromoParams. -/
theorem checkBizContent_passback_promo (lib : Lib) (r : pay.Params) (b : pay.BizContent)
    (hb : r.BizContent = some b) (h : (pay.checkBizContent lib r).result = .ok ()) :
    (pay.checkBizContent lib r).state.BizContent =
      some (if b.PromoParams = [] then b
        else { b with PassbackParams := QueryEscape b.PassbackParams }) := by
  rw [checkBizContent_state lib r b hb h]
  by_cases hp : b.PromoParams = []
  · simp only [hp, if_true]; exact hb
  · simp only [hp, if_false]

/-- Two payloads that differ only in PromoParams, empty and `{}`: PassbackParams
`a b` stays `a b` in the first and becomes `a+b` in the second. -/
theorem checkBizContent_passback_promo_witness :
    (pay.checkBizContent demoLib
      (withPassback (ascii "a b") [] demoParams)).state.BizContent.map (fun b => b.PassbackParams)
      = some (ascii "a b") ∧
    (pay.checkBizContent demoLib
      (withPassback (ascii "a b") (ascii "\x7b\x7d") demoParams)).state.BizContent.map
        (fun b => b.PassbackParams)
      = some (ascii "a+b") := by
  constructor
  · rw [checkBizContent_passback_promo demoLib _ _ rfl (by decide)]
    decide
  · rw [checkBizContent_passback_promo demoLib _ _ rfl (by decide)]
    decide

set_option maxRecDepth 100000 in
/-- Two calls of `SignByCert` in a row on a request with PassbackParams `a b`
and PromoParams `{}`: both return no error; the canonical strings differ. -/
theorem SignByCert_twice_sample :
    (pay.SignByCert demoLibPassback
      (withPassback (ascii "a b") (ascii "\x7b\x7d") demoParams)).result = .ok () ∧
    pay.GetParamsStr (pay.SignByCert demoLibPassback
      (withPassback (ascii "a b") (ascii "\x7b\x7d") demoParams)).state
      = ascii ("alipay_root_cert_sn=rootsn&app_cert_sn=appsn&app_id=2014072300007148"
        ++ "&biz_content=\x7bTest,a+b\x7d&charset=utf-8&method=alipay.trade.wap.pay"
        ++ "&sign_type=RSA2&timestamp=2024-01-01 00:00:00&version=1.0") ∧
    (pay.SignByCert demoLibPassback (pay.SignByCert demoLibPassback
      (withPassback (ascii "a b") (ascii "\x7b\x7d") demoParams)).state).result = .ok () ∧
    pay.GetParamsStr (pay.SignByCert demoLibPassback (pay.SignByCert demoLibPassback
      (withPassback (ascii "a b") (ascii "\x7b\x7d") demoParams)).state).state
      = ascii ("alipay_root_cert_sn=rootsn&app_cert_sn=appsn&app_id=2014072300007148"
        ++ "&biz_content=\x7bTest,a%2Bb\x7d&charset=utf-8&method=alipay.trade.wap.pay"
        ++ "&sign_type=RSA2&timestamp=2024-01-01 00:00:00&version=1.0") := by
  decide

set_option maxRecDepth 100000 in
/-- With a PassbackParams of 200 bytes `&` the first call of `SignByCert`
returns no error and the second returns the length error. -/
theorem SignByCert_twice_long :
    (pay.SignByCert demoLibPassback
      (withPassback (List.replicate 200 38) (ascii "\x7b\x7d") demoParams)).result = .ok () ∧
    (pay.SignByCert demoLibPassback (pay.SignByCert demoLibPassback
      (withPassback (List.replicate 200 38) (ascii "\x7b\x7d") demoParams)).state).result
      = .error (.msg "BizContent.PassbackParams参数值的长度不能大于512") := by
  decide

/-- C17: when PromoParams is not empty, a successful `SignByCert` leaves the
payload with PassbackParams url-escaped, and a second successful call on the
same receiver escapes it once more: the second call works on, and signs, a
payload that differs from the first whenever escaping changes the escaped
text. -/
theorem SignByCert_escapes_each_call (lib : Lib) (r : pay.Params) (b : pay.BizContent)
    (hb : r.BizContent = some b) (hp : b.PromoParams ≠ [])
    (h1 : (pay.SignByCert lib r).result = .ok ())
    (h2 : (pay.SignByCert lib (pay.SignByCert lib r).state).result = .ok ()) :
    (pay.SignByCert lib r).state.BizContent
      = some { b with PassbackParams := QueryEscape b.PassbackParams } ∧
    (pay.SignByCert lib (pay.SignByCert lib r).state).state.BizContent
      = some { b with PassbackParams := QueryEscape (QueryEscape b.PassbackParams) } := by
  have e1 := SignByCert_ok_biz lib r b hb h1
  rw [if_neg hp] at e1
  have e2 := SignByCert_ok_biz lib _ _ e1 h2
  rw [if_neg hp] at e2
  exact ⟨e1, e2⟩

/-- The sample request with PassbackParams `a b` and PromoParams `{}`: after
the first call the payload has `a+b`, after the second `a%2Bb`; the canonical
strings of the two calls differ; with a PassbackParams of 200 bytes `&` the
second call fails. -/
theorem SignByCert_escapes_each_call_witness :
    ((pay.SignByCert demoLibPassback
      (withPassback (ascii "a b") (ascii "\x7b\x7d") demoParams)).state.BizContent.map
        (fun b => b.PassbackParams) = some (ascii "a+b") ∧
    (pay.SignByCert demoLibPassback (pay.SignByCert demoLibPassback
      (withPassback (ascii "a b") (ascii "\x7b\x7d") demoParams)).state).state.BizContent.map
        (fun b => b.PassbackParams) = some (ascii "a%2Bb")) ∧
    pay.GetParamsStr (pay.SignByCert demoLibPassback
      (withPassback (ascii "a b") (ascii "\x7b\x7d") demoParams)).state ≠
    pay.GetParamsStr (pay.SignByCert demoLibPassback (pay.SignByCert demoLibPassback
      (withPassback (ascii "a b") (ascii "\x7b\x7d") demoParams)).state).state ∧
    (pay.SignByCert demoLibPassback (pay.SignByCert demoLibPassback
      (withPassback (List.replicate 200 38) (ascii "\x7b\x7d") demoParams)).state).result
      = .error (.msg "BizContent.PassbackParams参数值的长度不能大于512") := by
  have h := SignByCert_escapes_each_call demoLibPassback
    (withPassback (ascii "a b") (ascii "\x7b\x7d") demoParams) _ rfl (by decide)
    SignByCert_twice_sample.1 SignByCert_twice_sample.2.2.1
  refine ⟨⟨?_, ?_⟩, ?_, SignByCert_twice_long.2⟩
  · rw [h.1]; decide
  · rw [h.2]; decide
  · rw [SignByCert_twice_sample.2.1, SignByCert_twice_sample.2.2.2]
    decide

/-! ## The digest and the sign type -/

theorem buildParamsStr_quiet (lib : Lib) : Go.Quiet (pay.buildParamsStr lib) := by
  intro r
  unfold pay.buildParamsStr
  simp only [Go.bind_eq, Go.seq_get, Go.seq_set]
  cases lib.jsonMarshal r.BizContent <;> simp

/-- The method `buildParamsStr` assigns only `urlValues` and `paramsStr`. -/
theorem buildParamsStr_inv (lib : Lib) (I : pay.Params → Prop)
    (hI : ∀ s u p, I s → I { s with urlValues := u, paramsStr := p }) :
    Go.Inv I (pay.buildParamsStr lib) := by
  intro r hr
  unfold pay.buildParamsStr
  simp only [Go.bind_eq, Go.seq_get, Go.seq_set]
  cases lib.jsonMarshal r.BizContent with
  | error e => exact hI r _ r.paramsStr hr
  | ok j => exact hI r _ _ hr

theorem Go.pair_rsaOps {σ α : Type} (zero : α) (m : Go σ α) (s : σ) :
    (Go.pair zero m s).rsaOps = (m s).rsaOps := by
  unfold Go.pair
  split <;> rfl

/-- A successful `SignByCert` leaves `SignType` and the configuration as they
were, and the RSA operations it performs are those of `makeSign` on the
receiver it leaves. -/
theorem SignByCert_ok_ops (lib : Lib) (r : pay.Params)
    (h : (pay.SignByCert lib r).result = .ok ()) :
    (pay.SignByCert lib r).state.SignType = r.SignType ∧
    (pay.SignByCert lib r).state.alipayConfig = r.alipayConfig ∧
    (pay.SignByCert lib r).rsaOps = (pay.makeSign lib (pay.SignByCert lib r).state).rsaOps := by
  have hI : ∀ (s : pay.Params) (m : Str) (b : Option pay.BizContent),
      (s.SignType = r.SignType ∧ s.alipayConfig = r.alipayConfig) →
      (({ s with Method := m, BizContent := b } : pay.Params).SignType = r.SignType ∧
        ({ s with Method := m, BizContent := b } : pay.Params).alipayConfig = r.alipayConfig) :=
    fun _ _ _ hs => hs
  obtain ⟨i1, i2, i3, i4⟩ := checks_inv lib _ hI
  have i5 := buildParamsStr_inv lib
    (fun s => s.SignType = r.SignType ∧ s.alipayConfig = r.alipayConfig) (fun _ _ _ hs => hs)
  obtain ⟨q1, q2, q3, q4⟩ := checks_quiet lib
  have v1 := i1 r ⟨rfl, rfl⟩
  have w1 := q1 r
  unfold pay.SignByCert at h ⊢
  simp only [Go.bind_eq] at h ⊢
  cases h1 : (pay.checkParams lib r).result with
  | error e1 => rw [Go.seq_apply_error _ _ _ e1 h1] at h; simp at h
  | ok u1 =>
    rw [Go.seq_apply_ok _ _ _ u1 h1] at h ⊢
    simp only [w1, List.nil_append] at h ⊢
    generalize (pay.checkParams lib r).state = s1 at h v1 ⊢
    have v2 := i2 s1 v1
    have w2 := q2 s1
    cases h2 : (pay.checkBizContent lib s1).result with
    | error e2 => rw [Go.seq_apply_error _ _ _ e2 h2] at h; simp at h
    | ok u2 =>
      rw [Go.seq_apply_ok _ _ _ u2 h2] at h ⊢
      simp only [w2, List.nil_append] at h ⊢
      generalize (pay.checkBizContent lib s1).state = s2 at h v2 ⊢
      have v3 := i3 s2 v2
      have w3 := q3 s2
      cases h3 : (pay.checkExtendParams s2).result with
      | error e3 => rw [Go.seq_apply_error _ _ _ e3 h3] at h; simp at h
      | ok u3 =>
        rw [Go.seq_apply_ok _ _ _ u3 h3] at h ⊢
        simp only [w3, List.nil_append] at h ⊢
        generalize (pay.checkExtendParams s2).state = s3 at h v3 ⊢
        have v4 := i4 s3 v3
        have w4 := q4 s3
        cases h4 : (pay.checkExtendUserInfo s3).result with
        | error e4 => rw [Go.seq_apply_error _ _ _ e4 h4] at h; simp at h
        | ok u4 =>
          rw [Go.seq_apply_ok _ _ _ u4 h4] at h ⊢
          simp only [w4, List.nil_append] at h ⊢
          generalize (pay.checkExtendUserInfo s3).state = s4 at h v4 ⊢
          simp only [Go.seq_get, Go.seq_failIf] at h ⊢
          by_cases c1 : s4.AppCertSN = []
          · simp [c1] at h
          by_cases c2 : s4.AlipayRootCertSN = []
          · simp [c1, c2] at h
          simp only [c1, c2, if_false] at h ⊢
          have v5 := i5 s4 v4
          have w5 := buildParamsStr_quiet lib s4
          cases h5 : (pay.buildParamsStr lib s4).result with
          | error e5 => rw [Go.seq_apply_error _ _ _ e5 h5] at h; simp at h
          | ok u5 =>
            rw [Go.seq_apply_ok _ _ _ u5 h5] at h ⊢
            simp only [w5, List.nil_append] at h ⊢
            generalize (pay.buildParamsStr lib s4).state = s5 at h v5 ⊢
            cases h6 : (Go.pair [] (pay.makeSign lib) s5).result with
            | error e6 => rw [Go.seq_apply_error _ _ _ e6 h6] at h; simp at h
            | ok made =>
              rw [Go.seq_apply_ok _ _ _ made h6] at h ⊢
              rw [Go.pair_state, Go.pair_rsaOps] at h ⊢
              have hst : (pay.makeSign lib s5).state = s5 := by rw [makeSign_apply]
              rw [hst] at h ⊢
              simp only [Go.seq_get, Go.seq_set] at h ⊢
              cases hm2 : made.2 with
              | some err => simp [hm2] at h
              | none =>
                simp only [Go.ret_apply, List.append_nil]
                refine ⟨v5.1, v5.2, ?_⟩
                rw [makeSign_apply, makeSign_apply]

theorem requestFields_sign_type (r : pay.Params) (j : Str) :
    (ascii "sign_type", r.SignType) ∈ pay.requestFields r j := by
  unfold pay.requestFields
  simp

/-- C21: after a successful `SignByCert` the canonical string and the query
carry `sign_type` with the value of the field `SignType`, while the one RSA
operation performed uses the digest named by the sign type of the
configuration; the digest agrees with the `sign_type` written exactly when
`SignType` equals the configured sign type. -/
theorem SignByCert_digest_from_config (lib : Lib) (r : pay.Params) (c : config.Config)
    (hc : r.alipayConfig = some c) (h : (pay.SignByCert lib r).result = .ok ()) :
    ∃ j hType digest,
      pay.GetParamsStr (pay.SignByCert lib r).state
        = Join ((pay.requestFields (pay.SignByCert lib r).state j).map pairText) (ascii "&") ∧
      (pay.SignByCert lib r).state.urlValues
        = some (notify.formOfFields (pay.requestFields (pay.SignByCert lib r).state j)) ∧
      (ascii "sign_type", r.SignType) ∈ pay.requestFields (pay.SignByCert lib r).state j ∧
      (pay.SignByCert lib r).rsaOps = [.sign hType digest] ∧
      digestOf c.GetAppSignType = some hType ∧
      (digestOf r.SignType = some hType ↔ r.SignType = c.GetAppSignType) := by
  obtain ⟨j, huv, hps, hsig⟩ := SignByCert_ok_state lib r h
  obtain ⟨hst, hcfg, hops⟩ := SignByCert_ok_ops lib r h
  have hvalid : r.SignType = ascii "RSA" ∨ r.SignType = ascii "RSA2" := by
    unfold pay.SignByCert at h
    simp only [Go.bind_eq] at h
    obtain ⟨_, h1, _, _⟩ := Go.seq_ok _ _ _ _ h
    exact ((checkParams_ok_iff lib r).mp h1).2.2.2.2.2.2.1
  have hfield := requestFields_sign_type (pay.SignByCert lib r).state j
  rw [hst] at hfield
  rw [hops]
  have hne : (pay.SignByCert lib r).state.paramsStr ≠ [] := by
    intro he
    rw [makeSign_apply, he] at hsig
    simp at hsig
  rw [hc] at hcfg
  generalize (pay.SignByCert lib r).state = s at huv hps hsig hfield hcfg hne ⊢
  have hcanon : pay.GetParamsStr s = Join ((pay.requestFields s j).map pairText) (ascii "&") := by
    unfold pay.GetParamsStr
    rw [hps, pay.requestCanonical, requestSegments_eq]
  rw [makeSign_apply] at hsig ⊢
  simp only [hcfg, hne, if_false] at hsig ⊢
  have n21 : ascii "RSA2" ≠ ascii "RSA" := RSA2_ne_RSA
  by_cases t1 : c.GetAppSignType = ascii "RSA"
  · refine ⟨j, .SHA1, lib.sha1 s.paramsStr, hcanon, huv, hfield, by simp [t1], by simp [digestOf, t1],
      ?_⟩
    rw [t1]
    rcases hvalid with hv | hv <;> simp [digestOf, hv, n21]
  · by_cases t2 : c.GetAppSignType = ascii "RSA2"
    · refine ⟨j, .SHA256, lib.sha256 s.paramsStr, hcanon, huv, hfield, by simp [t2, n21],
        by simp [digestOf, t2, n21], ?_⟩
      rw [t2]
      rcases hvalid with hv | hv <;> simp [digestOf, hv, n21, n21.symm]
    · simp [t1, t2] at hsig

set_option maxRecDepth 100000 in
/-- The sample request with `SignType` changed to `RSA` under the sample
configuration, whose sign type is `RSA2`: `SignByCert` returns no error, the
canonical string says `sign_type=RSA`, and the RSA operation is on the SHA-256
digest. -/
theorem SignByCert_sign_type_sample :
    (pay.SignByCert demoLib { demoParams with SignType := ascii "RSA" }).result = .ok () ∧
    pay.GetParamsStr (pay.SignByCert demoLib { demoParams with SignType := ascii "RSA" }).state
      = ascii ("alipay_root_cert_sn=rootsn&app_cert_sn=appsn&app_id=2014072300007148"
        ++ "&biz_content=\x7bTest\x7d&charset=utf-8&method=alipay.trade.wap.pay&sign_type=RSA"
        ++ "&timestamp=2024-01-01 00:00:00&version=1.0") ∧
    (pay.SignByCert demoLib { demoParams with SignType := ascii "RSA" }).rsaOps
      = [.sign .SHA256 (demoLib.sha256
          (ascii ("alipay_root_cert_sn=rootsn&app_cert_sn=appsn&app_id=2014072300007148"
            ++ "&biz_content=\x7bTest\x7d&charset=utf-8&method=alipay.trade.wap.pay&sign_type=RSA"
            ++ "&timestamp=2024-01-01 00:00:00&version=1.0")))] ∧
    digestOf (ascii "RSA") = some .SHA1 := by
  decide

/-- The sample request with `SignType` changed to `RSA`: the digest of the RSA
operation is the one the configured sign type names, not the one the
`sign_type` written names. -/
theorem SignByCert_digest_from_config_witness :
    ∃ hType digest,
      (pay.SignByCert demoLib { demoParams with SignType := ascii "RSA" }).rsaOps
        = [.sign hType digest] ∧
      digestOf demoConfig.GetAppSignType = some hType ∧
      ¬ digestOf (ascii "RSA") = some hType := by
  obtain ⟨_, hType, digest, _, _, _, hops, hd, hiff⟩ :=
    SignByCert_digest_from_config demoLib { demoParams with SignType := ascii "RSA" } demoConfig
      rfl SignByCert_sign_type_sample.1
  exact ⟨hType, digest, hops, hd, fun hh => absurd (hiff.mp hh) (by decide)⟩

/-! ## The sign type of a configuration -/

theorem firstBlock_inv {σ : Type} (I : σ → Prop) (blocks : List config.PemBlock) :
    Go.Inv I (config.firstBlock blocks : Go σ config.PemBlock) := by
  intro s h
  unfold config.firstBlock
  cases blocks <;> exact h

/-- The outcome of `SetAppSignType`: the value is stored when it is `RSA` or
`RSA2`; otherwise the call returns an error and the receiver is unchanged. -/
theorem SetAppSignType_apply (value : Str) (obj : config.Config) :
    config.Config.SetAppSignType value obj =
      if value ≠ ascii "RSA" ∧ value ≠ ascii "RSA2" then
        ⟨.error (.msg "签名类型必须是RSA或RSA2(推荐)"), obj, []⟩
      else ⟨.ok (), { obj with appSignType := value }, []⟩ := by
  unfold config.Config.SetAppSignType
  simp only [Go.bind_eq, Go.seq_failIf, Go.seq_get, Go.set_apply]

/-- Every setter and loader but `SetAppSignType` leaves the sign type as it is. -/
theorem Call_run_signType (cl : config.CertLib) (call : config.Call) (obj : config.Config)
    (hcall : ∀ value, call ≠ .SetAppSignType value) :
    (call.run cl obj).state.appSignType = obj.appSignType := by
  have key : ∀ m : Go config.Config Unit,
      Go.Inv (fun s => s.appSignType = obj.appSignType) m → (m obj).state.appSignType
        = obj.appSignType := fun m hm => hm obj rfl
  cases call with
  | SetAppSignType value => exact absurd rfl (hcall value)
  | SetAppID value =>
    apply key
    unfold config.Call.run config.Config.SetAppID
    simp only [Go.bind_eq]
    with_reducible repeat' first
      | exact Go.inv_failIf _ _ _
      | (apply Go.inv_seq_get; intro o ho; exact Go.inv_set _ _ ho)
      | apply Go.inv_seq
      | intro _
  | LoadAlipayRootCert filePath =>
    apply key
    unfold config.Call.run config.Config.LoadAlipayRootCert
    simp only [Go.bind_eq]
    with_reducible apply Go.inv_seq
    · exact Go.inv_lift _ _
    intro fileData
    cases cl.ParsePEMBlocks fileData with
    | none => exact Go.inv_fail _ _
    | some blocks =>
      simp only []
      with_reducible repeat' first
        | exact Go.inv_failIf _ _ _
        | exact Go.inv_lift _ _
        | (apply Go.inv_seq_get; intro o ho; exact Go.inv_set _ _ ho)
        | apply Go.inv_seq
        | intro _
  | LoadAlipayCertPublicKey filePath =>
    apply key
    unfold config.Call.run config.Config.LoadAlipayCertPublicKey
    simp only [Go.bind_eq]
    with_reducible apply Go.inv_seq
    · exact Go.inv_lift _ _
    intro fileData
    cases cl.ParsePEMBlocks fileData with
    | none => exact Go.inv_fail _ _
    | some blocks =>
      simp only []
      with_reducible repeat' first
        | exact firstBlock_inv _ _
        | exact Go.inv_lift _ _
        | (apply Go.inv_seq_get; intro o ho; exact Go.inv_set _ _ ho)
        | apply Go.inv_seq
        | intro _
  | LoadAppCertPublicKey filePath =>
    apply key
    unfold config.Call.run config.Config.LoadAppCertPublicKey
    simp only [Go.bind_eq]
    with_reducible apply Go.inv_seq
    · exact Go.inv_lift _ _
    intro fileData
    cases cl.ParsePEMBlocks fileData with
    | none => exact Go.inv_fail _ _
    | some blocks =>
      simp only []
      with_reducible repeat' first
        | exact firstBlock_inv _ _
        | exact Go.inv_lift _ _
        | (apply Go.inv_seq_get; intro o ho; apply Go.inv_seq; exact Go.inv_set _ _ ho)
        | (apply Go.inv_seq_get; intro o ho; exact Go.inv_set _ _ ho)
        | apply Go.inv_seq
        | intro _
  | LoadAppPrivateKey filePath =>
    apply key
    unfold config.Call.run config.Config.LoadAppPrivateKey
    simp only [Go.bind_eq]
    with_reducible apply Go.inv_seq
    · exact Go.inv_lift _ _
    intro fileData
    cases cl.ParsePEMBlocks fileData with
    | none => exact Go.inv_fail _ _
    | some blocks =>
      simp only []
      with_reducible repeat' first
        | exact firstBlock_inv _ _
        | exact Go.inv_lift _ _
        | (apply Go.inv_seq_get; intro o ho; exact Go.inv_set _ _ ho)
        | apply Go.inv_seq
        | intro _
  | SetAppPrivateKey data =>
    apply key
    unfold config.Call.run config.Config.SetAppPrivateKey
    simp only [Go.bind_eq]
    cases cl.ParsePEMBlocks (cl.FormatPKCS1PrivateKey data) with
    | none => exact Go.inv_fail _ _
    | some blocks =>
      simp only []
      with_reducible repeat' first
        | exact firstBlock_inv _ _
        | exact Go.inv_lift _ _
        | (apply Go.inv_seq_get; intro o ho; exact Go.inv_set _ _ ho)
        | apply Go.inv_seq
        | intro _

/-- One call keeps the sign type, or stores `RSA` or `RSA2`. -/
theorem Call_run_signType_cases (cl : config.CertLib) (call : config.Call) (obj : config.Config) :
    (call.run cl obj).state.appSignType = obj.appSignType ∨
    (call.run cl obj).state.appSignType = ascii "RSA" ∨
    (call.run cl obj).state.appSignType = ascii "RSA2" := by
  by_cases hcall : ∀ value, call ≠ .SetAppSignType value
  · exact Or.inl (Call_run_signType cl call obj hcall)
  · have hex : ∃ value, call = .SetAppSignType value := by
      by_contra hn
      exact hcall (fun value hv => hn ⟨value, hv⟩)
    obtain ⟨value, rfl⟩ := hex
    have e : config.Call.run cl (.SetAppSignType value) obj
        = config.Config.SetAppSignType value obj := rfl
    rw [e, SetAppSignType_apply]
    by_cases h1 : value = ascii "RSA"
    · simp [h1]
    · by_cases h2 : value = ascii "RSA2"
      · simp [h2]
      · simp [h1, h2]

/-- A property of the sign type that holds of `RSA` and `RSA2` is kept by every
sequence of setter and loader calls. -/
theorem runCalls_signType (cl : config.CertLib) (P : Str → Prop) (h1 : P (ascii "RSA"))
    (h2 : P (ascii "RSA2")) (calls : List config.Call) (obj : config.Config)
    (h : P obj.appSignType) : P (config.runCalls cl calls obj).appSignType := by
  induction calls generalizing obj with
  | nil => exact h
  | cons call rest ih =>
    unfold config.runCalls
    rw [List.foldl_cons]
    apply ih
    rcases Call_run_signType_cases cl call obj with e | e | e
    · rw [e]; exact h
    · rw [e]; exact h1
    · rw [e]; exact h2

/-- C22: the sign type of a configuration reached from the zero value by any
sequence of setter and loader calls is empty, `RSA` or `RSA2`, and a rejected
`SetAppSignType` leaves the configuration unchanged. When `New` returns a
`Params` for such a configuration, its `SignType` is `RSA` or `RSA2`, the sign
type of the configuration stays `RSA` or `RSA2` under any further calls, and
`makeSign` with that configuration, given a canonical string, gets past the
switch to the RSA operation. -/
theorem config_signType_invariant (cl : config.CertLib) (calls more : List config.Call)
    (now : Str) (p : pay.Params) (lib : Lib) (r : pay.Params) :
    ((config.runCalls cl calls config.Config.zero).GetAppSignType = [] ∨
      (config.runCalls cl calls config.Config.zero).GetAppSignType = ascii "RSA" ∨
      (config.runCalls cl calls config.Config.zero).GetAppSignType = ascii "RSA2") ∧
    (∀ value obj, (config.Config.SetAppSignType value obj).result ≠ .ok () →
      (config.Config.SetAppSignType value obj).state = obj) ∧
    (pay.New now (some (config.runCalls cl calls config.Config.zero)) = .ok p →
      (p.SignType = ascii "RSA" ∨ p.SignType = ascii "RSA2") ∧
      ((config.runCalls cl more (config.runCalls cl calls config.Config.zero)).GetAppSignType
          = ascii "RSA" ∨
        (config.runCalls cl more (config.runCalls cl calls config.Config.zero)).GetAppSignType
          = ascii "RSA2") ∧
      (r.alipayConfig = some (config.runCalls cl more (config.runCalls cl calls config.Config.zero)) →
        r.paramsStr ≠ [] → (pay.makeSign lib r).rsaOps ≠ [])) := by
  have h0 := runCalls_signType cl
    (fun t => t = [] ∨ t = ascii "RSA" ∨ t = ascii "RSA2") (Or.inr (Or.inl rfl))
    (Or.inr (Or.inr rfl)) calls config.Config.zero (Or.inl rfl)
  refine ⟨h0, ?_, ?_⟩
  · intro value obj hne
    rw [SetAppSignType_apply] at hne ⊢
    by_cases hv : value ≠ ascii "RSA" ∧ value ≠ ascii "RSA2"
    · rw [if_pos hv]
    · rw [if_neg hv] at hne
      exact absurd rfl hne
  · intro hnew
    generalize config.runCalls cl calls config.Config.zero = cfg at h0 hnew ⊢
    unfold pay.New at hnew
    simp only [] at hnew
    by_cases c1 : cfg.GetAppID = []
    · simp [c1] at hnew
    by_cases c2 : cfg.GetAppSignType = []
    · simp [c1, c2] at hnew
    by_cases c3 : cfg.GetAppCertPublicKeySN = []
    · simp [c1, c2, c3] at hnew
    by_cases c4 : cfg.GetAlipayRootCertSN = []
    · simp [c1, c2, c3, c4] at hnew
    simp only [c1, c2, c3, c4, if_false, Except.ok.injEq] at hnew
    have hcfg : cfg.GetAppSignType = ascii "RSA" ∨ cfg.GetAppSignType = ascii "RSA2" := by
      rcases h0 with e | e
      · exact absurd e c2
      · exact e
    have hmore := runCalls_signType cl (fun t => t = ascii "RSA" ∨ t = ascii "RSA2") (Or.inl rfl)
      (Or.inr rfl) more cfg hcfg
    refine ⟨?_, hmore, ?_⟩
    · rw [← hnew]
      exact hcfg
    · intro hr hp
      rw [makeSign_apply]
      simp only [hr, hp, if_false]
      rcases hmore with e | e
      · have e2 : (config.runCalls cl more cfg).GetAppSignType = ascii "RSA" := e
        simp [e2]
      · have e2 : (config.runCalls cl more cfg).GetAppSignType = ascii "RSA2" := e
        simp [e2, RSA2_ne_RSA]

/-- The sample set-up: `New` returns a request; after the two further calls
the sign type is `RSA`, and `makeSign` with that configuration performs an RSA
operation. -/
theorem config_signType_invariant_witness :
    ((config.runCalls demoCertLibApp demoMoreCalls
        (config.runCalls demoCertLibApp demoCalls config.Config.zero)).GetAppSignType = ascii "RSA" ∨
      (config.runCalls demoCertLibApp demoMoreCalls
        (config.runCalls demoCertLibApp demoCalls config.Config.zero)).GetAppSignType
        = ascii "RSA2") ∧
    (pay.makeSign demoLib { demoParams with
      alipayConfig := some (config.runCalls demoCertLibApp demoMoreCalls
        (config.runCalls demoCertLibApp demoCalls config.Config.zero)),
      paramsStr := ascii "x" }).rsaOps ≠ [] :=
  ⟨((config_signType_invariant demoCertLibApp demoCalls demoMoreCalls
      (ascii "2024-01-01 00:00:00") _ demoLib demoParams).2.2 rfl).2.1,
    ((config_signType_invariant demoCertLibApp demoCalls demoMoreCalls
      (ascii "2024-01-01 00:00:00") _ demoLib _).2.2 rfl).2.2 rfl (by decide)⟩

/-! ## Panics in the validation -/

theorem Go.noPanic_ret {σ α : Type} (a : α) : Go.NoPanic (Go.ret a : Go σ α) := by
  intro s p; simp
theorem Go.noPanic_get {σ : Type} : Go.NoPanic (Go.get : Go σ σ) := by
  intro s p; simp
theorem Go.noPanic_set {σ : Type} (t : σ) : Go.NoPanic (Go.set t) := by
  intro s p; simp
theorem Go.noPanic_failIf {σ : Type} (c : Prop) [Decidable c] (t : String) :
    Go.NoPanic (Go.failIf c (.msg t) : Go σ Unit) := by
  intro s p; rw [Go.failIf_apply]; split <;> simp
theorem Go.noPanic_lift {σ α : Type} (x : Except Err α) (h : ∀ p, x ≠ .error (.panic p)) :
    Go.NoPanic (Go.lift x : Go σ α) := by
  intro s p; simpa using h p
theorem Go.noPanic_when {σ : Type} (c : Prop) [Decidable c] (body : Go σ Unit)
    (hb : c → Go.NoPanic body) : Go.NoPanic (Go.when c body) := by
  intro s p; rw [Go.when_apply]
  by_cases hc : c
  · rw [if_pos hc]; exact hb hc s p
  · rw [if_neg hc]; simp
theorem Go.noPanic_seq {σ α β : Type} (m : Go σ α) (f : α → Go σ β)
    (hm : Go.NoPanic m) (hf : ∀ a, Go.NoPanic (f a)) : Go.NoPanic (Go.seq m f) := by
  intro s p
  cases hr : (m s).result with
  | error e =>
    rw [Go.seq_apply_error m f s e hr]
    have hne := hm s p
    rw [hr] at hne
    simpa using hne
  | ok a => rw [Go.seq_apply_ok m f s a hr]; exact hf a _ p

/-- On a text that is not empty `checkDuration` returns a value: both of its
slice expressions are within bounds. -/
theorem checkDuration_no_panic (v : Str) (h : v ≠ []) : ∃ ok, pay.checkDuration v = .ok ok := by
  have hl : 1 ≤ v.length := List.length_pos.mpr h
  have s1 : ∃ u, slice v ((v.length : Int) - 1) v.length = .ok u := by
    unfold slice
    rw [if_pos (by omega)]
    exact ⟨_, rfl⟩
  have s2 : ∃ d, slice v 0 ((v.length : Int) - 1) = .ok d := by
    unfold slice
    rw [if_pos (by omega)]
    exact ⟨_, rfl⟩
  obtain ⟨u, hu⟩ := s1
  obtain ⟨d, hd⟩ := s2
  unfold pay.checkDuration
  rw [hu]
  simp only [hd]
  split
  · exact ⟨_, rfl⟩
  · exact ⟨_, rfl⟩

theorem firstError_mem (l : List (Bool × Err)) (e : Err) (h : firstError l = some e) :
    e ∈ l.map Prod.snd := by
  induction l with
  | nil => simp [firstError] at h
  | cons a rest ih =>
    obtain ⟨bad, e1⟩ := a
    unfold firstError at h
    by_cases hb : bad = true
    · simp only [hb, if_true, Option.some.injEq] at h
      simp [h]
    · simp only [hb, if_false, Bool.false_eq_true] at h
      simp [ih h]

/-- The method `checkParams` never panics. -/
theorem checkParams_no_panic (lib : Lib) : Go.NoPanic (pay.checkParams lib) := by
  intro r p
  rw [checkParams_result]
  cases hfe : firstError (pay.paramChecks lib r) with
  | none => simp
  | some e =>
    have hm := firstError_mem _ _ hfe
    simp only [ne_eq, Except.error.injEq]
    intro he
    subst he
    unfold pay.paramChecks pay.urlError at hm
    simp only [List.map_cons, List.map_nil, List.mem_cons, List.mem_singleton, List.not_mem_nil,
      or_false] at hm
    rcases hm with h | h | h | h | h | h | h | h | h | h
    all_goals first
      | exact Err.noConfusion h
      | (split at h <;> exact Err.noConfusion h)

/-- The dereference of a `BizContent` that is not nil, followed by statements
that do not panic and keep it not nil. -/
theorem biz_seq_no_panic (p : String) (s : pay.Params) (hs : s.BizContent ≠ none)
    (f : pay.BizContent → Go pay.Params Unit) (hf : ∀ b, Go.NoPanic (f b))
    (hi : ∀ b, Go.Inv (fun t => t.BizContent ≠ none) (f b)) :
    (Go.seq pay.biz f s).result ≠ .error (.panic p) ∧
    (Go.seq pay.biz f s).state.BizContent ≠ none := by
  cases hb : s.BizContent with
  | none => exact absurd hb hs
  | some b =>
    have e0 : pay.biz s = ⟨.ok b, s, []⟩ := by unfold pay.biz; rw [hb]; rfl
    rw [Go.seq_apply_ok _ _ _ b (by rw [e0]), e0]
    exact ⟨hf b s p, hi b s hs⟩

/-- The method `checkBizContent` never panics, whether `BizContent` is nil or
not, and leaves a `BizContent` that is not nil. -/
theorem checkBizContent_no_panic (lib : Lib) (r : pay.Params) (p : String) :
    (pay.checkBizContent lib r).result ≠ .error (.panic p) ∧
    (pay.checkBizContent lib r).state.BizContent ≠ none := by
  unfold pay.checkBizContent
  simp only [Go.bind_eq, Go.seq_get]
  by_cases hb : r.BizContent = none
  · rw [Go.seq_when, if_pos hb, Go.seq_set]
    refine biz_seq_no_panic p _ (by simp) _ ?_ ?_
    all_goals intro b
    all_goals with_reducible repeat' first
      | exact Go.noPanic_failIf _ _
      | exact Go.noPanic_get
      | exact Go.noPanic_set _
      | exact Go.noPanic_lift _ (fun p hp => by
          obtain ⟨ok, hok⟩ := checkDuration_no_panic _ (by assumption)
          rw [hok] at hp
          exact Except.noConfusion hp)
      | (apply Go.noPanic_when; intro _)
      | apply Go.noPanic_seq
      | exact Go.inv_failIf _ _ _
      | exact Go.inv_lift _ _
      | (apply Go.inv_seq_get; intro r2 hr2; exact Go.inv_set _ _ (by simp))
      | apply Go.inv_when
      | apply Go.inv_seq
      | intro _
  · rw [Go.seq_when, if_neg hb]
    refine biz_seq_no_panic p _ hb _ ?_ ?_
    all_goals intro b
    all_goals with_reducible repeat' first
      | exact Go.noPanic_failIf _ _
      | exact Go.noPanic_get
      | exact Go.noPanic_set _
      | exact Go.noPanic_lift _ (fun p hp => by
          obtain ⟨ok, hok⟩ := checkDuration_no_panic _ (by assumption)
          rw [hok] at hp
          exact Except.noConfusion hp)
      | (apply Go.noPanic_when; intro _)
      | apply Go.noPanic_seq
      | exact Go.inv_failIf _ _ _
      | exact Go.inv_lift _ _
      | (apply Go.inv_seq_get; intro r2 hr2; exact Go.inv_set _ _ (by simp))
      | apply Go.inv_when
      | apply Go.inv_seq
      | intro _

/-- The methods `checkExtendParams` and `checkExtendUserInfo` do not panic on a
receiver whose `BizContent` is not nil. -/
theorem checkExtend_no_panic (r : pay.Params) (p : String) (hr : r.BizContent ≠ none) :
    (pay.checkExtendParams r).result ≠ .error (.panic p) ∧
    (pay.checkExtendUserInfo r).result ≠ .error (.panic p) := by
  constructor
  · unfold pay.checkExtendParams
    simp only [Go.bind_eq]
    refine (biz_seq_no_panic p r hr _ ?_ ?_).1
    · intro b
      cases b.ExtendParams with
      | none => exact Go.noPanic_ret _
      | some e =>
        simp only []
        with_reducible repeat' first
          | exact Go.noPanic_failIf _ _
          | (apply Go.noPanic_when; intro _)
          | apply Go.noPanic_seq
          | intro _
    · intro b
      cases b.ExtendParams with
      | none => exact Go.inv_ret _ _
      | some e =>
        simp only []
        with_reducible repeat' first
          | exact Go.inv_failIf _ _ _
          | apply Go.inv_when
          | apply Go.inv_seq
          | intro _
  · unfold pay.checkExtendUserInfo
    simp only [Go.bind_eq]
    refine (biz_seq_no_panic p r hr _ ?_ ?_).1
    · intro b
      cases b.ExtUserInfo with
      | none => exact Go.noPanic_ret _
      | some u =>
        simp only []
        with_reducible repeat' first
          | exact Go.noPanic_failIf _ _
          | (apply Go.noPanic_when; intro _)
          | apply Go.noPanic_seq
          | intro _
    · intro b
      cases b.ExtUserInfo with
      | none => exact Go.inv_ret _ _
      | some u =>
        simp only []
        with_reducible repeat' first
          | exact Go.inv_failIf _ _ _
          | apply Go.inv_when
          | apply Go.inv_seq
          | intro _

/-- No validation step of `SignByCert` ends in a panic. -/
theorem stepErrors_no_panic (lib : Lib) (r : pay.Params) (p : String) :
    firstSome (pay.stepErrors lib r) ≠ some (.panic p) := by
  have h1 := checkParams_no_panic lib r p
  have h2 := checkBizContent_no_panic lib (pay.checkParams lib r).state p
  have h3 := checkExtend_no_panic (pay.checkBizContent lib (pay.checkParams lib r).state).state p h2.2
  have e3 : (pay.checkExtendParams (pay.checkBizContent lib (pay.checkParams lib r).state).state).state
      = (pay.checkBizContent lib (pay.checkParams lib r).state).state :=
    (checkExtend_inv (fun s => s = (pay.checkBizContent lib (pay.checkParams lib r).state).state)).1
      _ rfl
  have h4 := h3.2
  rw [← e3] at h4
  unfold pay.stepErrors
  simp only []
  generalize (pay.checkParams lib r).result = x1 at h1 ⊢
  generalize (pay.checkBizContent lib (pay.checkParams lib r).state).result = x2 at h2 ⊢
  generalize (pay.checkExtendParams
    (pay.checkBizContent lib (pay.checkParams lib r).state).state).result = x3 at h3 ⊢
  generalize (pay.checkExtendUserInfo (pay.checkExtendParams
    (pay.checkBizContent lib (pay.checkParams lib r).state).state).state).result = x4 at h4 ⊢
  cases x1 with
  | error e => simpa [errorOf, firstSome] using h1
  | ok _ =>
    cases x2 with
    | error e => simpa [errorOf, firstSome] using h2.1
    | ok _ =>
      cases x3 with
      | error e => simpa [errorOf, firstSome] using h3.1
      | ok _ =>
        cases x4 with
        | error e => simpa [errorOf, firstSome] using h4
        | ok _ =>
          by_cases c1 : r.AppCertSN = []
          · simp [errorOf, firstSome, c1]
          · by_cases c2 : r.AlipayRootCertSN = []
            · simp [errorOf, firstSome, c1, c2]
            · simp [errorOf, firstSome, c1, c2]

/-- C23: for every receiver, `checkParams` and `checkBizContent` never panic,
`checkBizContent` leaves a `BizContent` that is not nil, and on a receiver
whose `BizContent` is not nil `checkExtendParams` and `checkExtendUserInfo`
never panic; the prefix slices of a URL of at least 8 bytes and the slices of
`checkDuration` on a text that is not empty are within bounds. So no validation
step of `SignByCert` ends in a panic, and a panic of `SignByCert` can only come
after every validation step has passed. -/
theorem validation_no_panic (lib : Lib) (r : pay.Params) (p : String) :
    (pay.checkParams lib r).result ≠ .error (.panic p) ∧
    (pay.checkBizContent lib r).result ≠ .error (.panic p) ∧
    (pay.checkBizContent lib r).state.BizContent ≠ none ∧
    (r.BizContent ≠ none →
      (pay.checkExtendParams r).result ≠ .error (.panic p) ∧
      (pay.checkExtendUserInfo r).result ≠ .error (.panic p)) ∧
    (∀ u : Str, 8 ≤ u.length → slice u 0 7 = .ok (u.take 7) ∧ slice u 0 8 = .ok (u.take 8)) ∧
    (∀ v : Str, v ≠ [] → ∃ ok, pay.checkDuration v = .ok ok) ∧
    firstSome (pay.stepErrors lib r) ≠ some (.panic p) ∧
    ((pay.SignByCert lib r).result = .error (.panic p) →
      firstSome (pay.stepErrors lib r) = none) := by
  refine ⟨checkParams_no_panic lib r p, (checkBizContent_no_panic lib r p).1,
    (checkBizContent_no_panic lib r p).2, checkExtend_no_panic r p, ?_, checkDuration_no_panic,
    stepErrors_no_panic lib r p, ?_⟩
  · intro u hu
    exact ⟨slice_zero u 7 (by omega), slice_zero u 8 (by omega)⟩
  · intro hp
    cases hf : firstSome (pay.stepErrors lib r) with
    | none => rfl
    | some e =>
      have hv := (SignByCert_validation lib r e hf).1
      rw [hv] at hp
      have he : e = .panic p := Except.error.inj hp
      rw [he] at hf
      exact absurd hf (stepErrors_no_panic lib r p)

/-- The sample request: `checkExtendParams` and `checkExtendUserInfo` do not
panic on it, and the slices of `https://example.com/r` and of `90m` are within
bounds; on the sample request without a configuration, where `SignByCert` ends
in a panic, every validation step has passed. -/
theorem validation_no_panic_witness :
    ((pay.checkExtendParams demoParams).result ≠ .error (.panic "nil pointer dereference") ∧
      (pay.checkExtendUserInfo demoParams).result ≠ .error (.panic "nil pointer dereference")) ∧
    (slice (ascii "https://example.com/r") 0 7 = .ok ((ascii "https://example.com/r").take 7) ∧
      slice (ascii "https://example.com/r") 0 8 = .ok ((ascii "https://example.com/r").take 8)) ∧
    (∃ ok, pay.checkDuration (ascii "90m") = .ok ok) ∧
    firstSome (pay.stepErrors demoLib { demoParams with alipayConfig := none }) = none :=
  ⟨(validation_no_panic demoLib demoParams "nil pointer dereference").2.2.2.1 (by decide),
    (validation_no_panic demoLib demoParams "nil pointer dereference").2.2.2.2.1
      (ascii "https://example.com/r") (by decide),
    (validation_no_panic demoLib demoParams "nil pointer dereference").2.2.2.2.2.1
      (ascii "90m") (by decide),
    (validation_no_panic demoLib { demoParams with alipayConfig := none }
      "nil pointer dereference").2.2.2.2.2.2.2 (by decide)⟩

/-! ## The errors of veritySign -/

/-- C24: for every map the text `Encode` writes is unescaped without an error,
so the string `veritySign` digests always exists; an error `veritySign` returns
is the error of the base64 decoding of `sign`, the error of the sign-type
switch, or the error of the RSA check. The only other way the call ends is the
panic of a nil configuration or a nil public key. -/
theorem veritySign_errors (lib : Lib) (cfg : Option config.Config) (v : Values) :
    (∀ m : Values, ∃ q, QueryUnescape m.Encode = .ok q) ∧
    (∃ data, notify.veritySignData ((v.Del (ascii "sign")).Del (ascii "sign_type")) = .ok data) ∧
    (∀ e, (notify.veritySign lib cfg v).result = .error e →
      lib.base64Decode (v.Get (ascii "sign")) = .error e ∨
      (e = .msg "仅支持RSA(SHA1)和RSA2(SHA256)两种签名算法" ∧
        ∃ c, cfg = some c ∧ c.GetAppSignType ≠ ascii "RSA" ∧ c.GetAppSignType ≠ ascii "RSA2") ∨
      (∃ key hType digest signData, lib.VerifyPKCS1v15 key hType digest signData = some e) ∨
      (e = .panic "nil pointer dereference" ∧
        (cfg = none ∨ ∃ c, cfg = some c ∧ c.GetAlipayPublicKey = none))) := by
  refine ⟨fun m => ⟨_, by rw [Encode_eq]; exact QueryUnescape_Join _⟩,
    ⟨_, veritySignData_eq _⟩, ?_⟩
  intro e he
  rw [veritySign_apply, veritySignData_eq] at he
  simp only [] at he
  cases hd : lib.base64Decode (v.Get (ascii "sign")) with
  | error e1 =>
    rw [hd] at he
    simp only [Except.error.injEq] at he
    exact Or.inl (by rw [he])
  | ok signData =>
    rw [hd] at he
    simp only [] at he
    cases cfg with
    | none =>
      simp only [Except.error.injEq] at he
      exact Or.inr (Or.inr (Or.inr ⟨he.symm, Or.inl rfl⟩))
    | some c =>
      simp only [] at he
      by_cases t1 : c.GetAppSignType = ascii "RSA"
      · rw [if_pos t1] at he
        cases hk : c.GetAlipayPublicKey with
        | none =>
          rw [hk] at he
          simp only [Except.error.injEq] at he
          exact Or.inr (Or.inr (Or.inr ⟨he.symm, Or.inr ⟨c, rfl, hk⟩⟩))
        | some key =>
          rw [hk] at he
          simp only [] at he
          cases hv : lib.VerifyPKCS1v15 key .SHA1
              (lib.sha1 (Join (sortStrings ((((v.Del (ascii "sign")).Del
                (ascii "sign_type")).sortedPairs.map pairText).flatMap
                  (fun p => Split p 38))) [38])) signData with
          | none => rw [hv] at he; simp at he
          | some err =>
            rw [hv] at he
            simp only [Except.error.injEq] at he
            exact Or.inr (Or.inr (Or.inl ⟨key, _, _, _, by rw [hv, he]⟩))
      · rw [if_neg t1] at he
        by_cases t2 : c.GetAppSignType = ascii "RSA2"
        · rw [if_pos t2] at he
          cases hk : c.GetAlipayPublicKey with
          | none =>
            rw [hk] at he
            simp only [Except.error.injEq] at he
            exact Or.inr (Or.inr (Or.inr ⟨he.symm, Or.inr ⟨c, rfl, hk⟩⟩))
          | some key =>
            rw [hk] at he
            simp only [] at he
            cases hv : lib.VerifyPKCS1v15 key .SHA256
                (lib.sha256 (Join (sortStrings ((((v.Del (ascii "sign")).Del
                  (ascii "sign_type")).sortedPairs.map pairText).flatMap
                    (fun p => Split p 38))) [38])) signData with
            | none => rw [hv] at he; simp at he
            | some err =>
              rw [hv] at he
              simp only [Except.error.injEq] at he
              exact Or.inr (Or.inr (Or.inl ⟨key, _, _, _, by rw [hv, he]⟩))
        · rw [if_neg t2] at he
          simp only [Except.error.injEq] at he
          exact Or.inr (Or.inl ⟨he.symm, c, rfl, t1, t2⟩)

/-- A notification whose `sign` is not valid base64 text: the error
`veritySign` returns is the error of the decoding. -/
theorem veritySign_errors_witness :
    demoLib.base64Decode ((notify.formOfFields
        [(ascii "app_id", ascii "1"), (ascii "sign", ascii "zz")]).Get (ascii "sign"))
      = .error (.lib "illegal base64 data") ∨
    (Err.lib "illegal base64 data" = .msg "仅支持RSA(SHA1)和RSA2(SHA256)两种签名算法" ∧
      ∃ c, some demoConfig = some c ∧ c.GetAppSignType ≠ ascii "RSA" ∧
        c.GetAppSignType ≠ ascii "RSA2") ∨
    (∃ key hType digest signData,
      demoLib.VerifyPKCS1v15 key hType digest signData = some (.lib "illegal base64 data")) ∨
    (Err.lib "illegal base64 data" = .panic "nil pointer dereference" ∧
      (some demoConfig = none ∨ ∃ c, some demoConfig = some c ∧ c.GetAlipayPublicKey = none)) :=
  (veritySign_errors demoLib (some demoConfig)
    (notify.formOfFields [(ascii "app_id", ascii "1"), (ascii "sign", ascii "zz")])).2.2
    (.lib "illegal base64 data") (by decide)

end Alipay
